import Mathlib

/-!
# udcore: the semaphore and the threads of udThread.cpp

A shallow embedding of `udPlatform/Source/udThread.cpp`: the reference-counted
semaphore (`udCreateSemaphore`, `udDestroySemaphore`, `udIncrementSemaphore`,
`udWaitSemaphore` and the `_Internal` helpers they call), the reference-counted
threads (`udThread_Create`, `udThread_Bootstrap`, `udThread_Destroy`,
`udThread_Join`), the deadline computation `udThread_MsToTimespec`, and the
async job of `udAsyncJob.h` on top of the semaphore.

Conventions of the embedding.

* One semaphore object and one handle variable are tracked.  A pointer to the
  object is a `Ptr` (`nullptr` or the address of the object), a pointer to the
  handle variable is a `HandlePtr`.
* `count` and `refCount` are C `int`s.  They are embedded as `Int`; the only
  arithmetic the code performs on them is `++` and `--`, whose overflow C++
  leaves undefined, so no wrap-around is modelled.
* Every access the code makes to the memory of the object is appended, in
  program order, to `World.log`.  The object is never removed from the world:
  `udDestroySemaphore_Internal` logs `Event.release`, and what happened to the
  object afterwards stays visible in the log.
* `udSleepSemaphore_Internal` is the one blocking primitive.  A call to
  `udWaitSemaphore` is therefore cut at its sleeps: `udWaitSemaphore_enter` runs
  from the entry of the function to its first sleep (or to its return) and
  `udWaitSemaphore_resume` runs from the return of a sleep to the next sleep
  (or to the return).  The value returned by the sleep is an input.
-/

namespace UdThread

/-! ## Data model -/

/-- A value of type `udSemaphore *`: `nullptr` or the address of the object. -/
inductive Ptr
  | null
  | obj
  deriving DecidableEq, Repr

/-- A value of type `udSemaphore **`: `nullptr` or the address of the
handle variable of the caller. -/
inductive HandlePtr
  | null
  | var
  deriving DecidableEq, Repr

/-- One access to the memory of the semaphore object. -/
inductive Event
  /-- plain read of `refCount` (lines 327, 342, 361) -/
  | refRead
  /-- the call `udInterlockedPreIncrement(&pSemaphore->refCount)` -/
  | refInc
  /-- the call `udInterlockedPreDecrement(&pSemaphore->refCount)` -/
  | refDec
  /-- read of `count` (lines 370, 389) -/
  | countRead
  /-- the statement `++(pSemaphore->count)` -/
  | countInc
  /-- the statement `pSemaphore->count--` -/
  | countDec
  /-- the call `udLockSemaphore_Internal` -/
  | lock
  /-- the call `udUnlockSemaphore_Internal` -/
  | unlock
  /-- the call `udWakeSemaphore_Internal` -/
  | wake
  /-- entry of `udSleepSemaphore_Internal(pSemaphore, waitMs)` -/
  | sleep (waitMs : Int)
  /-- return of `udSleepSemaphore_Internal` with the given value -/
  | wokeUp (retVal : Bool)
  /-- the call `udDestroySemaphore_Internal` on the object: the mutex and the condition
  are destroyed and the memory is freed -/
  | release
  deriving DecidableEq, Repr

/-- The state the semaphore code works on: the handle variable of the caller,
the two fields of `struct udSemaphore` (lines 200-212) that the code reads and
writes, the state of its mutex, and the log of accesses. -/
structure World where
  /-- the handle variable `*ppSemaphore` -/
  handle : Ptr
  /-- the field `volatile int count` -/
  count : Int
  /-- the field `volatile int refCount` -/
  refCount : Int
  /-- whether the mutex (critical section) of the object is held -/
  locked : Bool
  /-- every access to the object so far, oldest first -/
  log : List Event
  deriving DecidableEq, Repr

/-- Modelled from the spec: the sentinel `UDTHREAD_WAIT_INFINITE` of `udThread.h`,
a header that is not among the sources.  The spec calls it the one reserved
timeout value that means block indefinitely; `udThread_Join` asserts at compile
time that it equals the Windows constant `INFINITE`, which is `-1` as an `int`.
The theorems below only use whether `waitMs` equals it. -/
def UDTHREAD_WAIT_INFINITE : Int := -1

/-! ## Observations on the log -/

/-- Number of times `udDestroySemaphore_Internal` ran on the object. -/
def released (w : World) : Nat := w.log.count Event.release

/-- Number of `udWakeSemaphore_Internal` calls. -/
def wakes (w : World) : Nat := w.log.count Event.wake

/-- Number of `udLockSemaphore_Internal` calls. -/
def locks (w : World) : Nat := w.log.count Event.lock

/-- Number of `udUnlockSemaphore_Internal` calls. -/
def unlocks (w : World) : Nat := w.log.count Event.unlock

/-- Whether the event is the entry of a sleep. -/
def Event.isSleep : Event → Bool
  | Event.sleep _ => true
  | _ => false

/-- Number of `udSleepSemaphore_Internal` calls. -/
def sleeps (w : World) : Nat := w.log.countP Event.isSleep

/-- Units added to `count` (by increments and by the drain of a destroy). -/
def deposited (w : World) : Nat := w.log.count Event.countInc

/-- Units taken from `count` by waits. -/
def consumed (w : World) : Nat := w.log.count Event.countDec

/-- Whether the mutex is held after the events of the log, by the log alone:
`lock` and the return of a sleep acquire it, `unlock` and the entry of a sleep
give it up. -/
def heldAfter : List Event → Bool → Bool
  | [], h => h
  | Event.lock :: es, _ => heldAfter es true
  | Event.wokeUp _ :: es, _ => heldAfter es true
  | Event.unlock :: es, _ => heldAfter es false
  | Event.sleep _ :: es, _ => heldAfter es false
  | _ :: es, h => heldAfter es h

/-- Every `wake` of the log is issued while the mutex is held, starting from
the mutex state `h`. -/
def wakesUnderLock : List Event → Bool → Bool
  | [], _ => true
  | Event.wake :: es, h => h && wakesUnderLock es h
  | Event.lock :: es, _ => wakesUnderLock es true
  | Event.wokeUp _ :: es, _ => wakesUnderLock es true
  | Event.unlock :: es, _ => wakesUnderLock es false
  | Event.sleep _ :: es, _ => wakesUnderLock es false
  | _ :: es, h => wakesUnderLock es h

/-- Number of events logged after the first `release`: the accesses made to the
object after its memory was freed. -/
def staleAccesses : List Event → Nat
  | [] => 0
  | Event.release :: es => es.length
  | _ :: es => staleAccesses es

/-! ## Primitives -/

/-- Append one access to the log. -/
def emit (e : Event) (w : World) : World :=
  { w with log := w.log ++ [e] }

/-- Plain read of `pSemaphore->refCount`; the value read is `w.refCount`. -/
def readRefCount (w : World) : World := emit Event.refRead w

/-- Read of `pSemaphore->count`; the value read is `w.count`. -/
def readCount (w : World) : World := emit Event.countRead w

/-- The function `udInterlockedPreIncrement(&pSemaphore->refCount)`; the value it returns is
the `refCount` of the result. -/
def udInterlockedPreIncrement (w : World) : World :=
  emit Event.refInc { w with refCount := w.refCount + 1 }

/-- The function `udInterlockedPreDecrement(&pSemaphore->refCount)`; the value it returns is
the `refCount` of the result. -/
def udInterlockedPreDecrement (w : World) : World :=
  emit Event.refDec { w with refCount := w.refCount - 1 }

/-- The statement `++(pSemaphore->count)`. -/
def incCount (w : World) : World :=
  emit Event.countInc { w with count := w.count + 1 }

/-- The statement `pSemaphore->count--`. -/
def decCount (w : World) : World :=
  emit Event.countDec { w with count := w.count - 1 }

/-- The function `udLockSemaphore_Internal` (lines 254-261) on the object. -/
def udLockSemaphore_Internal (w : World) : World :=
  emit Event.lock { w with locked := true }

/-- The function `udUnlockSemaphore_Internal` (lines 265-272) on the object. -/
def udUnlockSemaphore_Internal (w : World) : World :=
  emit Event.unlock { w with locked := false }

/-- The function `udWakeSemaphore_Internal` (lines 276-283) on the object. -/
def udWakeSemaphore_Internal (w : World) : World :=
  emit Event.wake w

/-- The function `udDestroySemaphore_Internal` (lines 236-250) on the object: the null check
of line 238 passes, the mutex and the condition are destroyed and the memory is
freed. -/
def udDestroySemaphore_Internal (w : World) : World :=
  emit Event.release w

/-- Entry of `udSleepSemaphore_Internal` (lines 287-307): the condition wait
gives up the mutex and blocks. -/
def sleepBegin (waitMs : Int) (w : World) : World :=
  emit (Event.sleep waitMs) { w with locked := false }

/-- Return of `udSleepSemaphore_Internal` with value `retVal`: the condition
wait has taken the mutex again. -/
def sleepEnd (retVal : Bool) (w : World) : World :=
  emit (Event.wokeUp retVal) { w with locked := true }

/-- The function `udInterlockedCompareExchangePointer(ppSemaphore, exchange, comparand)` on
the handle variable: returns the old value and stores `exchange` when the old
value equals `comparand`. -/
def udInterlockedCompareExchangePointer (w : World) (exchange comparand : Ptr) :
    Ptr × World :=
  (w.handle, if w.handle = comparand then { w with handle := exchange } else w)

/-! ## The operations -/

/-- The function `udCreateSemaphore` (lines 216-232) with a successful allocation, the
returned pointer stored in the handle variable of the caller. -/
def udCreateSemaphore : World :=
  { handle := Ptr.obj, count := 0, refCount := 1, locked := false, log := [] }

/-- Lines 328-332 of `udDestroySemaphore`: `n` iterations of
`++count; udWakeSemaphore_Internal`. -/
def drainLoop : Nat → World → World
  | 0, w => w
  | n + 1, w => drainLoop n (udWakeSemaphore_Internal (incCount w))

/-- The function `udDestroySemaphore` (lines 311-335), run without interruption.  The result
is `none` when the code dereferences a null pointer. -/
def udDestroySemaphore (ppSemaphore : HandlePtr) (w : World) : Option World :=
  match ppSemaphore with
  | HandlePtr.null => some w                                   -- 313-314
  | HandlePtr.var =>
    let pSemaphore := w.handle                                 -- 316
    let r := udInterlockedCompareExchangePointer w Ptr.null pSemaphore  -- 317
    if r.1 ≠ pSemaphore then some r.2                          -- 318
    else
      match pSemaphore with
      | Ptr.null => none                 -- 320 locks through the null pointer
      | Ptr.obj =>
        let w1 := udLockSemaphore_Internal r.2                 -- 320
        let w2 := udInterlockedPreDecrement w1                 -- 321
        if w2.refCount = 0 then
          some (udDestroySemaphore_Internal w2)                -- 323
        else
          let w3 := readRefCount w2                            -- 327
          let refCount := w3.refCount
          -- 328-332: the loop body runs max(refCount, 0) times
          some (udUnlockSemaphore_Internal (drainLoop refCount.toNat w3))  -- 333

/-- Lines 346-352 of `udIncrementSemaphore`: `n` iterations of
lock, `++count`, wake, unlock. -/
def incrementLoop : Nat → World → World
  | 0, w => w
  | n + 1, w =>
    incrementLoop n
      (udUnlockSemaphore_Internal (udWakeSemaphore_Internal
        (incCount (udLockSemaphore_Internal w))))

/-- The function `udIncrementSemaphore` (lines 339-354), run without interruption. -/
def udIncrementSemaphore (pSemaphore : Ptr) (count : Int) (w : World) : World :=
  match pSemaphore with
  | Ptr.null => w                                              -- 342-343
  | Ptr.obj =>
    let w0 := readRefCount w                                   -- 342
    if w0.refCount = 0 then w0                                 -- 343
    else
      let w1 := udInterlockedPreIncrement w0                   -- 345
      -- 346-352: while (count-- > 0) runs max(count, 0) times
      let w2 := incrementLoop count.toNat w1
      udInterlockedPreDecrement w2                             -- 353

/-- Where a call to `udWaitSemaphore` stands when control leaves it. -/
inductive WaitStatus
  /-- blocked inside `udSleepSemaphore_Internal`, the mutex given up -/
  | sleeping (w : World)
  /-- returned `ret` -/
  | returned (w : World) (ret : Int)
  deriving DecidableEq, Repr

/-- Lines 396-407 of `udWaitSemaphore`, entered with the local `retVal`. -/
def udWaitSemaphore_exit (retVal : Bool) (w : World) : WaitStatus :=
  let w1 := udInterlockedPreDecrement w                        -- 396
  if w1.refCount = 0 then
    WaitStatus.returned (udDestroySemaphore_Internal w1) (-1)  -- 398-399
  else
    -- 403-406: return !retVal
    WaitStatus.returned (udUnlockSemaphore_Internal w1) (if retVal then 0 else 1)

/-- The loop test of line 370 in the infinite branch.  `retVal` is `true`
whenever the test is reached (line 369, or a sleep that returned `true`). -/
def udWaitSemaphore_loop (waitMs : Int) (w : World) : WaitStatus :=
  let w1 := readCount w                                        -- 370
  if w1.count = 0 then
    WaitStatus.sleeping (sleepBegin waitMs w1)                 -- 372
  else
    udWaitSemaphore_exit true (decCount w1)                    -- 379-380

/-- The function `udWaitSemaphore` (lines 358-408) from its entry to its first sleep, or to
its return when it does not sleep. -/
def udWaitSemaphore_enter (pSemaphore : Ptr) (waitMs : Int) (w : World) : WaitStatus :=
  match pSemaphore with
  | Ptr.null => WaitStatus.returned w (-1)                     -- 361-362
  | Ptr.obj =>
    let w0 := readRefCount w                                   -- 361
    if w0.refCount = 0 then WaitStatus.returned w0 (-1)        -- 362
    else
      let w1 := udInterlockedPreIncrement w0                   -- 364
      let w2 := udLockSemaphore_Internal w1                    -- 365
      if waitMs = UDTHREAD_WAIT_INFINITE then                  -- 367
        udWaitSemaphore_loop waitMs w2                         -- 369-370
      else
        WaitStatus.sleeping (sleepBegin waitMs w2)             -- 384

/-- The function `udWaitSemaphore` from the return of `udSleepSemaphore_Internal` with value
`retVal`, in the world `w` the sleeper wakes up in, to its next sleep or to its
return. -/
def udWaitSemaphore_resume (waitMs : Int) (retVal : Bool) (w : World) : WaitStatus :=
  let w1 := sleepEnd retVal w
  if waitMs = UDTHREAD_WAIT_INFINITE then
    if retVal then udWaitSemaphore_loop waitMs w1              -- 375, back to 370
    else udWaitSemaphore_exit false w1                         -- 376, 379
  else if retVal then                                          -- 386
    let w2 := readCount w1                                     -- 389
    if w2.count > 0 then udWaitSemaphore_exit true (decCount w2)   -- 390
    else udWaitSemaphore_exit false w2                         -- 392
  else udWaitSemaphore_exit false w1

/-- Feed the values returned by the successive sleeps of one call until the
call returns; `none` when the call is still asleep after the last of them. -/
def driveWait (waitMs : Int) : List Bool → World → Option (World × Int)
  | [], _ => none
  | b :: bs, w =>
    match udWaitSemaphore_resume waitMs b w with
    | WaitStatus.returned w1 ret => some (w1, ret)
    | WaitStatus.sleeping w1 => driveWait waitMs bs w1

/-- The function `udWaitSemaphore` run by a single thread: `sleepResults` lists what the
successive calls of `udSleepSemaphore_Internal` return, nothing else touches
the semaphore while the caller sleeps.  The result is the final world and the
returned value, `none` when the call never returns. -/
def udWaitSemaphore (pSemaphore : Ptr) (waitMs : Int) (sleepResults : List Bool)
    (w : World) : Option (World × Int) :=
  match udWaitSemaphore_enter pSemaphore waitMs w with
  | WaitStatus.returned w1 ret => some (w1, ret)
  | WaitStatus.sleeping w1 => driveWait waitMs sleepResults w1

/-- The accesses of one iteration of the loop of `udIncrementSemaphore`. -/
def incrementStep : List Event :=
  [Event.lock, Event.countInc, Event.wake, Event.unlock]

/-- The accesses of a call `udIncrementSemaphore(pSemaphore, count)` that gets
past the check of line 342. -/
def incrementEvents (count : Int) : List Event :=
  [Event.refRead, Event.refInc] ++ (List.replicate count.toNat incrementStep).flatten ++
    [Event.refDec]

/-- The accesses of a call of `udWaitSemaphore` that finds `count > 0` in the
infinite branch and does not drop the last reference. -/
def waitFastEvents : List Event :=
  [Event.refRead, Event.refInc, Event.lock, Event.countRead, Event.countDec,
    Event.refDec, Event.unlock]

/-- A thread calling `udWaitSemaphore(pSemaphore, waitMs)` once per entry of
`sleepResults`, the entry listing what the sleeps of that call return.  The
result carries the returned values in call order; `none` when a call never
returns. -/
def waitMany (pSemaphore : Ptr) (waitMs : Int) :
    List (List Bool) → World → Option (World × List Int)
  | [], w => some (w, [])
  | o :: os, w =>
    match udWaitSemaphore pSemaphore waitMs o w with
    | none => none
    | some (w1, ret) =>
      match waitMany pSemaphore waitMs os w1 with
      | none => none
      | some (w2, rets) => some (w2, ret :: rets)

/-- The world a call of `udWaitSemaphore` leaves behind at a sleep or at its
return. -/
def WaitStatus.world : WaitStatus → World
  | WaitStatus.sleeping w => w
  | WaitStatus.returned w _ => w

/-- One step of a history of the semaphore: a whole call, or one of the two
pieces a call of `udWaitSemaphore` is cut into at a sleep, so that the calls of
other threads can come between the entry of a wait and its wake-up. -/
inductive Op
  /-- the call `udCreateSemaphore()`, the handle variable set to the new object -/
  | create
  /-- the call `udIncrementSemaphore(pSemaphore, count)` -/
  | increment (pSemaphore : Ptr) (count : Int)
  /-- the call `udWaitSemaphore(pSemaphore, waitMs)` run to its return by one thread,
  with the values its sleeps return -/
  | wait (pSemaphore : Ptr) (waitMs : Int) (sleepResults : List Bool)
  /-- the call `udWaitSemaphore(pSemaphore, waitMs)` up to its first sleep or return -/
  | waitEnter (pSemaphore : Ptr) (waitMs : Int)
  /-- a sleeping `udWaitSemaphore(_, waitMs)` whose sleep returns `retVal`, up
  to its next sleep or return -/
  | waitResume (waitMs : Int) (retVal : Bool)
  /-- the call `udDestroySemaphore(ppSemaphore)` -/
  | destroy (ppSemaphore : HandlePtr)
  deriving DecidableEq, Repr

/-- The world after one step; `none` when the step dereferences a null pointer
or never returns. -/
def applyOp : Op → World → Option World
  | Op.create, _ => some udCreateSemaphore
  | Op.increment p k, w => some (udIncrementSemaphore p k w)
  | Op.wait p waitMs rs, w => (udWaitSemaphore p waitMs rs w).map Prod.fst
  | Op.waitEnter p waitMs, w => some (udWaitSemaphore_enter p waitMs w).world
  | Op.waitResume waitMs b, w => some (udWaitSemaphore_resume waitMs b w).world
  | Op.destroy pp, w => udDestroySemaphore pp w

/-- The world after a sequence of steps, `none` as soon as one of them has no
result. -/
def runOps : List Op → World → Option World
  | [], w => some w
  | op :: ops, w =>
    match applyOp op w with
    | none => none
    | some w1 => runOps ops w1

/-- What one of the threads that called `udWaitSemaphore` is doing. -/
inductive Waiter
  /-- no such thread -/
  | absent
  /-- blocked inside `udSleepSemaphore_Internal`, holding its temporary reference -/
  | asleep
  /-- its call returned `ret` -/
  | returned (ret : Int)
  deriving DecidableEq, Repr

/-- The semaphore together with the threads waiting on it, by thread number. -/
structure System where
  world : World
  waiters : Nat → Waiter

/-- The system of `K` threads, numbered from 0, asleep in `udWaitSemaphore` on the semaphore
of `w`. -/
def blockedWaiters (K : Nat) (w : World) : System :=
  { world := w, waiters := fun i => if i < K then Waiter.asleep else Waiter.absent }

/-- The sleep of waiter `i` returns `retVal` and the waiter runs on to its next
sleep or to its return.  It holds the mutex from the return of the sleep to
its unlock (or to the release of the semaphore), so this stretch is not
interleaved with the stretch of another waiter.  A thread that is not asleep
has nothing to resume. -/
def resumeWaiter (waitMs : Int) (retVal : Bool) (i : Nat) (s : System) : System :=
  match s.waiters i with
  | Waiter.asleep =>
    match udWaitSemaphore_resume waitMs retVal s.world with
    | WaitStatus.sleeping w => { s with world := w }
    | WaitStatus.returned w ret =>
      { world := w, waiters := Function.update s.waiters i (Waiter.returned ret) }
  | _ => s

/-- The waiters listed in `order` wake up one after the other, each sleep
returning `retVal`. -/
def resumeAll (waitMs : Int) (retVal : Bool) (order : List Nat) (s : System) : System :=
  order.foldl (fun t i => resumeWaiter waitMs retVal i t) s

/-- The world after a waiter went to sleep on a fresh semaphore, the handle was
destroyed and the waiter woke up: the log of the three steps. -/
def drainExample : World :=
  { handle := Ptr.null, count := 0, refCount := 0, locked := true,
    log := [Event.refRead, Event.refInc, Event.lock, Event.countRead,
      Event.sleep UDTHREAD_WAIT_INFINITE, Event.lock, Event.refDec, Event.refRead,
      Event.countInc, Event.wake, Event.unlock, Event.wokeUp true, Event.countRead,
      Event.countDec, Event.refDec, Event.release] }

/-- Three waiters asleep in the infinite wait on a fresh semaphore: the world
after three calls of `udWaitSemaphore` ran up to their sleep. -/
def threeAsleep : World :=
  (udWaitSemaphore_enter Ptr.obj UDTHREAD_WAIT_INFINITE
    (udWaitSemaphore_enter Ptr.obj UDTHREAD_WAIT_INFINITE
      (udWaitSemaphore_enter Ptr.obj UDTHREAD_WAIT_INFINITE
        udCreateSemaphore).world).world).world

/-! ## The operations step by step

For the races between calls, each of the three operations is also given as a
sequence of steps.  A step makes one access to shared memory (one entry of the
log, or one access to the handle variable) and then follows the local control
flow up to the next access.  The steps use the primitives above, in the order
of the source. -/

/-- Program points of `udDestroySemaphore` (lines 311-335); each names the
access the thread makes next. -/
inductive DestroyPc
  /-- line 313, then the read of the handle variable of line 316 -/
  | entry (ppSemaphore : HandlePtr)
  /-- line 317, with the pointer read at line 316 -/
  | cas (pSemaphore : Ptr)
  /-- line 320 -/
  | lock (pSemaphore : Ptr)
  /-- line 321 -/
  | decRef
  /-- line 323 -/
  | release
  /-- line 327 -/
  | readRef
  /-- line 330, in iteration `i` of the loop bounded by the local `refCount` -/
  | incCount (i refCount : Int)
  /-- line 331 -/
  | wake (i refCount : Int)
  /-- line 333 -/
  | unlock
  /-- returned -/
  | done
  deriving DecidableEq, Repr

/-- Program points of `udIncrementSemaphore` (lines 339-354).  `count` is the
local `count` after the decrement of line 346. -/
inductive IncrementPc
  /-- line 342 -/
  | entry (pSemaphore : Ptr) (count : Int)
  /-- line 345 -/
  | incRef (count : Int)
  /-- line 348 -/
  | lock (count : Int)
  /-- line 349 -/
  | incCount (count : Int)
  /-- line 350 -/
  | wake (count : Int)
  /-- line 351 -/
  | unlock (count : Int)
  /-- line 353 -/
  | decRef
  /-- returned -/
  | done
  deriving DecidableEq, Repr

/-- Program points of `udWaitSemaphore` (lines 358-408). -/
inductive WaitPc
  /-- line 361 -/
  | entry (pSemaphore : Ptr) (waitMs : Int)
  /-- line 364 -/
  | incRef (waitMs : Int)
  /-- line 365 -/
  | lock (waitMs : Int)
  /-- line 370, the loop test of the infinite branch -/
  | loopTest (waitMs : Int)
  /-- lines 372 and 384, the call of `udSleepSemaphore_Internal` -/
  | sleepCall (waitMs : Int)
  /-- inside `udSleepSemaphore_Internal`, the mutex given up -/
  | asleep (waitMs : Int)
  /-- line 389 -/
  | checkCount
  /-- lines 380 and 390 -/
  | decCount
  /-- line 396, with the local `retVal` -/
  | decRef (retVal : Bool)
  /-- line 398 -/
  | release
  /-- line 403, with the local `retVal` -/
  | unlock (retVal : Bool)
  /-- returned `ret` -/
  | done (ret : Int)
  deriving DecidableEq, Repr

/-- A thread inside one of the three operations. -/
inductive Thread
  | destroy (pc : DestroyPc)
  | increment (pc : IncrementPc)
  | wait (pc : WaitPc)
  deriving DecidableEq, Repr

/-- What comes of asking a thread to take its next step. -/
inductive StepResult
  /-- the step was taken -/
  | next (w : World) (t : Thread)
  /-- the thread cannot move: it waits for the mutex, or it has returned -/
  | blocked
  /-- the step dereferences a null pointer -/
  | fault
  deriving DecidableEq, Repr

/-- One step of `udDestroySemaphore`. -/
def stepDestroy (w : World) : DestroyPc → StepResult
  | DestroyPc.entry HandlePtr.null => StepResult.next w (Thread.destroy DestroyPc.done)
  | DestroyPc.entry HandlePtr.var =>
    StepResult.next w (Thread.destroy (DestroyPc.cas w.handle))
  | DestroyPc.cas p =>
    let r := udInterlockedCompareExchangePointer w Ptr.null p
    if r.1 ≠ p then StepResult.next r.2 (Thread.destroy DestroyPc.done)
    else StepResult.next r.2 (Thread.destroy (DestroyPc.lock p))
  | DestroyPc.lock Ptr.null => StepResult.fault
  | DestroyPc.lock Ptr.obj =>
    if w.locked then StepResult.blocked
    else StepResult.next (udLockSemaphore_Internal w) (Thread.destroy DestroyPc.decRef)
  | DestroyPc.decRef =>
    let w1 := udInterlockedPreDecrement w
    if w1.refCount = 0 then StepResult.next w1 (Thread.destroy DestroyPc.release)
    else StepResult.next w1 (Thread.destroy DestroyPc.readRef)
  | DestroyPc.release =>
    StepResult.next (udDestroySemaphore_Internal w) (Thread.destroy DestroyPc.done)
  | DestroyPc.readRef =>
    let w1 := readRefCount w
    if 0 < w1.refCount then
      StepResult.next w1 (Thread.destroy (DestroyPc.incCount 0 w1.refCount))
    else StepResult.next w1 (Thread.destroy DestroyPc.unlock)
  | DestroyPc.incCount i n =>
    StepResult.next (incCount w) (Thread.destroy (DestroyPc.wake i n))
  | DestroyPc.wake i n =>
    if i + 1 < n then
      StepResult.next (udWakeSemaphore_Internal w) (Thread.destroy (DestroyPc.incCount (i + 1) n))
    else StepResult.next (udWakeSemaphore_Internal w) (Thread.destroy DestroyPc.unlock)
  | DestroyPc.unlock =>
    StepResult.next (udUnlockSemaphore_Internal w) (Thread.destroy DestroyPc.done)
  | DestroyPc.done => StepResult.blocked

/-- Where `udIncrementSemaphore` goes at the loop test of line 346 with the
local `count`. -/
def incrementLoopHead (count : Int) : IncrementPc :=
  if count > 0 then IncrementPc.lock (count - 1) else IncrementPc.decRef

/-- One step of `udIncrementSemaphore`. -/
def stepIncrement (w : World) : IncrementPc → StepResult
  | IncrementPc.entry Ptr.null _ => StepResult.next w (Thread.increment IncrementPc.done)
  | IncrementPc.entry Ptr.obj k =>
    let w1 := readRefCount w
    if w1.refCount = 0 then StepResult.next w1 (Thread.increment IncrementPc.done)
    else StepResult.next w1 (Thread.increment (IncrementPc.incRef k))
  | IncrementPc.incRef k =>
    StepResult.next (udInterlockedPreIncrement w) (Thread.increment (incrementLoopHead k))
  | IncrementPc.lock k =>
    if w.locked then StepResult.blocked
    else StepResult.next (udLockSemaphore_Internal w) (Thread.increment (IncrementPc.incCount k))
  | IncrementPc.incCount k =>
    StepResult.next (incCount w) (Thread.increment (IncrementPc.wake k))
  | IncrementPc.wake k =>
    StepResult.next (udWakeSemaphore_Internal w) (Thread.increment (IncrementPc.unlock k))
  | IncrementPc.unlock k =>
    StepResult.next (udUnlockSemaphore_Internal w) (Thread.increment (incrementLoopHead k))
  | IncrementPc.decRef =>
    StepResult.next (udInterlockedPreDecrement w) (Thread.increment IncrementPc.done)
  | IncrementPc.done => StepResult.blocked

/-- One step of `udWaitSemaphore`; `retVal` is what the sleep returns when the
step is the return of `udSleepSemaphore_Internal`. -/
def stepWait (w : World) (retVal : Bool) : WaitPc → StepResult
  | WaitPc.entry Ptr.null _ => StepResult.next w (Thread.wait (WaitPc.done (-1)))
  | WaitPc.entry Ptr.obj waitMs =>
    let w1 := readRefCount w
    if w1.refCount = 0 then StepResult.next w1 (Thread.wait (WaitPc.done (-1)))
    else StepResult.next w1 (Thread.wait (WaitPc.incRef waitMs))
  | WaitPc.incRef waitMs =>
    StepResult.next (udInterlockedPreIncrement w) (Thread.wait (WaitPc.lock waitMs))
  | WaitPc.lock waitMs =>
    if w.locked then StepResult.blocked
    else if waitMs = UDTHREAD_WAIT_INFINITE then
      StepResult.next (udLockSemaphore_Internal w) (Thread.wait (WaitPc.loopTest waitMs))
    else StepResult.next (udLockSemaphore_Internal w) (Thread.wait (WaitPc.sleepCall waitMs))
  | WaitPc.loopTest waitMs =>
    let w1 := readCount w
    if w1.count = 0 then StepResult.next w1 (Thread.wait (WaitPc.sleepCall waitMs))
    else StepResult.next w1 (Thread.wait WaitPc.decCount)
  | WaitPc.sleepCall waitMs =>
    StepResult.next (sleepBegin waitMs w) (Thread.wait (WaitPc.asleep waitMs))
  | WaitPc.asleep waitMs =>
    if w.locked then StepResult.blocked
    else if waitMs = UDTHREAD_WAIT_INFINITE then
      if retVal then StepResult.next (sleepEnd retVal w) (Thread.wait (WaitPc.loopTest waitMs))
      else StepResult.next (sleepEnd retVal w) (Thread.wait (WaitPc.decRef false))
    else if retVal then StepResult.next (sleepEnd retVal w) (Thread.wait WaitPc.checkCount)
    else StepResult.next (sleepEnd retVal w) (Thread.wait (WaitPc.decRef false))
  | WaitPc.checkCount =>
    let w1 := readCount w
    if w1.count > 0 then StepResult.next w1 (Thread.wait WaitPc.decCount)
    else StepResult.next w1 (Thread.wait (WaitPc.decRef false))
  | WaitPc.decCount =>
    StepResult.next (decCount w) (Thread.wait (WaitPc.decRef true))
  | WaitPc.decRef b =>
    let w1 := udInterlockedPreDecrement w
    if w1.refCount = 0 then StepResult.next w1 (Thread.wait WaitPc.release)
    else StepResult.next w1 (Thread.wait (WaitPc.unlock b))
  | WaitPc.release =>
    StepResult.next (udDestroySemaphore_Internal w) (Thread.wait (WaitPc.done (-1)))
  | WaitPc.unlock b =>
    StepResult.next (udUnlockSemaphore_Internal w)
      (Thread.wait (WaitPc.done (if b then 0 else 1)))
  | WaitPc.done _ => StepResult.blocked

/-- One step of a thread. -/
def stepThread (w : World) (retVal : Bool) : Thread → StepResult
  | Thread.destroy pc => stepDestroy w pc
  | Thread.increment pc => stepIncrement w pc
  | Thread.wait pc => stepWait w retVal pc

/-- The shared world and the threads running on it. -/
structure Machine where
  world : World
  threads : List Thread
  deriving DecidableEq, Repr

/-- Thread `tid` takes its next step (a sleep that returns, returns `retVal`).
`none` when there is no such thread, when it cannot move, and when the step
dereferences a null pointer. -/
def Machine.step (m : Machine) (tid : Nat) (retVal : Bool) : Option Machine :=
  match m.threads[tid]? with
  | none => none
  | some t =>
    match stepThread m.world retVal t with
    | StepResult.next w t1 => some { world := w, threads := m.threads.set tid t1 }
    | StepResult.blocked => none
    | StepResult.fault => none

/-- An interleaving: the threads step in the order of the schedule, each entry
naming the thread that moves and the value a returning sleep returns. -/
def Machine.run : List (Nat × Bool) → Machine → Option Machine
  | [], m => some m
  | (tid, b) :: rest, m =>
    match m.step tid b with
    | none => none
    | some m1 => Machine.run rest m1

/-- One `udDestroySemaphore(&handle)` and one `udWaitSemaphore(handle, waitMs)`
called on a fresh semaphore, neither having taken a step. -/
def destroyVsWait (waitMs : Int) : Machine :=
  { world := udCreateSemaphore,
    threads := [Thread.destroy (DestroyPc.entry HandlePtr.var),
                Thread.wait (WaitPc.entry Ptr.obj waitMs)] }

/-- One `udDestroySemaphore(&handle)` and one `udIncrementSemaphore(handle, count)`
called on a fresh semaphore, neither having taken a step. -/
def destroyVsIncrement (count : Int) : Machine :=
  { world := udCreateSemaphore,
    threads := [Thread.destroy (DestroyPc.entry HandlePtr.var),
                Thread.increment (IncrementPc.entry Ptr.obj count)] }

/-- The wait passes its check of `refCount`, the destroy then runs from its
entry to its return, and the wait takes its next step. -/
def raceSchedule : List (Nat × Bool) :=
  [(1, false), (0, false), (0, false), (0, false), (0, false), (0, false), (1, false)]

/-- The count invariant: `count` is not negative and equals the units deposited
minus the units consumed. -/
def CountInv (w : World) : Prop :=
  0 ≤ w.count ∧ w.count + (consumed w : Int) = (deposited w : Int)

instance (w : World) : Decidable (CountInv w) := by
  unfold CountInv
  infer_instance

/-! ## What the operating system reports

The code is compiled for one of three targets, chosen by the `#if
UDPLATFORM_...` conditionals; where the branches differ the target is a
parameter.  The result of an OS call is an input, as the result of a sleep is. -/

/-- The build target: the Windows branch, the Linux branch, or the `#else`
branch of the conditionals. -/
inductive Target
  | windows
  | linux
  | other
  deriving DecidableEq, Repr

/-- The value of `ETIMEDOUT` in the Linux `errno.h`. -/
def ETIMEDOUT : Int := 110

/-- The value of `EINVAL` in the Linux `errno.h`. -/
def EINVAL : Int := 22

/-- The value of `WAIT_TIMEOUT` in the Windows headers. -/
def WAIT_TIMEOUT : Int := 258

/-- The value `udSleepSemaphore_Internal` (lines 287-307) returns when the OS
wait it calls returns `osRet`: under Windows `retVal == TRUE` for the `BOOL` of
`SleepConditionVariableCS` (lines 290-291), otherwise `retVal == 0` for the
`int` of `pthread_cond_wait` and `pthread_cond_timedwait` (line 305). -/
def udSleepSemaphore_Internal (target : Target) (osRet : Int) : Bool :=
  match target with
  | Target.windows => decide (osRet = 1)
  | Target.linux => decide (osRet = 0)
  | Target.other => decide (osRet = 0)

/-! ## Deadlines -/

/-- The two fields of `struct timespec`. -/
structure timespec where
  tv_sec : Int
  tv_nsec : Int
  deriving DecidableEq, Repr

/-- The function `udThread_MsToTimespec` (lines 11-22).  `pTimespec` is `none`
for a null pointer and otherwise holds what the pointer points at; `now` is
what `clock_gettime(CLOCK_REALTIME, _)` stores; the result is what the pointer
points at afterwards.  `/` and `%` of C truncate towards zero, which is
`Int.tdiv` and `Int.tmod`.  `time_t` and `long` are embedded as `Int`. -/
def udThread_MsToTimespec (pTimespec : Option timespec) (now : timespec) (waitMs : Int) :
    Option timespec :=
  match pTimespec with
  | none => none                                               -- 13-14
  | some _ =>
    let t0 := now                                              -- 16
    let t1 := { t0 with tv_sec := t0.tv_sec + Int.tdiv waitMs 1000 }           -- 17
    let t2 := { t1 with tv_nsec := t1.tv_nsec + Int.tmod waitMs 1000 * 1000000 }  -- 18
    let t3 := { t2 with tv_sec := t2.tv_sec + Int.tdiv t2.tv_nsec 1000000000 }  -- 20
    some { t3 with tv_nsec := Int.tmod t3.tv_nsec 1000000000 }  -- 21

/-! ## Threads

One thread object is tracked, with the two variables that can hold a pointer
to it: the handle variable of the creator (`*ppThread` of `udThread_Create`)
and the parameter `pThread` of `udThread_Bootstrap`, which the bootstrap passes
to `udThread_Destroy` by address. -/

/-- Modelled from the spec: the result codes of `udResult.h`, a header that is
not among the sources.  These are the five codes the spec lists, under the
names `udThread.cpp` uses for them. -/
inductive udResult
  | udR_Success
  | udR_Failure_
  | udR_InvalidParameter_
  | udR_Timeout
  | udR_MemoryAllocationFailure
  deriving DecidableEq, Repr

/-- A value of type `udThread *`: `nullptr` or the address of the object. -/
inductive ThreadPtr
  | null
  | obj
  deriving DecidableEq, Repr

/-- A value of type `udThread **`: `nullptr`, the address of the handle
variable of the creator, or the address of the parameter of the bootstrap. -/
inductive ThreadHandlePtr
  | null
  | creator
  | bootstrap
  deriving DecidableEq, Repr

/-- What the thread code does, in program order. -/
inductive ThreadEvent
  /-- line 71, the allocation succeeded -/
  | alloc
  /-- lines 73-74, the entry function and its data are stored in the object -/
  | setFields
  /-- line 75, `udInterlockedExchange(&pThread->refCount, 1)` -/
  | refSet
  /-- lines 77 and 80, `CreateThread` or `pthread_create`, and whether the OS
  created the thread -/
  | osCreate (ok : Bool)
  /-- line 86, `*ppThread = pThread` -/
  | handleWrite
  /-- line 87, `udInterlockedPreIncrement(&pThread->refCount)` -/
  | refInc
  /-- lines 50 and 55, the creation callback called with `(pThread, isStarting)` -/
  | callback (cb : Nat) (isStarting : Bool)
  /-- line 52, the entry function read from the object and called with the
  data read from the object -/
  | entry (starter data : Nat)
  /-- line 129, `udInterlockedPreDecrement(&pThread->refCount)` -/
  | refDec
  /-- line 132, `CloseHandle(pThread->handle)` -/
  | closeHandle
  /-- line 134, `udFree(pThread)` -/
  | free
  deriving DecidableEq, Repr

/-- Whether the event reads or writes the memory of the thread object. -/
def ThreadEvent.touchesObject : ThreadEvent → Bool
  | ThreadEvent.setFields => true
  | ThreadEvent.refSet => true
  | ThreadEvent.refInc => true
  | ThreadEvent.entry _ _ => true
  | ThreadEvent.refDec => true
  | ThreadEvent.closeHandle => true
  | _ => false

/-- The state the thread code works on. -/
structure ThreadWorld where
  /-- the global `s_pThreadCreateCallback`, `none` when null -/
  callback : Option Nat
  /-- the handle variable of the creator -/
  creatorHandle : ThreadPtr
  /-- the parameter `pThread` of `udThread_Bootstrap` -/
  bootstrapHandle : ThreadPtr
  /-- the field `pThreadStarter` of the object, as the number of a function -/
  pThreadStarter : Nat
  /-- the field `pThreadData` of the object -/
  pThreadData : Nat
  /-- the field `volatile int32_t refCount` of the object -/
  refCount : Int
  /-- everything done so far, oldest first -/
  log : List ThreadEvent
  deriving DecidableEq, Repr

/-- Append one event to the log. -/
def ThreadWorld.emit (e : ThreadEvent) (w : ThreadWorld) : ThreadWorld :=
  { w with log := w.log ++ [e] }

/-- The pointer held by the variable `pp` points at. -/
def ThreadWorld.getHandle (pp : ThreadHandlePtr) (w : ThreadWorld) : ThreadPtr :=
  match pp with
  | ThreadHandlePtr.null => ThreadPtr.null
  | ThreadHandlePtr.creator => w.creatorHandle
  | ThreadHandlePtr.bootstrap => w.bootstrapHandle

/-- Store `p` in the variable `pp` points at. -/
def ThreadWorld.setHandle (pp : ThreadHandlePtr) (p : ThreadPtr) (w : ThreadWorld) :
    ThreadWorld :=
  match pp with
  | ThreadHandlePtr.null => w
  | ThreadHandlePtr.creator => { w with creatorHandle := p }
  | ThreadHandlePtr.bootstrap => { w with bootstrapHandle := p }

/-- Number of times the object was freed. -/
def threadFrees (w : ThreadWorld) : Nat := w.log.count ThreadEvent.free

/-- Number of accesses to the object logged after its first `free`. -/
def threadStaleAccesses : List ThreadEvent → Nat
  | [] => 0
  | ThreadEvent.free :: es => es.countP ThreadEvent.touchesObject
  | _ :: es => threadStaleAccesses es

/-- Whether the OS was asked to create a thread. -/
def ThreadEvent.isOsCreate : ThreadEvent → Bool
  | ThreadEvent.osCreate _ => true
  | _ => false

/-- The function `udThread_SetCreateCallback` (lines 41-44). -/
def udThread_SetCreateCallback (pThreadCreateCallback : Option Nat) (w : ThreadWorld) :
    ThreadWorld :=
  { w with callback := pThreadCreateCallback }

/-- The atomic `udInterlockedPreDecrement(&pThread->refCount)`; the value it
returns is the `refCount` of the result. -/
def threadPreDecrement (w : ThreadWorld) : ThreadWorld :=
  ThreadWorld.emit ThreadEvent.refDec { w with refCount := w.refCount - 1 }

/-- The atomic `udInterlockedPreIncrement(&pThread->refCount)`. -/
def threadPreIncrement (w : ThreadWorld) : ThreadWorld :=
  ThreadWorld.emit ThreadEvent.refInc { w with refCount := w.refCount + 1 }

/-- Lines 131-134 of `udThread_Destroy`: `CloseHandle` under Windows only, then
`udFree`. -/
def threadRelease (target : Target) (w : ThreadWorld) : ThreadWorld :=
  match target with
  | Target.windows => ThreadWorld.emit ThreadEvent.free (ThreadWorld.emit ThreadEvent.closeHandle w)
  | _ => ThreadWorld.emit ThreadEvent.free w

/-- The function `udThread_Destroy` (lines 123-137), run without interruption. -/
def udThread_Destroy (target : Target) (ppThread : ThreadHandlePtr) (w : ThreadWorld) :
    ThreadWorld :=
  match ppThread with
  | ThreadHandlePtr.null => w                                  -- 125
  | pp =>
    let pThread := w.getHandle pp                              -- 127
    let w1 := w.setHandle pp ThreadPtr.null                    -- 128
    match pThread with
    | ThreadPtr.null => w1                                     -- 129
    | ThreadPtr.obj =>
      let w2 := threadPreDecrement w1                          -- 129
      if w2.refCount = 0 then threadRelease target w2          -- 131-134
      else w2

/-- Modelled from the spec: the macro `UD_ERROR_NULL(ptr, code)` of `udResult.h`,
a header that is not among the sources.  On a null pointer it sets `result` to
`code` and jumps to the label `epilogue`, which is `some code` here; otherwise
it does nothing. -/
def UD_ERROR_NULL (isNull : Bool) (code : udResult) : Option udResult :=
  if isNull then some code else none

/-- The function `udThread_Create` (lines 66-93), run without interruption:
the new thread takes no step before the function returns.  `allocOk` says
whether `udAllocType` returned an object and `osOk` whether the OS created the
thread. -/
def udThread_Create (ppThread : ThreadHandlePtr) (pThreadStarter pThreadData : Nat)
    (allocOk osOk : Bool) (w : ThreadWorld) : udResult × ThreadWorld :=
  match UD_ERROR_NULL (!allocOk) udResult.udR_MemoryAllocationFailure with  -- 71-72
  | some result => (result, w)                                           -- 91-92
  | none =>
    let w1 := ThreadWorld.emit ThreadEvent.alloc w                       -- 71
    let w2 := ThreadWorld.emit ThreadEvent.setFields                     -- 73-74
      { w1 with pThreadStarter := pThreadStarter, pThreadData := pThreadData }
    let w3 := ThreadWorld.emit ThreadEvent.refSet { w2 with refCount := 1 }  -- 75
    let w4 := ThreadWorld.emit (ThreadEvent.osCreate osOk) w3            -- 77, 80
    match ppThread with
    | ThreadHandlePtr.null => (udResult.udR_Success, w4)                 -- 83, 89
    | pp =>
      let w5 := ThreadWorld.emit ThreadEvent.handleWrite                 -- 86
        (w4.setHandle pp ThreadPtr.obj)
      (udResult.udR_Success, threadPreIncrement w5)                      -- 87, 89

/-- Line 50 and line 55 of `udThread_Bootstrap`: the callback, when one is
registered, is called with `(pThread, isStarting)`. -/
def threadCallback (isStarting : Bool) (w : ThreadWorld) : ThreadWorld :=
  match w.callback with
  | some cb => ThreadWorld.emit (ThreadEvent.callback cb isStarting) w
  | none => w

/-- The function `udThread_Bootstrap` (lines 47-62), run without interruption,
on the new thread, whose parameter `pThread` is the object.  `run f d` is the
value the entry function number `f` returns on the data `d`. -/
def udThread_Bootstrap (target : Target) (run : Nat → Nat → Nat) (w : ThreadWorld) :
    Nat × ThreadWorld :=
  let w0 := { w with bootstrapHandle := ThreadPtr.obj }
  let w1 := threadCallback true w0                                       -- 49-50
  let threadReturnValue := run w1.pThreadStarter w1.pThreadData          -- 52
  let w2 := ThreadWorld.emit (ThreadEvent.entry w1.pThreadStarter w1.pThreadData) w1
  let w3 := threadCallback false w2                                      -- 54-55
  let w4 := udThread_Destroy target ThreadHandlePtr.bootstrap w3         -- 59
  (threadReturnValue, w4)                                                -- 61

/-- The call `udThread_Join` makes to the OS. -/
inductive JoinCall
  /-- the call `WaitForSingleObject(pThread->handle, (DWORD)waitMs)` -/
  | waitForSingleObject (waitMs : Int)
  /-- the call `pthread_join(pThread->t, nullptr)` -/
  | pthread_join
  /-- the call `pthread_timedjoin_np(pThread->t, nullptr, &ts)` with the
  deadline made from `waitMs` -/
  | pthread_timedjoin_np (waitMs : Int)
  deriving DecidableEq, Repr

/-- The function `udThread_Join` (lines 140-198).  `osResult` is what the OS
call returns; the result carries the code returned and the OS call made, if
any. -/
def udThread_Join (target : Target) (pThread : ThreadPtr) (waitMs : Int) (osResult : Int) :
    udResult × Option JoinCall :=
  match pThread with
  | ThreadPtr.null => (udResult.udR_InvalidParameter_, none)             -- 142-143
  | ThreadPtr.obj =>
    match target with
    | Target.windows =>                                                  -- 148-155
      (if osResult ≠ 0 then
          if osResult = WAIT_TIMEOUT then udResult.udR_Timeout
          else udResult.udR_Failure_
        else udResult.udR_Success,
       some (JoinCall.waitForSingleObject waitMs))
    | Target.linux =>
      if waitMs = UDTHREAD_WAIT_INFINITE then                            -- 157-167
        (if osResult ≠ 0 then
            if osResult = EINVAL then udResult.udR_InvalidParameter_
            else udResult.udR_Failure_
          else udResult.udR_Success,
         some JoinCall.pthread_join)
      else                                                               -- 170-183
        (if osResult ≠ 0 then
            if osResult = ETIMEDOUT then udResult.udR_Timeout
            else if osResult = EINVAL then udResult.udR_InvalidParameter_
            else udResult.udR_Failure_
          else udResult.udR_Success,
         some (JoinCall.pthread_timedjoin_np waitMs))
    | Target.other =>                                                    -- 186-194
      (if osResult ≠ 0 then
          if osResult = EINVAL then udResult.udR_InvalidParameter_
          else udResult.udR_Failure_
        else udResult.udR_Success,
       some JoinCall.pthread_join)

/-! ## Thread creation step by step

For the race between `udThread_Create` and the thread it starts, the creator
and the new thread are also given as sequences of steps, made of the same
primitives in the order of the source. -/

/-- The arguments of one call of `udThread_Create`, with what the allocator
and the OS do in it. -/
structure CreateArgs where
  ppThread : ThreadHandlePtr
  pThreadStarter : Nat
  pThreadData : Nat
  allocOk : Bool
  osOk : Bool
  deriving DecidableEq, Repr

/-- Program points of `udThread_Create`; each names what is done next. -/
inductive CreatePc
  /-- lines 71-72 -/
  | alloc
  /-- lines 73-74 -/
  | setFields
  /-- line 75 -/
  | setRef
  /-- lines 77 and 80 -/
  | osCreate
  /-- line 86 -/
  | writeHandle
  /-- line 87 -/
  | incRef
  /-- returned `result` -/
  | done (result : udResult)
  deriving DecidableEq, Repr

/-- Program points of `udThread_Destroy`. -/
inductive ThreadDestroyPc
  /-- lines 125-128, on the handle variable of the caller -/
  | read
  /-- line 129 -/
  | decRef
  /-- line 132 -/
  | close
  /-- line 134 -/
  | free
  /-- returned -/
  | done
  deriving DecidableEq, Repr

/-- Program points of `udThread_Bootstrap`. -/
inductive BootPc
  /-- the OS has not started the thread -/
  | notStarted
  /-- lines 49-50 -/
  | callbackStart
  /-- line 52 -/
  | entry
  /-- lines 54-55, with the value the entry function returned -/
  | callbackEnd (threadReturnValue : Nat)
  /-- line 59, inside `udThread_Destroy(&pThread)` -/
  | destroy (threadReturnValue : Nat) (pc : ThreadDestroyPc)
  /-- returned -/
  | done (threadReturnValue : Nat)
  deriving DecidableEq, Repr

/-- One step of `udThread_Create`.  The second component says whether the step
started the new thread. -/
def stepCreate (args : CreateArgs) (w : ThreadWorld) :
    CreatePc → Option (ThreadWorld × CreatePc × Bool)
  | CreatePc.alloc =>
    match UD_ERROR_NULL (!args.allocOk) udResult.udR_MemoryAllocationFailure with
    | some result => some (w, CreatePc.done result, false)
    | none => some (ThreadWorld.emit ThreadEvent.alloc w, CreatePc.setFields, false)
  | CreatePc.setFields =>
    some (ThreadWorld.emit ThreadEvent.setFields
      { w with pThreadStarter := args.pThreadStarter, pThreadData := args.pThreadData },
      CreatePc.setRef, false)
  | CreatePc.setRef =>
    some (ThreadWorld.emit ThreadEvent.refSet { w with refCount := 1 }, CreatePc.osCreate, false)
  | CreatePc.osCreate =>
    some (ThreadWorld.emit (ThreadEvent.osCreate args.osOk) w,
      (match args.ppThread with
        | ThreadHandlePtr.null => CreatePc.done udResult.udR_Success
        | _ => CreatePc.writeHandle),
      args.osOk)
  | CreatePc.writeHandle =>
    some (ThreadWorld.emit ThreadEvent.handleWrite (w.setHandle args.ppThread ThreadPtr.obj),
      CreatePc.incRef, false)
  | CreatePc.incRef =>
    some (threadPreIncrement w, CreatePc.done udResult.udR_Success, false)
  | CreatePc.done _ => none

/-- One step of `udThread_Destroy(ppThread)`. -/
def stepThreadDestroy (target : Target) (ppThread : ThreadHandlePtr) (w : ThreadWorld) :
    ThreadDestroyPc → Option (ThreadWorld × ThreadDestroyPc)
  | ThreadDestroyPc.read =>
    match ppThread with
    | ThreadHandlePtr.null => some (w, ThreadDestroyPc.done)
    | pp =>
      match w.getHandle pp with
      | ThreadPtr.null => some (w.setHandle pp ThreadPtr.null, ThreadDestroyPc.done)
      | ThreadPtr.obj => some (w.setHandle pp ThreadPtr.null, ThreadDestroyPc.decRef)
  | ThreadDestroyPc.decRef =>
    let w1 := threadPreDecrement w
    if w1.refCount = 0 then
      match target with
      | Target.windows => some (w1, ThreadDestroyPc.close)
      | _ => some (w1, ThreadDestroyPc.free)
    else some (w1, ThreadDestroyPc.done)
  | ThreadDestroyPc.close =>
    some (ThreadWorld.emit ThreadEvent.closeHandle w, ThreadDestroyPc.free)
  | ThreadDestroyPc.free =>
    some (ThreadWorld.emit ThreadEvent.free w, ThreadDestroyPc.done)
  | ThreadDestroyPc.done => none

/-- One step of `udThread_Bootstrap`. -/
def stepBoot (target : Target) (run : Nat → Nat → Nat) (w : ThreadWorld) :
    BootPc → Option (ThreadWorld × BootPc)
  | BootPc.notStarted => none
  | BootPc.callbackStart => some (threadCallback true w, BootPc.entry)
  | BootPc.entry =>
    some (ThreadWorld.emit (ThreadEvent.entry w.pThreadStarter w.pThreadData) w,
      BootPc.callbackEnd (run w.pThreadStarter w.pThreadData))
  | BootPc.callbackEnd r =>
    some (threadCallback false w, BootPc.destroy r ThreadDestroyPc.read)
  | BootPc.destroy r pc =>
    match stepThreadDestroy target ThreadHandlePtr.bootstrap w pc with
    | none => none
    | some (w1, ThreadDestroyPc.done) => some (w1, BootPc.done r)
    | some (w1, pc1) => some (w1, BootPc.destroy r pc1)
  | BootPc.done _ => none

/-- Who takes the next step: the creator inside `udThread_Create`, the new
thread inside `udThread_Bootstrap`, or the creator inside the
`udThread_Destroy` it calls on its handle variable after `udThread_Create`
returned. -/
inductive Actor
  | create
  | boot
  | destroy
  deriving DecidableEq, Repr

/-- The thread world with the program points of the three actors. -/
structure ThreadMachine where
  world : ThreadWorld
  create : CreatePc
  boot : BootPc
  destroy : ThreadDestroyPc
  deriving DecidableEq, Repr

/-- One step of the actor `a`; `none` when it cannot move.  The new thread
moves once the OS has started it, with the object as its parameter; the
creator calls `udThread_Destroy` only after `udThread_Create` returned. -/
def ThreadMachine.step (target : Target) (run : Nat → Nat → Nat) (args : CreateArgs)
    (m : ThreadMachine) : Actor → Option ThreadMachine
  | Actor.create =>
    match stepCreate args m.world m.create with
    | none => none
    | some (w, pc, started) =>
      if started then
        some { m with world := { w with bootstrapHandle := ThreadPtr.obj }, create := pc,
                      boot := BootPc.callbackStart }
      else some { m with world := w, create := pc }
  | Actor.boot =>
    match stepBoot target run m.world m.boot with
    | none => none
    | some (w, pc) => some { m with world := w, boot := pc }
  | Actor.destroy =>
    match m.create with
    | CreatePc.done _ =>
      match stepThreadDestroy target args.ppThread m.world m.destroy with
      | none => none
      | some (w, pc) => some { m with world := w, destroy := pc }
    | _ => none

/-- An interleaving: the actors step in the order of the schedule. -/
def ThreadMachine.run (target : Target) (run : Nat → Nat → Nat) (args : CreateArgs) :
    List Actor → ThreadMachine → Option ThreadMachine
  | [], m => some m
  | a :: rest, m =>
    match m.step target run args a with
    | none => none
    | some m1 => ThreadMachine.run target run args rest m1

/-- The world before any thread is created: no callback registered, the handle
variables null. -/
def ThreadWorld.initial : ThreadWorld :=
  { callback := none, creatorHandle := ThreadPtr.null, bootstrapHandle := ThreadPtr.null,
    pThreadStarter := 0, pThreadData := 0, refCount := 0, log := [] }

/-- The machine at the call of `udThread_Create`. -/
def ThreadMachine.initial : ThreadMachine :=
  { world := ThreadWorld.initial, create := CreatePc.alloc, boot := BootPc.notStarted,
    destroy := ThreadDestroyPc.read }

/-- A call `udThread_Create(&handle, f, d, _)` in which the allocation and the
creation of the thread succeed. -/
def createWithHandle : CreateArgs :=
  { ppThread := ThreadHandlePtr.creator, pThreadStarter := 7, pThreadData := 9,
    allocOk := true, osOk := true }

/-- The creator runs `udThread_Create` up to the start of the new thread (lines
71-80); the new thread runs its entry function and its `udThread_Destroy` to
the end; the creator then runs lines 86-87. -/
def createRaceSchedule : List Actor :=
  [Actor.create, Actor.create, Actor.create, Actor.create,
   Actor.boot, Actor.boot, Actor.boot, Actor.boot, Actor.boot, Actor.boot,
   Actor.create, Actor.create]

/-! ## Async jobs -/

/-- Modelled from the spec: the `struct udAsyncJob` of `udAsyncJob.cpp`, which
is not among the sources: the semaphore of the job and the last posted result
code. -/
structure udAsyncJob where
  sem : World
  returnResult : udResult
  deriving DecidableEq, Repr

/-- Modelled from the spec: the function `udAsyncJob_SetResult` of
`udAsyncJob.cpp`, which is not among the sources.  It records the result and
signals the semaphore of the job once, with `udIncrementSemaphore(sem, 1)`. -/
def udAsyncJob_SetResult (job : udAsyncJob) (returnResult : udResult) : udAsyncJob :=
  { sem := udIncrementSemaphore Ptr.obj 1 job.sem, returnResult := returnResult }

/-- Modelled from the spec: the function `udAsyncJob_GetResultTimeout` of
`udAsyncJob.cpp`, which is not among the sources.  It waits on the semaphore of
the job with `udWaitSemaphore(sem, timeoutMs)`; when the wait succeeds it
stores the posted result in `*pResult` and returns true, otherwise it returns
false and leaves `*pResult` as it was.  `pResult` is what `*pResult` holds
before the call; the result carries the value returned, what `*pResult` holds
afterwards, and the job; `none` when the wait never returns. -/
def udAsyncJob_GetResultTimeout (job : udAsyncJob) (pResult : udResult) (timeoutMs : Int)
    (sleepResults : List Bool) : Option (Bool × udResult × udAsyncJob) :=
  match udWaitSemaphore Ptr.obj timeoutMs sleepResults job.sem with
  | none => none
  | some (sem, ret) =>
    if ret = 0 then some (true, job.returnResult, { job with sem := sem })
    else some (false, pResult, { job with sem := sem })

/-- The events of a callback call: one call when a callback is registered. -/
def callbackEvents (callback : Option Nat) (isStarting : Bool) : List ThreadEvent :=
  match callback with
  | some cb => [ThreadEvent.callback cb isStarting]
  | none => []

/-- The events of the release of the thread object (lines 131-134) when
`last` holds, none otherwise. -/
def releaseEvents (target : Target) (last : Bool) : List ThreadEvent :=
  if last then
    match target with
    | Target.windows => [ThreadEvent.closeHandle, ThreadEvent.free]
    | _ => [ThreadEvent.free]
  else []

/-! ## Lock discipline on the log -/

/-- Whether the event is an atomic increment or decrement of `refCount`. -/
def Event.isRefChange : Event → Bool
  | Event.refInc => true
  | Event.refDec => true
  | _ => false

/-- Whether the event is a read-modify-write of `count`. -/
def Event.isCountChange : Event → Bool
  | Event.countInc => true
  | Event.countDec => true
  | _ => false

/-- The number of events of the log that satisfy `p` and happen while the mutex
state of the caller is `wanted`; `h` is the mutex state before the first event,
and the state changes as in `heldAfter`. -/
def eventsWhile (p : Event → Bool) (wanted : Bool) : List Event → Bool → Nat
  | [], _ => 0
  | e :: es, h =>
    (if p e && (h == wanted) then 1 else 0) + eventsWhile p wanted es (heldAfter [e] h)

/-- Whether the event is the atomic increment of `refCount`. -/
def Event.isRefInc : Event → Bool
  | Event.refInc => true
  | _ => false

/-- Whether the event is the atomic decrement of `refCount`. -/
def Event.isRefDec : Event → Bool
  | Event.refDec => true
  | _ => false

/-- The events logged between the world `w` and a later world `w1`. -/
def newEvents (w w1 : World) : List Event := w1.log.drop w.log.length

/-- What holds of a stretch of events in which no `count` is changed outside
the lock, no `refCount` is incremented under the lock and no `refCount` is
decremented outside the lock, the mutex not held at the start. -/
def Orderly (evs : List Event) : Prop :=
  eventsWhile Event.isCountChange false evs false = 0 ∧
  eventsWhile Event.isRefInc true evs false = 0 ∧
  eventsWhile Event.isRefDec false evs false = 0

/-- What holds of the events of a call of `udWaitSemaphore` that is asleep:
they are orderly, the call has locked once more than it has unlocked, it has
taken its reference and not given it back, it has released nothing, and the
sleep has given up the mutex. -/
def Pending (evs : List Event) : Prop :=
  Orderly evs ∧ heldAfter evs false = false ∧
  evs.count Event.lock = evs.count Event.unlock + 1 ∧
  evs.count Event.refInc = 1 ∧ evs.count Event.refDec = 0 ∧
  evs.count Event.release = 0

/-- What holds of the events of a stretch of `udWaitSemaphore` from the return
of a sleep to the next sleep. -/
def SleepDelta (evs : List Event) : Prop :=
  Orderly evs ∧ heldAfter evs false = false ∧
  evs.count Event.lock = evs.count Event.unlock ∧
  evs.count Event.refInc = 0 ∧ evs.count Event.refDec = 0 ∧
  evs.count Event.release = 0

/-- What holds of the events of a stretch of `udWaitSemaphore` from the return
of a sleep to the return of the call. -/
def ReturnDelta (evs : List Event) : Prop :=
  Orderly evs ∧ evs.count Event.lock = 0 ∧
  evs.count Event.refInc = 0 ∧ evs.count Event.refDec = 1 ∧
  (evs.count Event.release = 0 →
    evs.count Event.unlock = 1 ∧ heldAfter evs false = false)

/-- What holds of the events of a whole call: they are orderly, the reference
taken is given back, and a call that releases nothing has unlocked as often as
it has locked and ends with the mutex not held. -/
def CallDiscipline (evs : List Event) : Prop :=
  Orderly evs ∧ evs.count Event.refDec = evs.count Event.refInc ∧
  (evs.count Event.release = 0 →
    evs.count Event.lock = evs.count Event.unlock ∧ heldAfter evs false = false)

/-! ## The scoped lock and the mutex of udThread.cpp -/

/-- A lock or unlock call that reaches the OS, with the mutex it is made on. -/
inductive MutexEvent
  /-- the call `EnterCriticalSection` or `pthread_mutex_lock` on the mutex -/
  | lock (m : Nat)
  /-- the call `LeaveCriticalSection` or `pthread_mutex_unlock` on the mutex -/
  | unlock (m : Nat)
  deriving DecidableEq, Repr

/-- The mutexes, by number: which of them are held, and the calls made. -/
structure MutexWorld where
  held : Nat → Bool
  log : List MutexEvent

/-- The function `udLockMutex` (lines 520-530 of udThread.cpp); `none` is the
null pointer. -/
def udLockMutex (pMutex : Option Nat) (s : MutexWorld) : MutexWorld :=
  match pMutex with
  | none => s                                                  -- 522
  | some m =>
    { held := Function.update s.held m true, log := s.log ++ [MutexEvent.lock m] }

/-- The function `udReleaseMutex` (lines 533-543 of udThread.cpp). -/
def udReleaseMutex (pMutex : Option Nat) (s : MutexWorld) : MutexWorld :=
  match pMutex with
  | none => s                                                  -- 535
  | some m =>
    { held := Function.update s.held m false, log := s.log ++ [MutexEvent.unlock m] }

/-- The class `udScopeLock` (lines 180-187 of udPlatform.h): its one member. -/
structure udScopeLock where
  m_mutex : Option Nat
  deriving DecidableEq, Repr

/-- The constructor `udScopeLock(udMutex *mutex)` (line 183). -/
def udScopeLock.construct (mutex : Option Nat) (s : MutexWorld) : udScopeLock × MutexWorld :=
  ({ m_mutex := mutex }, udLockMutex mutex s)

/-- The destructor of `udScopeLock` (line 184). -/
def udScopeLock.destruct (self : udScopeLock) (s : MutexWorld) : MutexWorld :=
  udReleaseMutex self.m_mutex s

/-- The states a scope body passes through, one per step of the body. -/
def bodyStates : List (MutexWorld → MutexWorld) → MutexWorld → List MutexWorld
  | [], _ => []
  | f :: fs, s => f s :: bodyStates fs (f s)

/-- The state at the end of a scope body. -/
def bodyEnd (body : List (MutexWorld → MutexWorld)) (s : MutexWorld) : MutexWorld :=
  body.foldl (fun t f => f t) s

/-- A scope `{ udScopeLock lock(mutex); body }`: construction, the body, and
the destruction at the end of the scope. -/
def scopedBody (mutex : Option Nat) (body : List (MutexWorld → MutexWorld))
    (s : MutexWorld) : MutexWorld :=
  udScopeLock.destruct (udScopeLock.construct mutex s).1
    (bodyEnd body (udScopeLock.construct mutex s).2)

/-! ## Thread priority -/

/-- Modelled from the spec: the enumeration `udThreadPriority`, whose
declaration is not among the sources: the five levels, numbered 0 to 4 in this
order, so that `udTP_Highest` is 4. -/
inductive udThreadPriority
  | udTP_Lowest
  | udTP_Low
  | udTP_Normal
  | udTP_High
  | udTP_Highest
  deriving DecidableEq, Repr

/-- The integer value of a priority level. -/
def udThreadPriority.toInt : udThreadPriority → Int
  | udThreadPriority.udTP_Lowest => 0
  | udThreadPriority.udTP_Low => 1
  | udThreadPriority.udTP_Normal => 2
  | udThreadPriority.udTP_High => 3
  | udThreadPriority.udTP_Highest => 4

/-- The Windows priority classes named in the `switch` of lines 102-109. -/
inductive WindowsPriority
  | THREAD_PRIORITY_LOWEST
  | THREAD_PRIORITY_BELOW_NORMAL
  | THREAD_PRIORITY_NORMAL
  | THREAD_PRIORITY_ABOVE_NORMAL
  | THREAD_PRIORITY_HIGHEST
  deriving DecidableEq, Repr

/-- The call a priority function makes to set the priority. -/
inductive PriorityCall
  /-- the call `SetThreadPriority(handle, class)` -/
  | setThreadPriority (cls : WindowsPriority)
  /-- the call `pthread_setschedprio(thread, prio)` -/
  | pthread_setschedprio (prio : Int)
  deriving DecidableEq, Repr

/-- The `switch` of lines 102-109 of udThread.cpp and of lines 32-39 of
udPlatform.cpp. -/
def windowsPriority : udThreadPriority → WindowsPriority
  | udThreadPriority.udTP_Lowest => WindowsPriority.THREAD_PRIORITY_LOWEST
  | udThreadPriority.udTP_Low => WindowsPriority.THREAD_PRIORITY_BELOW_NORMAL
  | udThreadPriority.udTP_Normal => WindowsPriority.THREAD_PRIORITY_NORMAL
  | udThreadPriority.udTP_High => WindowsPriority.THREAD_PRIORITY_ABOVE_NORMAL
  | udThreadPriority.udTP_Highest => WindowsPriority.THREAD_PRIORITY_HIGHEST

/-- The function `udThread_SetPriority` (lines 97-120 of udThread.cpp).
`lowest` and `highest` are what `sched_get_priority_min` and
`sched_get_priority_max` return for the policy of the caller.  The result is
the call made to set the priority, if any. -/
def udThread_SetPriority (target : Target) (pThread : ThreadPtr)
    (priority : udThreadPriority) (lowest highest : Int) : Option PriorityCall :=
  match pThread with
  | ThreadPtr.null => none                                               -- 99
  | ThreadPtr.obj =>
    match target with
    | Target.windows => some (PriorityCall.setThreadPriority (windowsPriority priority))
    | Target.linux =>                                                    -- 111-115
      let pthreadPrio :=
        Int.tdiv (priority.toInt * (highest - lowest))
          udThreadPriority.udTP_Highest.toInt + lowest
      some (PriorityCall.pthread_setschedprio pthreadPrio)
    | Target.other => none                                               -- 117

/-- The function `udSetThreadPriority` (lines 27-51 of udPlatform.cpp), on a
thread handle that is zero or not. -/
def udPlatform.udSetThreadPriority (target : Target) (threadHandle : Nat)
    (priority : udThreadPriority) (lowest highest : Int) : Option PriorityCall :=
  if threadHandle = 0 then none                                          -- 29
  else
    match target with
    | Target.windows => some (PriorityCall.setThreadPriority (windowsPriority priority))
    | Target.linux =>                                                    -- 41-45
      let pthreadPrio :=
        Int.tdiv (priority.toInt * (highest - lowest))
          udThreadPriority.udTP_Highest.toInt + lowest
      some (PriorityCall.pthread_setschedprio pthreadPrio)
    | Target.other => none                                               -- 46

/-! ## The semaphore wait of udPlatform.cpp -/

/-- The call the wait of udPlatform.cpp makes to the OS. -/
inductive SemWaitCall
  /-- the call `WaitForSingleObject(handle, waitMs)` -/
  | waitForSingleObject (waitMs : Int)
  /-- the call `sem_timedwait(sem, &ts)`, whose `ts` is an absolute time -/
  | sem_timedwait (ts : timespec)
  /-- the call `sem_wait(sem)` -/
  | sem_wait
  deriving DecidableEq, Repr

/-- The value a product of two `int` has in the compiled code: `x` reduced to
the 32-bit range from -2147483648 to 2147483647.  Signed overflow is undefined
in C++; the two's complement multiplication of the machine wraps. -/
def wrapInt32 (x : Int) : Int := (x + 2147483648) % 4294967296 - 2147483648

/-- The function `udWaitSemaphore` of udPlatform.cpp (lines 123-141).
`pSemaphore` says whether the pointer is non-null and `osResult` is what the OS
call returns; the result is the value returned and the OS call made, if any.
The product `waitMs * 1000` of line 132 is a product of two `int`.
In this file `UDPLATFORM_NACL` is the third target. -/
def udPlatform.udWaitSemaphore (target : Target) (pSemaphore : Bool) (waitMs : Int)
    (osResult : Int) : Int × Option SemWaitCall :=
  if pSemaphore then                                                     -- 125
    match target with
    | Target.windows => (osResult, some (SemWaitCall.waitForSingleObject waitMs))  -- 128
    | Target.linux =>                                                    -- 130-133
      (osResult, some (SemWaitCall.sem_timedwait
        { tv_sec := 0, tv_nsec := wrapInt32 (waitMs * 1000) }))
    | Target.other => (osResult, some SemWaitCall.sem_wait)              -- 135
  else (-1, none)                                                        -- 140

/-- The absolute deadline `now + waitMs` milliseconds, as a count of
nanoseconds. -/
def deadlineNanos (now : timespec) (waitMs : Int) : Int :=
  now.tv_sec * 1000000000 + now.tv_nsec + waitMs * 1000000

/-- The time a `timespec` denotes, as a count of nanoseconds. -/
def timespec.nanos (ts : timespec) : Int :=
  ts.tv_sec * 1000000000 + ts.tv_nsec

/-! ## The async-call adapters of udAsyncJob.h -/

/-- The local `struct UDAJParams` of the macros `UDASYNC_CALL1` to
`UDASYNC_CALL7`: the captured arguments `_p0`, `_p1`, ... in this order, and the
job. -/
structure UDAJParams where
  fields : List Nat
  pAsyncJob : Nat
  deriving DecidableEq, Repr

/-- The field `_p<i>` of the parameter block. -/
def UDAJParams.p (self : UDAJParams) (i : Nat) : Nat := self.fields.getD i 0

/-- What the entry function of an adapter does, in program order. -/
inductive AdapterEvent
  /-- the call `func(args..., job)` -/
  | callFunc (args : List Nat) (job : Option Nat)
  /-- the call `udAsyncJob_SetResult(job, result)` -/
  | setResult (job : Nat) (result : udResult)
  /-- the call `udFree(p)` -/
  | free
  deriving DecidableEq, Repr

/-- The arguments the entry function of `UDASYNC_CALL<n>` passes to `func`
before the null job: `p->_p0` for `n = 1` (line 31), `p->_p0, p->_p1` for
`n = 2` (line 42), and so on up to `n = 7` (line 97), each list as the macro
writes it. -/
def udajCallArgs : Nat → UDAJParams → List Nat
  | 1, p => [p.p 0]
  | 2, p => [p.p 0, p.p 1]
  | 3, p => [p.p 0, p.p 1, p.p 2]
  | 4, p => [p.p 0, p.p 1, p.p 2, p.p 3]
  | 5, p => [p.p 0, p.p 1, p.p 2, p.p 3, p.p 4]
  | 6, p => [p.p 0, p.p 1, p.p 2, p.p 3, p.p 4, p.p 5]
  | 7, p => [p.p 0, p.p 1, p.p 2, p.p 3, p.p 4, p.p 5, p.p 6]
  | _, _ => []

/-- The entry function `udajStartFunc` of `UDASYNC_CALL<n>` (lines 29-34 for
`n = 1`): `pData` is the parameter block the thread was given, `none` for a
null pointer, which the function dereferences.  The result is the value
returned and what was done. -/
def udajStartFunc (n : Nat) (func : List Nat → Option Nat → udResult)
    (pData : Option UDAJParams) : Option (Nat × List AdapterEvent) :=
  match pData with
  | none => none
  | some p =>
    let result := func (udajCallArgs n p) none
    some (0, [AdapterEvent.callFunc (udajCallArgs n p) none,
              AdapterEvent.setResult p.pAsyncJob result,
              AdapterEvent.free])

/-- Modelled from the spec: the allocator call
`udMemDup(&udajParams, sizeof(udajParams), 0, udAF_None)`, whose definition is
not among the sources.  The spec has the adapters capture the arguments into a
heap-allocated parameter block: the call returns the address of a copy of the
block on the heap, or the null pointer when the allocation fails (`dupOk`
false).  The address of the copy is the number 1 and the null pointer the
number 0; the second component is what the heap holds at the address 1. -/
def udMemDup (block : UDAJParams) (dupOk : Bool) : Nat × Option UDAJParams :=
  if dupOk then (1, some block) else (0, none)

/-- The macro `UDASYNC_CALL<n>(func, t0, p0, ...)` in an enclosing function
whose last parameter is `pAsyncJob`.  `args` are the values `p0, p1, ...`.
`none` says the macro did nothing and the body of the enclosing function
follows; otherwise the enclosing function returns the code given, having
copied the block `{ p0, ..., pAsyncJob }` with `udMemDup` and called
`udThread_Create(nullptr, udajStartFunc, pointer)` with the pointer `udMemDup`
returned, which is not tested.  The entry function `udajStartFunc` of
`UDASYNC_CALL<n>` has the number `n`.  The second component is the heap block
at the address 1. -/
def UDASYNC_CALL (n : Nat) (args : List Nat) (pAsyncJob : Option Nat)
    (dupOk allocOk osOk : Bool) (w : ThreadWorld) :
    Option (udResult × Option UDAJParams × ThreadWorld) :=
  match pAsyncJob with
  | none => none
  | some job =>
    let udajParams : UDAJParams := { fields := args, pAsyncJob := job }
    let dup := udMemDup udajParams dupOk
    let r := udThread_Create ThreadHandlePtr.null n dup.1 allocOk osOk w
    some (r.1, dup.2, r.2)

/-- The parameter block the pointer `pData` points at, `heap` being the block
at the address 1: nothing for the null pointer. -/
def udajDeref (heap : Option UDAJParams) (pData : Nat) : Option UDAJParams :=
  if pData = 0 then none else heap

/-- Line 52 of `udThread_Bootstrap` on a thread that an adapter started:
`pThread->pThreadStarter(pThread->pThreadData)`.  The entry function stored in
the thread object, number `n`, is the `udajStartFunc` of `UDASYNC_CALL<n>`, and
it is called on the pointer stored in the thread object.  `none` when the
entry function dereferences a null pointer. -/
def udajThreadEntry (func : List Nat → Option Nat → udResult) (heap : Option UDAJParams)
    (w : ThreadWorld) : Option (Nat × List AdapterEvent) :=
  udajStartFunc w.pThreadStarter func (udajDeref heap w.pThreadData)

/-! ## Frame lemmas for the primitives and the two loops -/

theorem drainLoop_count (n : Nat) (w : World) : (drainLoop n w).count = w.count + n := by
  induction n generalizing w with
  | zero => simp [drainLoop]
  | succ k ih =>
    simp only [drainLoop, ih, udWakeSemaphore_Internal, incCount, emit]
    push_cast
    ring

theorem drainLoop_refCount (n : Nat) (w : World) : (drainLoop n w).refCount = w.refCount := by
  induction n generalizing w with
  | zero => simp [drainLoop]
  | succ k ih => simp [drainLoop, ih, udWakeSemaphore_Internal, incCount, emit]

theorem drainLoop_handle (n : Nat) (w : World) : (drainLoop n w).handle = w.handle := by
  induction n generalizing w with
  | zero => simp [drainLoop]
  | succ k ih => simp [drainLoop, ih, udWakeSemaphore_Internal, incCount, emit]

theorem drainLoop_locked (n : Nat) (w : World) : (drainLoop n w).locked = w.locked := by
  induction n generalizing w with
  | zero => simp [drainLoop]
  | succ k ih => simp [drainLoop, ih, udWakeSemaphore_Internal, incCount, emit]

theorem drainLoop_log (n : Nat) (w : World) :
    (drainLoop n w).log = w.log ++ (List.replicate n [Event.countInc, Event.wake]).flatten := by
  induction n generalizing w with
  | zero => simp [drainLoop]
  | succ k ih =>
    simp [drainLoop, ih, udWakeSemaphore_Internal, incCount, emit, List.replicate_succ]

theorem count_flatten_replicate (e : Event) (n : Nat) (l : List Event) :
    (List.replicate n l).flatten.count e = n * l.count e := by
  induction n with
  | zero => simp
  | succ k ih => simp [List.replicate_succ, ih, Nat.succ_mul, Nat.add_comm]

theorem countP_flatten_replicate (p : Event → Bool) (n : Nat) (l : List Event) :
    (List.replicate n l).flatten.countP p = n * l.countP p := by
  induction n with
  | zero => simp
  | succ k ih => simp [List.replicate_succ, ih, Nat.succ_mul, Nat.add_comm]

/-! ## udDestroySemaphore -/

theorem udDestroySemaphore_last (w : World) (hh : w.handle = Ptr.obj)
    (h1 : w.refCount = 1) :
    udDestroySemaphore HandlePtr.var w =
      some (udDestroySemaphore_Internal (udInterlockedPreDecrement
        (udLockSemaphore_Internal { w with handle := Ptr.null }))) := by
  simp [udDestroySemaphore, udInterlockedCompareExchangePointer, hh,
    udInterlockedPreDecrement, udLockSemaphore_Internal, emit, h1]

theorem udDestroySemaphore_drain (w : World) (hh : w.handle = Ptr.obj)
    (h1 : w.refCount ≠ 1) :
    udDestroySemaphore HandlePtr.var w =
      some (udUnlockSemaphore_Internal (drainLoop (w.refCount - 1).toNat
        (readRefCount (udInterlockedPreDecrement
          (udLockSemaphore_Internal { w with handle := Ptr.null }))))) := by
  have hne : w.refCount - 1 ≠ 0 := by omega
  simp [udDestroySemaphore, udInterlockedCompareExchangePointer, hh,
    udInterlockedPreDecrement, udLockSemaphore_Internal, emit, hne, readRefCount]

/-- Claim C2. On a handle variable that points at a semaphore with
`refCount = r`, `udDestroySemaphore` returns with the handle variable null.
With `r = 1` it runs `udDestroySemaphore_Internal` exactly once (and wakes
nobody).  With `r > 1` it leaves `refCount = r - 1`, adds exactly `r - 1` to
`count`, issues exactly `r - 1` wakes, leaves the mutex unlocked and does not
release the object.  With a null `ppSemaphore` the world is unchanged. -/
theorem udDestroySemaphore_spec (w : World) (hh : w.handle = Ptr.obj) :
    (∃ w1, udDestroySemaphore HandlePtr.var w = some w1 ∧ w1.handle = Ptr.null ∧
      (w.refCount = 1 →
        released w1 = released w + 1 ∧ wakes w1 = wakes w ∧ w1.count = w.count ∧
        w1.log = w.log ++ [Event.lock, Event.refDec, Event.release]) ∧
      (1 < w.refCount →
        w1.refCount = w.refCount - 1 ∧ w1.count = w.count + (w.refCount - 1) ∧
        wakes w1 = wakes w + (w.refCount - 1).toNat ∧ w1.locked = false ∧
        released w1 = released w ∧
        w1.log = w.log ++ [Event.lock, Event.refDec, Event.refRead] ++
          (List.replicate (w.refCount - 1).toNat [Event.countInc, Event.wake]).flatten ++
          [Event.unlock])) ∧
    udDestroySemaphore HandlePtr.null w = some w := by
  refine ⟨?_, rfl⟩
  by_cases h1 : w.refCount = 1
  · refine ⟨_, udDestroySemaphore_last w hh h1, ?_, ?_, ?_⟩
    · simp [udDestroySemaphore_Internal, udInterlockedPreDecrement,
        udLockSemaphore_Internal, emit]
    · intro _
      simp [released, wakes, udDestroySemaphore_Internal, udInterlockedPreDecrement,
        udLockSemaphore_Internal, emit]
    · intro h
      omega
  · refine ⟨_, udDestroySemaphore_drain w hh h1, ?_, ?_, ?_⟩
    · simp [udUnlockSemaphore_Internal, emit, drainLoop_handle, readRefCount,
        udInterlockedPreDecrement, udLockSemaphore_Internal]
    · intro h
      exact absurd h h1
    · intro _
      refine ⟨?_, ?_, ?_, ?_, ?_, ?_⟩
      · simp [udUnlockSemaphore_Internal, emit, drainLoop_refCount, readRefCount,
          udInterlockedPreDecrement, udLockSemaphore_Internal]
      · simp only [udUnlockSemaphore_Internal, emit, drainLoop_count, readRefCount,
          udInterlockedPreDecrement, udLockSemaphore_Internal]
        omega
      · simp [wakes, udUnlockSemaphore_Internal, emit, drainLoop_log, readRefCount,
          udInterlockedPreDecrement, udLockSemaphore_Internal,
          count_flatten_replicate, List.count_cons]
      · simp [udUnlockSemaphore_Internal, emit]
      · simp [released, udUnlockSemaphore_Internal, emit, drainLoop_log, readRefCount,
          udInterlockedPreDecrement, udLockSemaphore_Internal,
          count_flatten_replicate, List.count_cons]
      · simp [udUnlockSemaphore_Internal, emit, drainLoop_log, readRefCount,
          udInterlockedPreDecrement, udLockSemaphore_Internal]

/-- Witness of C2: a semaphore with one blocked waiter (`refCount = 2`). -/
theorem udDestroySemaphore_spec_witness :
    (∃ w1, udDestroySemaphore HandlePtr.var
        { handle := Ptr.obj, count := 0, refCount := 2, locked := false, log := [] } = some w1 ∧
      w1.handle = Ptr.null ∧ released w1 = 0 ∧ w1.count = 1 ∧ wakes w1 = 1) := by
  have h := (udDestroySemaphore_spec
    { handle := Ptr.obj, count := 0, refCount := 2, locked := false, log := [] }
    rfl).1
  obtain ⟨w1, h1, h2, _, h4⟩ := h
  obtain ⟨_, hc, hw, _, hrel, _⟩ := h4 (by decide)
  exact ⟨w1, h1, h2, by simpa [released] using hrel, by simpa using hc, by simpa [wakes] using hw⟩

/-! ## udIncrementSemaphore -/

theorem incrementLoop_count (n : Nat) (w : World) :
    (incrementLoop n w).count = w.count + n := by
  induction n generalizing w with
  | zero => simp [incrementLoop]
  | succ k ih =>
    simp only [incrementLoop, ih, udUnlockSemaphore_Internal, udWakeSemaphore_Internal,
      incCount, udLockSemaphore_Internal, emit]
    push_cast
    ring

theorem incrementLoop_refCount (n : Nat) (w : World) :
    (incrementLoop n w).refCount = w.refCount := by
  induction n generalizing w with
  | zero => simp [incrementLoop]
  | succ k ih =>
    simp [incrementLoop, ih, udUnlockSemaphore_Internal, udWakeSemaphore_Internal,
      incCount, udLockSemaphore_Internal, emit]

theorem incrementLoop_handle (n : Nat) (w : World) :
    (incrementLoop n w).handle = w.handle := by
  induction n generalizing w with
  | zero => simp [incrementLoop]
  | succ k ih =>
    simp [incrementLoop, ih, udUnlockSemaphore_Internal, udWakeSemaphore_Internal,
      incCount, udLockSemaphore_Internal, emit]

theorem incrementLoop_locked (n : Nat) (w : World) (h : w.locked = false) :
    (incrementLoop n w).locked = false := by
  induction n generalizing w with
  | zero => simpa [incrementLoop] using h
  | succ k ih =>
    simp only [incrementLoop]
    apply ih
    simp [udUnlockSemaphore_Internal, emit]

theorem incrementLoop_log (n : Nat) (w : World) :
    (incrementLoop n w).log = w.log ++ (List.replicate n incrementStep).flatten := by
  induction n generalizing w with
  | zero => simp [incrementLoop]
  | succ k ih =>
    simp [incrementLoop, ih, udUnlockSemaphore_Internal, udWakeSemaphore_Internal,
      incCount, udLockSemaphore_Internal, emit, List.replicate_succ, incrementStep]

theorem wakesUnderLock_incrementSteps (n : Nat) (h : Bool) :
    wakesUnderLock ((List.replicate n incrementStep).flatten ++ [Event.refDec]) h = true := by
  induction n generalizing h with
  | zero => simp [wakesUnderLock]
  | succ k ih =>
    simp [List.replicate_succ, incrementStep, wakesUnderLock]
    simpa [incrementStep] using ih false

theorem udIncrementSemaphore_live (k : Int) (w : World) (h : w.refCount ≠ 0) :
    udIncrementSemaphore Ptr.obj k w =
      udInterlockedPreDecrement (incrementLoop k.toNat
        (udInterlockedPreIncrement (readRefCount w))) := by
  simp [udIncrementSemaphore, readRefCount, emit, h]

/-- Claim C5. On a semaphore with `refCount >= 1`, `udIncrementSemaphore(sem, k)`
adds exactly `max(k, 0)` to `count`, issues exactly `max(k, 0)` wakes, each of
them while the mutex is held (the accesses of the call are the guard read, the
reference increment, `max(k, 0)` rounds of lock, `++count`, wake, unlock, and
the reference decrement), and leaves `refCount` at its value on entry. -/
theorem udIncrementSemaphore_spec (w : World) (k : Int) (hr : 1 ≤ w.refCount) :
    (udIncrementSemaphore Ptr.obj k w).count = w.count + max k 0 ∧
    wakes (udIncrementSemaphore Ptr.obj k w) = wakes w + (max k 0).toNat ∧
    (udIncrementSemaphore Ptr.obj k w).refCount = w.refCount ∧
    (udIncrementSemaphore Ptr.obj k w).log = w.log ++ incrementEvents k ∧
    wakesUnderLock (incrementEvents k) false = true ∧
    (incrementEvents k).count Event.wake = (max k 0).toNat := by
  have hne : w.refCount ≠ 0 := by omega
  have hmax : (max k 0).toNat = k.toNat := by
    rcases le_total k 0 with h | h
    · simp [max_eq_right h, Int.toNat_eq_zero.mpr h]
    · simp [max_eq_left h]
  have hcast : ((k.toNat : Nat) : Int) = max k 0 := by
    rcases le_total k 0 with h | h
    · simp [max_eq_right h, Int.toNat_eq_zero.mpr h]
    · simp [max_eq_left h, Int.toNat_of_nonneg h]
  rw [udIncrementSemaphore_live k w hne, hmax]
  refine ⟨?_, ?_, ?_, ?_, ?_, ?_⟩
  · simp only [udInterlockedPreDecrement, emit, incrementLoop_count,
      udInterlockedPreIncrement, readRefCount, hcast]
  · simp [wakes, udInterlockedPreDecrement, emit, incrementLoop_log,
      udInterlockedPreIncrement, readRefCount, count_flatten_replicate, incrementStep,
      List.count_cons]
  · simp [udInterlockedPreDecrement, emit, incrementLoop_refCount,
      udInterlockedPreIncrement, readRefCount]
  · simp [udInterlockedPreDecrement, emit, incrementLoop_log,
      udInterlockedPreIncrement, readRefCount, incrementEvents]
  · simp only [incrementEvents, List.append_assoc, List.cons_append, List.nil_append,
      wakesUnderLock]
    exact wakesUnderLock_incrementSteps k.toNat false
  · simp [incrementEvents, count_flatten_replicate, incrementStep, List.count_cons]

/-- Witness of C5: three units deposited on a fresh semaphore. -/
theorem udIncrementSemaphore_spec_witness :
    (udIncrementSemaphore Ptr.obj 3 udCreateSemaphore).count = 3 ∧
    wakes (udIncrementSemaphore Ptr.obj 3 udCreateSemaphore) = 3 ∧
    (udIncrementSemaphore Ptr.obj 3 udCreateSemaphore).refCount = 1 := by
  have h := udIncrementSemaphore_spec udCreateSemaphore 3 (by decide)
  refine ⟨?_, ?_, ?_⟩
  · simpa [udCreateSemaphore] using h.1
  · simpa [udCreateSemaphore, wakes] using h.2.1
  · simpa [udCreateSemaphore] using h.2.2.1

/-! ## udWaitSemaphore -/

theorem udWaitSemaphore_exit_last (retVal : Bool) (w : World) (h : w.refCount = 1) :
    udWaitSemaphore_exit retVal w =
      WaitStatus.returned (udDestroySemaphore_Internal (udInterlockedPreDecrement w)) (-1) := by
  simp [udWaitSemaphore_exit, udInterlockedPreDecrement, emit, h]

theorem udWaitSemaphore_exit_live (retVal : Bool) (w : World) (h : w.refCount ≠ 1) :
    udWaitSemaphore_exit retVal w =
      WaitStatus.returned (udUnlockSemaphore_Internal (udInterlockedPreDecrement w))
        (if retVal then 0 else 1) := by
  have hne : w.refCount - 1 ≠ 0 := by omega
  simp [udWaitSemaphore_exit, udInterlockedPreDecrement, emit, hne]

/-- The infinite wait that finds a unit: no sleep, one unit taken, 0 returned. -/
theorem udWaitSemaphore_enter_fast (w : World) (hr : 1 ≤ w.refCount) (hc : 0 < w.count) :
    udWaitSemaphore_enter Ptr.obj UDTHREAD_WAIT_INFINITE w =
      WaitStatus.returned
        { w with count := w.count - 1, locked := false, log := w.log ++ waitFastEvents } 0 := by
  have h0 : w.refCount ≠ 0 := by omega
  have h1 : w.refCount + 1 - 1 ≠ 0 := by omega
  have h2 : w.count ≠ 0 := by omega
  simp [udWaitSemaphore_enter, udWaitSemaphore_loop, udWaitSemaphore_exit, readRefCount,
    readCount, decCount, udInterlockedPreIncrement, udInterlockedPreDecrement,
    udLockSemaphore_Internal, udUnlockSemaphore_Internal, emit, h0, h1, h2, waitFastEvents]

/-- Claim C9. With a null pointer, and with `refCount` read as 0 at the entry
check, `udIncrementSemaphore` changes neither `count` nor `refCount` and issues
no wake (with a null pointer it touches nothing, otherwise its one access is
the read of `refCount`), and `udWaitSemaphore` returns -1, whatever the timeout
and the sleep results on offer, without locking, sleeping, or changing `count`
or `refCount`. -/
theorem destroyed_or_null_noop (w : World) (k waitMs : Int) (sleepResults : List Bool) :
    udIncrementSemaphore Ptr.null k w = w ∧
    udWaitSemaphore Ptr.null waitMs sleepResults w = some (w, -1) ∧
    (w.refCount = 0 →
      udIncrementSemaphore Ptr.obj k w = { w with log := w.log ++ [Event.refRead] } ∧
      wakes (udIncrementSemaphore Ptr.obj k w) = wakes w ∧
      udWaitSemaphore Ptr.obj waitMs sleepResults w =
        some ({ w with log := w.log ++ [Event.refRead] }, -1) ∧
      locks { w with log := w.log ++ [Event.refRead] } = locks w ∧
      sleeps { w with log := w.log ++ [Event.refRead] } = sleeps w) := by
  refine ⟨rfl, rfl, ?_⟩
  intro h
  refine ⟨?_, ?_, ?_, ?_, ?_⟩
  · simp [udIncrementSemaphore, readRefCount, emit, h]
  · simp [udIncrementSemaphore, readRefCount, emit, h, wakes]
  · simp [udWaitSemaphore, udWaitSemaphore_enter, readRefCount, emit, h]
  · simp [locks]
  · simp [sleeps, Event.isSleep]

/-- Witness of C9: a released semaphore (`refCount = 0`) that still holds two
units. -/
theorem destroyed_or_null_noop_witness :
    udIncrementSemaphore Ptr.obj 5
        { handle := Ptr.null, count := 2, refCount := 0, locked := false, log := [] } =
      { handle := Ptr.null, count := 2, refCount := 0, locked := false,
        log := [Event.refRead] } ∧
    udWaitSemaphore Ptr.obj 100 [true]
        { handle := Ptr.null, count := 2, refCount := 0, locked := false, log := [] } =
      some (⟨Ptr.null, 2, 0, false, [Event.refRead]⟩, -1) := by
  have h := (destroyed_or_null_noop
    { handle := Ptr.null, count := 2, refCount := 0, locked := false, log := [] }
    5 100 [true]).2.2 rfl
  exact ⟨by simpa using h.1, by simpa using h.2.2.1⟩

theorem udWaitSemaphore_fast (o : List Bool) (w : World) (hr : 1 ≤ w.refCount)
    (hc : 0 < w.count) :
    udWaitSemaphore Ptr.obj UDTHREAD_WAIT_INFINITE o w =
      some ({ w with count := w.count - 1, locked := false,
                     log := w.log ++ waitFastEvents }, 0) := by
  simp [udWaitSemaphore, udWaitSemaphore_enter_fast w hr hc]

theorem iterate_increment (n : Nat) (w : World) (hr : 1 ≤ w.refCount) :
    ((udIncrementSemaphore Ptr.obj 1)^[n] w).count = w.count + n ∧
    ((udIncrementSemaphore Ptr.obj 1)^[n] w).refCount = w.refCount ∧
    sleeps ((udIncrementSemaphore Ptr.obj 1)^[n] w) = sleeps w := by
  induction n generalizing w with
  | zero => simp
  | succ k ih =>
    have hne : w.refCount ≠ 0 := by omega
    have hstep : (udIncrementSemaphore Ptr.obj 1 w).refCount = w.refCount := by
      rw [udIncrementSemaphore_live 1 w hne]
      simp [udInterlockedPreDecrement, emit, incrementLoop_refCount,
        udInterlockedPreIncrement, readRefCount]
    have hcount : (udIncrementSemaphore Ptr.obj 1 w).count = w.count + 1 := by
      rw [udIncrementSemaphore_live 1 w hne]
      simp [udInterlockedPreDecrement, emit, incrementLoop_count,
        udInterlockedPreIncrement, readRefCount]
    have hsleep : sleeps (udIncrementSemaphore Ptr.obj 1 w) = sleeps w := by
      rw [udIncrementSemaphore_live 1 w hne]
      simp [sleeps, udInterlockedPreDecrement, emit, incrementLoop_log,
        udInterlockedPreIncrement, readRefCount, incrementStep, Event.isSleep]
    obtain ⟨h1, h2, h3⟩ := ih (udIncrementSemaphore Ptr.obj 1 w) (by omega)
    rw [Function.iterate_succ_apply]
    refine ⟨?_, ?_, ?_⟩
    · rw [h1, hcount]
      push_cast
      ring
    · rw [h2, hstep]
    · rw [h3, hsleep]

theorem waitMany_fast (os : List (List Bool)) (w : World) (hr : 1 ≤ w.refCount)
    (hc : (os.length : Int) ≤ w.count) :
    ∃ w1, waitMany Ptr.obj UDTHREAD_WAIT_INFINITE os w =
        some (w1, List.replicate os.length 0) ∧
      w1.count = w.count - os.length ∧ w1.refCount = w.refCount ∧
      sleeps w1 = sleeps w := by
  induction os generalizing w with
  | nil => exact ⟨w, by simp [waitMany]⟩
  | cons o os ih =>
    have hlen : ((o :: os).length : Int) = os.length + 1 := by simp
    have hpos : 0 < w.count := by
      have := Int.natCast_nonneg os.length
      omega
    obtain ⟨w1, h1, h2, h3, h4⟩ := ih
      { w with count := w.count - 1, locked := false, log := w.log ++ waitFastEvents }
      hr (by simp only; omega)
    refine ⟨w1, ?_, ?_, ?_, ?_⟩
    · simp [waitMany, udWaitSemaphore_fast o w hr hpos, h1, List.replicate_succ]
    · rw [h2, hlen]
      simp only
      ring
    · rw [h3]
    · rw [h4]
      simp [sleeps, waitFastEvents, Event.isSleep]

/-- Claim C3. For every `N`, on a freshly created semaphore, after `N` calls
`udIncrementSemaphore(sem, 1)` each of `N` following calls
`udWaitSemaphore(sem, UDTHREAD_WAIT_INFINITE)` returns 0, whatever the sleep
primitive would have returned, and none of them calls it; afterwards
`count = 0` and `refCount = 1`. -/
theorem counting_correctness (N : Nat) (sleepResults : List (List Bool))
    (hlen : sleepResults.length = N) :
    ∃ w, waitMany Ptr.obj UDTHREAD_WAIT_INFINITE sleepResults
          ((udIncrementSemaphore Ptr.obj 1)^[N] udCreateSemaphore) =
        some (w, List.replicate N 0) ∧
      sleeps w = 0 ∧ w.count = 0 ∧ w.refCount = 1 := by
  obtain ⟨hc, hr, hs⟩ := iterate_increment N udCreateSemaphore (by decide)
  obtain ⟨w, h1, h2, h3, h4⟩ := waitMany_fast sleepResults
    ((udIncrementSemaphore Ptr.obj 1)^[N] udCreateSemaphore)
    (by rw [hr]; decide) (by rw [hc, hlen]; simp [udCreateSemaphore])
  refine ⟨w, ?_, ?_, ?_, ?_⟩
  · rw [h1, hlen]
  · rw [h4, hs]
    rfl
  · rw [h2, hc, hlen]
    simp [udCreateSemaphore]
  · rw [h3, hr]
    rfl

/-- Witness of C3: two units, two waits, with sleep results on offer that are
never used. -/
theorem counting_correctness_witness :
    ∃ w, waitMany Ptr.obj UDTHREAD_WAIT_INFINITE [[false], []]
          ((udIncrementSemaphore Ptr.obj 1)^[2] udCreateSemaphore) =
        some (w, List.replicate 2 0) ∧
      sleeps w = 0 ∧ w.count = 0 ∧ w.refCount = 1 :=
  counting_correctness 2 [[false], []] rfl

/-- A finite wait whose sleep times out or fails. -/
theorem finiteWait_timeout (w : World) (waitMs : Int) (rest : List Bool)
    (hr : 1 ≤ w.refCount) (hfin : waitMs ≠ UDTHREAD_WAIT_INFINITE) :
    udWaitSemaphore Ptr.obj waitMs (false :: rest) w =
      some ({ w with locked := false,
                     log := w.log ++ [Event.refRead, Event.refInc, Event.lock,
                       Event.sleep waitMs, Event.wokeUp false, Event.refDec,
                       Event.unlock] }, 1) := by
  have h0 : w.refCount ≠ 0 := by omega
  have h1 : w.refCount + 1 - 1 ≠ 0 := by omega
  simp [udWaitSemaphore, udWaitSemaphore_enter, readRefCount, emit, h0, hfin,
    driveWait, udWaitSemaphore_resume, udWaitSemaphore_exit, sleepBegin, sleepEnd,
    udInterlockedPreIncrement, udInterlockedPreDecrement, udLockSemaphore_Internal,
    udUnlockSemaphore_Internal, h1]

/-- A finite wait whose sleep is woken and finds a unit. -/
theorem finiteWait_consume (w : World) (waitMs : Int) (rest : List Bool)
    (hr : 1 ≤ w.refCount) (hfin : waitMs ≠ UDTHREAD_WAIT_INFINITE) (hc : 0 < w.count) :
    udWaitSemaphore Ptr.obj waitMs (true :: rest) w =
      some ({ w with count := w.count - 1, locked := false,
                     log := w.log ++ [Event.refRead, Event.refInc, Event.lock,
                       Event.sleep waitMs, Event.wokeUp true, Event.countRead,
                       Event.countDec, Event.refDec, Event.unlock] }, 0) := by
  have h0 : w.refCount ≠ 0 := by omega
  have h1 : w.refCount + 1 - 1 ≠ 0 := by omega
  simp [udWaitSemaphore, udWaitSemaphore_enter, readRefCount, emit, h0, hfin,
    driveWait, udWaitSemaphore_resume, udWaitSemaphore_exit, sleepBegin, sleepEnd,
    udInterlockedPreIncrement, udInterlockedPreDecrement, udLockSemaphore_Internal,
    udUnlockSemaphore_Internal, h1, readCount, decCount, hc]

/-- A finite wait whose sleep is woken and finds no unit. -/
theorem finiteWait_spurious (w : World) (waitMs : Int) (rest : List Bool)
    (hr : 1 ≤ w.refCount) (hfin : waitMs ≠ UDTHREAD_WAIT_INFINITE) (hc : ¬ 0 < w.count) :
    udWaitSemaphore Ptr.obj waitMs (true :: rest) w =
      some ({ w with locked := false,
                     log := w.log ++ [Event.refRead, Event.refInc, Event.lock,
                       Event.sleep waitMs, Event.wokeUp true, Event.countRead,
                       Event.refDec, Event.unlock] }, 1) := by
  have h0 : w.refCount ≠ 0 := by omega
  have h1 : w.refCount + 1 - 1 ≠ 0 := by omega
  simp [udWaitSemaphore, udWaitSemaphore_enter, readRefCount, emit, h0, hfin,
    driveWait, udWaitSemaphore_resume, udWaitSemaphore_exit, sleepBegin, sleepEnd,
    udInterlockedPreIncrement, udInterlockedPreDecrement, udLockSemaphore_Internal,
    udUnlockSemaphore_Internal, h1, readCount, decCount, hc]

/-- Claim C6. On a semaphore with `refCount >= 1` and a finite `waitMs`,
`udWaitSemaphore` calls the timed sleep exactly once: it is asleep until the
first sleep result arrives and returns on it, ignoring any further ones.  When
that sleep reports a wake and `count > 0`, `count` goes down by one and the call
returns 0; when it reports a wake and `count = 0`, the call returns a non-zero
value with `count` unchanged. -/
theorem finite_wait_spec (w : World) (waitMs : Int) (b : Bool) (rest : List Bool)
    (hr : 1 ≤ w.refCount) (hfin : waitMs ≠ UDTHREAD_WAIT_INFINITE) :
    udWaitSemaphore Ptr.obj waitMs [] w = none ∧
    ∃ w1 ret, udWaitSemaphore Ptr.obj waitMs (b :: rest) w = some (w1, ret) ∧
      sleeps w1 = sleeps w + 1 ∧
      w1.log.count (Event.sleep waitMs) = w.log.count (Event.sleep waitMs) + 1 ∧
      (b = true → 0 < w.count → w1.count = w.count - 1 ∧ ret = 0) ∧
      (b = true → w.count = 0 → ret ≠ 0 ∧ w1.count = w.count) := by
  have h0 : w.refCount ≠ 0 := by omega
  refine ⟨?_, ?_⟩
  · simp [udWaitSemaphore, udWaitSemaphore_enter, readRefCount, emit, h0, hfin, driveWait]
  · cases b with
    | false =>
      refine ⟨_, _, finiteWait_timeout w waitMs rest hr hfin, ?_, ?_, ?_, ?_⟩
      · simp [sleeps, Event.isSleep]
      · simp [List.count_cons]
      · intro h
        exact absurd h (by decide)
      · intro h
        exact absurd h (by decide)
    | true =>
      by_cases hc : 0 < w.count
      · refine ⟨_, _, finiteWait_consume w waitMs rest hr hfin hc, ?_, ?_, ?_, ?_⟩
        · simp [sleeps, Event.isSleep]
        · simp [List.count_cons]
        · intro _ _
          exact ⟨rfl, rfl⟩
        · intro _ h
          omega
      · refine ⟨_, _, finiteWait_spurious w waitMs rest hr hfin hc, ?_, ?_, ?_, ?_⟩
        · simp [sleeps, Event.isSleep]
        · simp [List.count_cons]
        · intro _ h
          exact absurd h hc
        · intro _ _
          exact ⟨by decide, rfl⟩

/-- Witness of C6: a 100 ms wait on a semaphore holding one unit. -/
theorem finite_wait_spec_witness :
    udWaitSemaphore Ptr.obj 100 [] (udIncrementSemaphore Ptr.obj 1 udCreateSemaphore) = none ∧
    ∃ w1 ret, udWaitSemaphore Ptr.obj 100 [true]
        (udIncrementSemaphore Ptr.obj 1 udCreateSemaphore) = some (w1, ret) ∧
      w1.count = 0 ∧ ret = 0 := by
  have h := finite_wait_spec (udIncrementSemaphore Ptr.obj 1 udCreateSemaphore) 100 true []
    (by decide) (by decide)
  obtain ⟨h1, w1, ret, h2, _, _, h3, _⟩ := h
  have h4 := h3 rfl (by decide)
  exact ⟨h1, w1, ret, h2, by rw [h4.1]; decide, h4.2⟩

/-- What lines 396-407 do, in terms of the world they return in. -/
theorem udWaitSemaphore_exit_returned (retVal : Bool) (w w1 : World) (ret : Int)
    (h : udWaitSemaphore_exit retVal w = WaitStatus.returned w1 ret) :
    w1.refCount = w.refCount - 1 ∧ w1.count = w.count ∧ consumed w1 = consumed w ∧
    deposited w1 = deposited w ∧
    (w1.refCount = 0 → ret = -1 ∧ released w1 = released w + 1) ∧
    (w1.refCount ≠ 0 → released w1 = released w ∧ w1.locked = false ∧
      ret = if retVal then 0 else 1) := by
  by_cases h1 : w.refCount = 1
  · rw [udWaitSemaphore_exit_last retVal w h1] at h
    injection h with hw hret
    subst hw hret
    simp [udDestroySemaphore_Internal, udInterlockedPreDecrement, emit, h1, consumed,
      deposited, released]
  · rw [udWaitSemaphore_exit_live retVal w h1] at h
    injection h with hw hret
    subst hw hret
    have hne : w.refCount - 1 ≠ 0 := by omega
    simp [udUnlockSemaphore_Internal, udInterlockedPreDecrement, emit, hne, consumed,
      deposited, released]

/-- Claim C7. In `udWaitSemaphore`, when the final atomic decrement of `refCount`
yields 0, `udDestroySemaphore_Internal` runs exactly once and the call returns
-1, whatever the local `retVal`; when it yields a non-zero value, nothing is
released, the mutex is unlocked, and the call returns 0 when a unit was taken
from `count` and 1 otherwise.  This is stated for lines 396-407 on their own
and for every way a call reaches them: from its entry past the check of line
361, and from the return of a sleep. -/
theorem last_one_out_releases (w : World) (waitMs : Int) (retVal : Bool) :
    (w.refCount - 1 = 0 →
      udWaitSemaphore_exit retVal w =
        WaitStatus.returned
          { w with refCount := 0, log := w.log ++ [Event.refDec, Event.release] } (-1)) ∧
    (w.refCount - 1 ≠ 0 →
      udWaitSemaphore_exit retVal w =
        WaitStatus.returned
          { w with refCount := w.refCount - 1, locked := false,
                   log := w.log ++ [Event.refDec, Event.unlock] }
          (if retVal then 0 else 1)) ∧
    (∀ w1 ret, (udWaitSemaphore_resume waitMs retVal w = WaitStatus.returned w1 ret ∨
        (w.refCount ≠ 0 ∧
          udWaitSemaphore_enter Ptr.obj waitMs w = WaitStatus.returned w1 ret)) →
      (w1.refCount = 0 → ret = -1 ∧ released w1 = released w + 1) ∧
      (w1.refCount ≠ 0 → released w1 = released w ∧ w1.locked = false ∧
        ((ret = 0 ∧ consumed w1 = consumed w + 1) ∨
         (ret = 1 ∧ consumed w1 = consumed w)))) := by
  refine ⟨?_, ?_, ?_⟩
  · intro h
    simp [udWaitSemaphore_exit, udInterlockedPreDecrement, udDestroySemaphore_Internal,
      emit, h]
  · intro h
    simp [udWaitSemaphore_exit, udInterlockedPreDecrement, udUnlockSemaphore_Internal,
      emit, h]
  · intro w1 ret h
    rcases h with h | ⟨h0, h⟩
    · unfold udWaitSemaphore_resume at h
      simp only [udWaitSemaphore_loop] at h
      split_ifs at h with c1 c2 c3 c4 c5
      · obtain ⟨-, -, hc, -, hz, hnz⟩ := udWaitSemaphore_exit_returned _ _ _ _ h
        simp [consumed, released, decCount, readCount, sleepEnd, emit] at hc hz hnz ⊢
        refine ⟨hz, fun hne => ?_⟩
        obtain ⟨a, b, c⟩ := hnz hne
        exact ⟨a, b, Or.inl ⟨c, by simpa [consumed] using hc⟩⟩
      · obtain ⟨-, -, hc, -, hz, hnz⟩ := udWaitSemaphore_exit_returned _ _ _ _ h
        simp [consumed, released, sleepEnd, emit] at hc hz hnz ⊢
        refine ⟨hz, fun hne => ?_⟩
        obtain ⟨a, b, c⟩ := hnz hne
        exact ⟨a, b, Or.inr ⟨c, by simpa [consumed] using hc⟩⟩
      · obtain ⟨-, -, hc, -, hz, hnz⟩ := udWaitSemaphore_exit_returned _ _ _ _ h
        simp [consumed, released, decCount, readCount, sleepEnd, emit] at hc hz hnz ⊢
        refine ⟨hz, fun hne => ?_⟩
        obtain ⟨a, b, c⟩ := hnz hne
        exact ⟨a, b, Or.inl ⟨c, by simpa [consumed] using hc⟩⟩
      · obtain ⟨-, -, hc, -, hz, hnz⟩ := udWaitSemaphore_exit_returned _ _ _ _ h
        simp [consumed, released, readCount, sleepEnd, emit] at hc hz hnz ⊢
        refine ⟨hz, fun hne => ?_⟩
        obtain ⟨a, b, c⟩ := hnz hne
        exact ⟨a, b, Or.inr ⟨c, by simpa [consumed] using hc⟩⟩
      · obtain ⟨-, -, hc, -, hz, hnz⟩ := udWaitSemaphore_exit_returned _ _ _ _ h
        simp [consumed, released, sleepEnd, emit] at hc hz hnz ⊢
        refine ⟨hz, fun hne => ?_⟩
        obtain ⟨a, b, c⟩ := hnz hne
        exact ⟨a, b, Or.inr ⟨c, by simpa [consumed] using hc⟩⟩
    · unfold udWaitSemaphore_enter at h
      simp only [udWaitSemaphore_loop, readRefCount, emit, h0, if_false] at h
      split_ifs at h with c1 c2
      obtain ⟨-, -, hc, -, hz, hnz⟩ := udWaitSemaphore_exit_returned _ _ _ _ h
      simp [consumed, released, decCount, readCount, udLockSemaphore_Internal,
        udInterlockedPreIncrement, emit] at hc hz hnz ⊢
      refine ⟨hz, fun hne => ?_⟩
      obtain ⟨a, b, c⟩ := hnz hne
      exact ⟨a, b, Or.inl ⟨c, by simpa [consumed] using hc⟩⟩

/-- Witness of C7: the handle was destroyed during the wait (`refCount = 1`
at the final decrement), the wait itself had succeeded. -/
theorem last_one_out_releases_witness :
    udWaitSemaphore_exit true
        { handle := Ptr.null, count := 0, refCount := 1, locked := true, log := [] } =
      WaitStatus.returned
        { handle := Ptr.null, count := 0, refCount := 0, locked := true,
          log := [Event.refDec, Event.release] } (-1) := by
  have h := (last_one_out_releases
    { handle := Ptr.null, count := 0, refCount := 1, locked := true, log := [] }
    100 true).1 (by decide)
  simpa using h

/-! ## Destroying through a handle variable that is already null -/

/-- With the handle variable already null, `udDestroySemaphore` gets past its
compare-and-swap (null compared with null) and locks through the null
pointer. -/
theorem udDestroySemaphore_null_handle (w : World) (h : w.handle = Ptr.null) :
    udDestroySemaphore HandlePtr.var w = none := by
  simp [udDestroySemaphore, udInterlockedCompareExchangePointer, h]

/-- Claim C4, the code at the failing input.  Two calls of `udDestroySemaphore`
on the handle variable of a fresh semaphore: the first releases the semaphore
and leaves the handle variable null; the second does not return at its
compare-and-swap, it dereferences the null pointer. -/
theorem double_destroy_dereferences_null :
    (∃ w, udDestroySemaphore HandlePtr.var udCreateSemaphore = some w ∧
      w.handle = Ptr.null ∧ released w = 1 ∧
      udDestroySemaphore HandlePtr.var w = none) ∧
    udDestroySemaphore HandlePtr.var
      { handle := Ptr.null, count := 0, refCount := 1, locked := false, log := [] } = none := by
  refine ⟨⟨_, rfl, rfl, rfl, rfl⟩, rfl⟩

/-! ## The count invariant -/

theorem countInv_create : CountInv udCreateSemaphore := by
  simp [CountInv, udCreateSemaphore, consumed, deposited]

theorem countInv_exit (retVal : Bool) (w : World) (h : CountInv w) :
    CountInv (udWaitSemaphore_exit retVal w).world := by
  unfold udWaitSemaphore_exit
  simp only
  split_ifs <;>
    simpa [CountInv, WaitStatus.world, udDestroySemaphore_Internal,
      udUnlockSemaphore_Internal, udInterlockedPreDecrement, emit, consumed,
      deposited] using h

theorem countInv_decCount (w : World) (h : CountInv w) (hc : 0 < w.count) :
    CountInv (decCount w) := by
  obtain ⟨h1, h2⟩ := h
  simp only [CountInv, consumed, deposited] at h2 ⊢
  simp [decCount, emit, List.count_cons] at h2 ⊢
  constructor <;> omega

theorem countInv_loop (waitMs : Int) (w : World) (h : CountInv w) :
    CountInv (udWaitSemaphore_loop waitMs w).world := by
  unfold udWaitSemaphore_loop
  simp only
  split_ifs with hc
  · simpa [CountInv, WaitStatus.world, sleepBegin, readCount, emit, consumed,
      deposited] using h
  · apply countInv_exit
    apply countInv_decCount
    · simpa [CountInv, readCount, emit, consumed, deposited] using h
    · have h0 := h.1
      simp only [readCount, emit] at hc ⊢
      omega

theorem countInv_enter (p : Ptr) (waitMs : Int) (w : World) (h : CountInv w) :
    CountInv (udWaitSemaphore_enter p waitMs w).world := by
  cases p with
  | null => simpa [udWaitSemaphore_enter, WaitStatus.world] using h
  | obj =>
    simp only [udWaitSemaphore_enter]
    split_ifs with h0 hinf
    · simpa [CountInv, WaitStatus.world, readRefCount, emit, consumed, deposited] using h
    · apply countInv_loop
      simpa [CountInv, readRefCount, udInterlockedPreIncrement, udLockSemaphore_Internal,
        emit, consumed, deposited] using h
    · simpa [CountInv, WaitStatus.world, sleepBegin, readRefCount,
        udInterlockedPreIncrement, udLockSemaphore_Internal, emit, consumed,
        deposited] using h

theorem countInv_resume (waitMs : Int) (b : Bool) (w : World) (h : CountInv w) :
    CountInv (udWaitSemaphore_resume waitMs b w).world := by
  have hs : CountInv (sleepEnd b w) := by
    simpa [CountInv, sleepEnd, emit, consumed, deposited] using h
  unfold udWaitSemaphore_resume
  simp only
  split_ifs with c1 c2 c3 c4
  · exact countInv_loop _ _ hs
  · exact countInv_exit _ _ hs
  · apply countInv_exit
    apply countInv_decCount
    · simpa [CountInv, readCount, emit, consumed, deposited] using hs
    · exact c4
  · apply countInv_exit
    simpa [CountInv, readCount, emit, consumed, deposited] using hs
  · exact countInv_exit _ _ hs

theorem countInv_driveWait (waitMs : Int) (rs : List Bool) (w w1 : World) (ret : Int)
    (h : CountInv w) (hrun : driveWait waitMs rs w = some (w1, ret)) : CountInv w1 := by
  induction rs generalizing w with
  | nil => simp [driveWait] at hrun
  | cons b bs ih =>
    have hres := countInv_resume waitMs b w h
    simp only [driveWait] at hrun
    cases hst : udWaitSemaphore_resume waitMs b w with
    | sleeping v =>
      rw [hst] at hrun hres
      exact ih v hres hrun
    | returned v r =>
      rw [hst] at hrun hres
      simp only [Option.some.injEq, Prod.mk.injEq] at hrun
      rw [← hrun.1]
      exact hres

theorem countInv_wait (p : Ptr) (waitMs : Int) (rs : List Bool) (w w1 : World) (ret : Int)
    (h : CountInv w) (hrun : udWaitSemaphore p waitMs rs w = some (w1, ret)) :
    CountInv w1 := by
  have hent := countInv_enter p waitMs w h
  simp only [udWaitSemaphore] at hrun
  cases hst : udWaitSemaphore_enter p waitMs w with
  | sleeping v =>
    rw [hst] at hrun hent
    exact countInv_driveWait waitMs rs v w1 ret hent hrun
  | returned v r =>
    rw [hst] at hrun hent
    simp only [Option.some.injEq, Prod.mk.injEq] at hrun
    rw [← hrun.1]
    exact hent

theorem countInv_incrementLoop (n : Nat) (w : World) (h : CountInv w) :
    CountInv (incrementLoop n w) := by
  induction n generalizing w with
  | zero => simpa [incrementLoop] using h
  | succ k ih =>
    simp only [incrementLoop]
    apply ih
    obtain ⟨h1, h2⟩ := h
    simp only [CountInv, consumed, deposited] at h2 ⊢
    simp [udUnlockSemaphore_Internal, udWakeSemaphore_Internal, incCount,
      udLockSemaphore_Internal, emit, List.count_cons] at h2 ⊢
    constructor <;> omega

theorem countInv_increment (p : Ptr) (k : Int) (w : World) (h : CountInv w) :
    CountInv (udIncrementSemaphore p k w) := by
  cases p with
  | null => simpa [udIncrementSemaphore] using h
  | obj =>
    simp only [udIncrementSemaphore]
    split_ifs with h0
    · simpa [CountInv, readRefCount, emit, consumed, deposited] using h
    · have h1 : CountInv (udInterlockedPreIncrement (readRefCount w)) := by
        simpa [CountInv, readRefCount, udInterlockedPreIncrement, emit, consumed,
          deposited] using h
      have h2 := countInv_incrementLoop k.toNat _ h1
      simpa [CountInv, udInterlockedPreDecrement, emit, consumed, deposited] using h2

theorem countInv_drainLoop (n : Nat) (w : World) (h : CountInv w) :
    CountInv (drainLoop n w) := by
  induction n generalizing w with
  | zero => simpa [drainLoop] using h
  | succ k ih =>
    simp only [drainLoop]
    apply ih
    obtain ⟨h1, h2⟩ := h
    simp only [CountInv, consumed, deposited] at h2 ⊢
    simp [udWakeSemaphore_Internal, incCount, emit, List.count_cons] at h2 ⊢
    constructor <;> omega

theorem countInv_destroy (pp : HandlePtr) (w w1 : World) (h : CountInv w)
    (hrun : udDestroySemaphore pp w = some w1) : CountInv w1 := by
  cases pp with
  | null =>
    simp only [udDestroySemaphore, Option.some.injEq] at hrun
    rw [← hrun]
    exact h
  | var =>
    cases hh : w.handle with
    | null => rw [udDestroySemaphore_null_handle w hh] at hrun; cases hrun
    | obj =>
      have hbase : CountInv (udLockSemaphore_Internal { w with handle := Ptr.null }) := by
        simpa [CountInv, udLockSemaphore_Internal, emit, consumed, deposited] using h
      by_cases h1 : w.refCount = 1
      · rw [udDestroySemaphore_last w hh h1] at hrun
        simp only [Option.some.injEq] at hrun
        rw [← hrun]
        simpa [CountInv, udDestroySemaphore_Internal, udInterlockedPreDecrement, emit,
          consumed, deposited] using hbase
      · rw [udDestroySemaphore_drain w hh h1] at hrun
        simp only [Option.some.injEq] at hrun
        rw [← hrun]
        have h2 : CountInv (readRefCount (udInterlockedPreDecrement
            (udLockSemaphore_Internal { w with handle := Ptr.null }))) := by
          simpa [CountInv, readRefCount, udInterlockedPreDecrement, emit, consumed,
            deposited] using hbase
        have h3 := countInv_drainLoop (w.refCount - 1).toNat _ h2
        simpa [CountInv, udUnlockSemaphore_Internal, emit, consumed, deposited] using h3

theorem countInv_applyOp (op : Op) (w w1 : World) (h : CountInv w)
    (hrun : applyOp op w = some w1) : CountInv w1 := by
  cases op with
  | create =>
    simp only [applyOp, Option.some.injEq] at hrun
    rw [← hrun]
    exact countInv_create
  | increment p k =>
    simp only [applyOp, Option.some.injEq] at hrun
    rw [← hrun]
    exact countInv_increment p k w h
  | wait p waitMs rs =>
    simp only [applyOp] at hrun
    cases hst : udWaitSemaphore p waitMs rs w with
    | none =>
      rw [hst] at hrun
      simp at hrun
    | some r =>
      rw [hst] at hrun
      simp only [Option.map_some', Option.some.injEq] at hrun
      rw [← hrun]
      exact countInv_wait p waitMs rs w r.1 r.2 h hst
  | waitEnter p waitMs =>
    simp only [applyOp, Option.some.injEq] at hrun
    rw [← hrun]
    exact countInv_enter p waitMs w h
  | waitResume waitMs b =>
    simp only [applyOp, Option.some.injEq] at hrun
    rw [← hrun]
    exact countInv_resume waitMs b w h
  | destroy pp => exact countInv_destroy pp w w1 h hrun

theorem countInv_runOps (ops : List Op) (w w1 : World) (h : CountInv w)
    (hrun : runOps ops w = some w1) : CountInv w1 := by
  induction ops generalizing w with
  | nil =>
    simp only [runOps, Option.some.injEq] at hrun
    rw [← hrun]
    exact h
  | cons op ops ih =>
    simp only [runOps] at hrun
    cases hst : applyOp op w with
    | none => rw [hst] at hrun; cases hrun
    | some v =>
      rw [hst] at hrun
      exact ih v (countInv_applyOp op w v h hst) hrun

/-- Claim C8. After `udCreateSemaphore`, along every finite sequence of
`udCreateSemaphore`, `udIncrementSemaphore`, `udWaitSemaphore` and
`udDestroySemaphore` steps on the semaphore, with any value returned by each
sleep and with the waits cut at their sleeps or not, `count` is not negative,
the units taken by waits never exceed the units deposited (by increments and by
the drain of a destroy), and `count` is the difference of the two. -/
theorem count_invariant (ops : List Op) (w : World)
    (hrun : runOps ops udCreateSemaphore = some w) :
    0 ≤ w.count ∧ consumed w ≤ deposited w ∧
    w.count = (deposited w : Int) - (consumed w : Int) := by
  obtain ⟨h1, h2⟩ := countInv_runOps ops udCreateSemaphore w countInv_create hrun
  refine ⟨h1, ?_, ?_⟩ <;> omega

/-- Witness of C8: a waiter goes to sleep on the fresh semaphore, the handle is
destroyed (the drain deposits one unit), the waiter wakes up and takes it. -/
theorem count_invariant_witness :
    runOps [Op.waitEnter Ptr.obj UDTHREAD_WAIT_INFINITE, Op.destroy HandlePtr.var,
        Op.waitResume UDTHREAD_WAIT_INFINITE true] udCreateSemaphore = some drainExample ∧
    0 ≤ drainExample.count ∧ consumed drainExample ≤ deposited drainExample ∧
    consumed drainExample = 1 := by
  have hrun : runOps [Op.waitEnter Ptr.obj UDTHREAD_WAIT_INFINITE, Op.destroy HandlePtr.var,
        Op.waitResume UDTHREAD_WAIT_INFINITE true] udCreateSemaphore = some drainExample := by
    rfl
  have h := count_invariant _ _ hrun
  exact ⟨hrun, h.1, h.2.1, rfl⟩

/-! ## Destroy-drain -/

/-- A sleeper of the infinite wait that is woken and finds a unit takes it and
leaves; it is the one to release the semaphore when it holds the last
reference. -/
theorem udWaitSemaphore_resume_drained (w : World) (hc : 0 < w.count) :
    udWaitSemaphore_resume UDTHREAD_WAIT_INFINITE true w =
      udWaitSemaphore_exit true (decCount (readCount (sleepEnd true w))) := by
  have h : w.count ≠ 0 := by omega
  simp [udWaitSemaphore_resume, udWaitSemaphore_loop, readCount, sleepEnd, emit, h]

theorem resumeWaiter_other (w : World) (hc : 0 < w.count) (hr : w.refCount ≠ 1)
    (ws : Nat → Waiter) (i : Nat) (hi : ws i = Waiter.asleep) :
    resumeWaiter UDTHREAD_WAIT_INFINITE true i { world := w, waiters := ws } =
      { world := udUnlockSemaphore_Internal (udInterlockedPreDecrement
          (decCount (readCount (sleepEnd true w)))),
        waiters := Function.update ws i (Waiter.returned 0) } := by
  have hr1 : (decCount (readCount (sleepEnd true w))).refCount ≠ 1 := by
    simpa [decCount, readCount, sleepEnd, emit] using hr
  simp [resumeWaiter, hi, udWaitSemaphore_resume_drained w hc,
    udWaitSemaphore_exit_live true _ hr1]

theorem resumeWaiter_last (w : World) (hc : 0 < w.count) (hr : w.refCount = 1)
    (ws : Nat → Waiter) (i : Nat) (hi : ws i = Waiter.asleep) :
    resumeWaiter UDTHREAD_WAIT_INFINITE true i { world := w, waiters := ws } =
      { world := udDestroySemaphore_Internal (udInterlockedPreDecrement
          (decCount (readCount (sleepEnd true w)))),
        waiters := Function.update ws i (Waiter.returned (-1)) } := by
  have hr1 : (decCount (readCount (sleepEnd true w))).refCount = 1 := by
    simpa [decCount, readCount, sleepEnd, emit] using hr
  simp [resumeWaiter, hi, udWaitSemaphore_resume_drained w hc,
    udWaitSemaphore_exit_last true _ hr1]

/-- All but the last of the waiters of a drained semaphore: each finds a unit,
takes it, drops its reference and returns 0; nothing is released. -/
theorem resumeAll_others (l : List Nat) (s : System) (hnd : l.Nodup)
    (hasleep : ∀ i ∈ l, s.waiters i = Waiter.asleep)
    (hc : (l.length : Int) < s.world.count) (hr : (l.length : Int) < s.world.refCount) :
    (∀ i ∈ l, (resumeAll UDTHREAD_WAIT_INFINITE true l s).waiters i = Waiter.returned 0) ∧
    (∀ i, i ∉ l → (resumeAll UDTHREAD_WAIT_INFINITE true l s).waiters i = s.waiters i) ∧
    (resumeAll UDTHREAD_WAIT_INFINITE true l s).world.count = s.world.count - l.length ∧
    (resumeAll UDTHREAD_WAIT_INFINITE true l s).world.refCount =
      s.world.refCount - l.length ∧
    released (resumeAll UDTHREAD_WAIT_INFINITE true l s).world = released s.world ∧
    consumed (resumeAll UDTHREAD_WAIT_INFINITE true l s).world =
      consumed s.world + l.length := by
  induction l generalizing s with
  | nil => simp [resumeAll]
  | cons j l ih =>
    obtain ⟨w, ws⟩ := s
    have hlen : ((j :: l).length : Int) = l.length + 1 := by simp
    have hl0 := Int.natCast_nonneg l.length
    simp only at hc hr hasleep
    rw [hlen] at hc hr
    have hj : ws j = Waiter.asleep := hasleep j (List.mem_cons_self j l)
    have hjl : j ∉ l := (List.nodup_cons.mp hnd).1
    have hstep := resumeWaiter_other w (by omega) (by omega) ws j hj
    have hall : resumeAll UDTHREAD_WAIT_INFINITE true (j :: l) { world := w, waiters := ws } =
        resumeAll UDTHREAD_WAIT_INFINITE true l
          { world := udUnlockSemaphore_Internal (udInterlockedPreDecrement
              (decCount (readCount (sleepEnd true w)))),
            waiters := Function.update ws j (Waiter.returned 0) } := by
      simp only [resumeAll, List.foldl_cons]
      rw [hstep]
    obtain ⟨a1, a2, a3, a4, a5, a6⟩ := ih
      { world := udUnlockSemaphore_Internal (udInterlockedPreDecrement
          (decCount (readCount (sleepEnd true w)))),
        waiters := Function.update ws j (Waiter.returned 0) }
      (List.nodup_cons.mp hnd).2
      (by
        intro i hi
        have hne : i ≠ j := fun h => hjl (h ▸ hi)
        simp only [Function.update_noteq hne]
        exact hasleep i (List.mem_cons_of_mem j hi))
      (by
        simp only [udUnlockSemaphore_Internal, udInterlockedPreDecrement, decCount,
          readCount, sleepEnd, emit]
        omega)
      (by
        simp only [udUnlockSemaphore_Internal, udInterlockedPreDecrement, decCount,
          readCount, sleepEnd, emit]
        omega)
    rw [hall]
    refine ⟨?_, ?_, ?_, ?_, ?_, ?_⟩
    · intro i hi
      rcases List.mem_cons.mp hi with h | h
      · subst h
        rw [a2 i hjl]
        simp
      · exact a1 i h
    · intro i hi
      have hne : i ≠ j := fun h => hi (h ▸ List.mem_cons_self j l)
      have hnl : i ∉ l := fun h => hi (List.mem_cons_of_mem j h)
      rw [a2 i hnl]
      simp [Function.update_noteq hne]
    · rw [a3, hlen]
      simp only [udUnlockSemaphore_Internal, udInterlockedPreDecrement, decCount,
        readCount, sleepEnd, emit]
      ring
    · rw [a4, hlen]
      simp only [udUnlockSemaphore_Internal, udInterlockedPreDecrement, decCount,
        readCount, sleepEnd, emit]
      ring
    · rw [a5]
      simp [released, udUnlockSemaphore_Internal, udInterlockedPreDecrement, decCount,
        readCount, sleepEnd, emit]
    · rw [a6]
      simp [consumed, udUnlockSemaphore_Internal, udInterlockedPreDecrement, decCount,
        readCount, sleepEnd, emit, List.count_cons]
      omega

/-- The last waiter of a drained semaphore: it finds the last unit, takes it,
drops the last reference, releases the semaphore and returns -1. -/
theorem resumeWaiter_last_spec (s : System) (i : Nat) (hi : s.waiters i = Waiter.asleep)
    (hc : s.world.count = 1) (hr : s.world.refCount = 1) :
    (resumeWaiter UDTHREAD_WAIT_INFINITE true i s).waiters i = Waiter.returned (-1) ∧
    (∀ j, j ≠ i → (resumeWaiter UDTHREAD_WAIT_INFINITE true i s).waiters j = s.waiters j) ∧
    (resumeWaiter UDTHREAD_WAIT_INFINITE true i s).world.count = 0 ∧
    (resumeWaiter UDTHREAD_WAIT_INFINITE true i s).world.refCount = 0 ∧
    released (resumeWaiter UDTHREAD_WAIT_INFINITE true i s).world = released s.world + 1 ∧
    consumed (resumeWaiter UDTHREAD_WAIT_INFINITE true i s).world =
      consumed s.world + 1 := by
  obtain ⟨w, ws⟩ := s
  simp only at hi hc hr
  rw [resumeWaiter_last w (by omega) hr ws i hi]
  refine ⟨?_, ?_, ?_, ?_, ?_, ?_⟩
  · simp
  · intro j hj
    simp [Function.update_noteq hj]
  · simp [udDestroySemaphore_Internal, udInterlockedPreDecrement, decCount, readCount,
      sleepEnd, emit, hc]
  · simp [udDestroySemaphore_Internal, udInterlockedPreDecrement, decCount, readCount,
      sleepEnd, emit, hr]
  · simp [released, udDestroySemaphore_Internal, udInterlockedPreDecrement, decCount,
      readCount, sleepEnd, emit, List.count_cons]
  · simp [consumed, udDestroySemaphore_Internal, udInterlockedPreDecrement, decCount,
      readCount, sleepEnd, emit, List.count_cons]

/-- Claim C1. A semaphore with `count = 0` and `K >= 1` waiters asleep in
`udWaitSemaphore(sem, UDTHREAD_WAIT_INFINITE)`, each holding its temporary
reference (`refCount = K + 1`), is destroyed, and then the waiters are woken in
the order `init ++ [last]`, any order that lists each of the `K` waiters once.
`udDestroySemaphore` returns without running `udDestroySemaphore_Internal`,
having deposited `K` units and issued `K` wakes.  Every waiter finds a unit,
takes it and returns: the waiters of `init` return 0 and release nothing, the
waiter woken last returns -1, and `udDestroySemaphore_Internal` has then run
exactly once. -/
theorem destroy_drains_waiters (K : Nat) (w : World) (init : List Nat) (last : Nat)
    (hK : 1 ≤ K) (horder : (init ++ [last]).Perm (List.range K))
    (hh : w.handle = Ptr.obj) (hc : w.count = 0) (hr : w.refCount = K + 1) :
    ∃ w1 s, udDestroySemaphore HandlePtr.var w = some w1 ∧
      released w1 = released w ∧ w1.count = K ∧ wakes w1 = wakes w + K ∧
      s = resumeAll UDTHREAD_WAIT_INFINITE true (init ++ [last]) (blockedWaiters K w1) ∧
      (∀ i ∈ init, s.waiters i = Waiter.returned 0) ∧
      s.waiters last = Waiter.returned (-1) ∧
      (∀ i, i < K → s.waiters i ≠ Waiter.asleep) ∧
      consumed s.world = consumed w + K ∧
      released (resumeAll UDTHREAD_WAIT_INFINITE true init (blockedWaiters K w1)).world =
        released w ∧
      released s.world = released w + 1 ∧
      s.world.count = 0 ∧ s.world.refCount = 0 := by
  have hne : w.refCount ≠ 1 := by omega
  have htoNat : (w.refCount - 1).toNat = K := by omega
  have hnd : (init ++ [last]).Nodup := horder.nodup_iff.mpr (List.nodup_range K)
  have hlen : init.length + 1 = K := by
    have := horder.length_eq
    simpa using this
  have hmem : ∀ i, i ∈ init ++ [last] ↔ i < K := fun i => by
    rw [horder.mem_iff, List.mem_range]
  have hndi : init.Nodup := (List.nodup_append.mp hnd).1
  have hlast : last ∉ init := by
    intro h
    exact (List.nodup_append.mp hnd).2.2 h (List.mem_singleton_self last)
  have hdes := udDestroySemaphore_drain w hh hne
  rw [htoNat] at hdes
  refine ⟨_, _, hdes, ?_, ?_, ?_, rfl, ?_⟩
  · simp [released, udUnlockSemaphore_Internal, emit, drainLoop_log, readRefCount,
      udInterlockedPreDecrement, udLockSemaphore_Internal, count_flatten_replicate,
      List.count_cons]
  · simp [udUnlockSemaphore_Internal, emit, drainLoop_count, readRefCount,
      udInterlockedPreDecrement, udLockSemaphore_Internal, hc]
  · simp [wakes, udUnlockSemaphore_Internal, emit, drainLoop_log, readRefCount,
      udInterlockedPreDecrement, udLockSemaphore_Internal, count_flatten_replicate,
      List.count_cons]
  · generalize hw1 : udUnlockSemaphore_Internal (drainLoop K (readRefCount
      (udInterlockedPreDecrement (udLockSemaphore_Internal
        { w with handle := Ptr.null })))) = w1
    have hw1c : w1.count = K := by
      rw [← hw1]
      simp [udUnlockSemaphore_Internal, emit, drainLoop_count, readRefCount,
        udInterlockedPreDecrement, udLockSemaphore_Internal, hc]
    have hw1r : w1.refCount = K := by
      rw [← hw1]
      simp [udUnlockSemaphore_Internal, emit, drainLoop_refCount, readRefCount,
        udInterlockedPreDecrement, udLockSemaphore_Internal, hr]
    have hw1rel : released w1 = released w := by
      rw [← hw1]
      simp [released, udUnlockSemaphore_Internal, emit, drainLoop_log, readRefCount,
        udInterlockedPreDecrement, udLockSemaphore_Internal, count_flatten_replicate,
        List.count_cons]
    have hw1con : consumed w1 = consumed w := by
      rw [← hw1]
      simp [consumed, udUnlockSemaphore_Internal, emit, drainLoop_log, readRefCount,
        udInterlockedPreDecrement, udLockSemaphore_Internal, count_flatten_replicate,
        List.count_cons]
    have hasleep : ∀ i, i < K → (blockedWaiters K w1).waiters i = Waiter.asleep := by
      intro i hi
      simp [blockedWaiters, hi]
    obtain ⟨a1, a2, a3, a4, a5, a6⟩ := resumeAll_others init (blockedWaiters K w1) hndi
      (fun i hi => hasleep i ((hmem i).mp (List.mem_append_left _ hi)))
      (by simp only [blockedWaiters, hw1c]; omega)
      (by simp only [blockedWaiters, hw1r]; omega)
    have hsplit : resumeAll UDTHREAD_WAIT_INFINITE true (init ++ [last])
        (blockedWaiters K w1) =
        resumeWaiter UDTHREAD_WAIT_INFINITE true last
          (resumeAll UDTHREAD_WAIT_INFINITE true init (blockedWaiters K w1)) := by
      simp [resumeAll, List.foldl_append]
    have hlastK : last < K := (hmem last).mp (List.mem_append_right _ (List.mem_singleton_self last))
    obtain ⟨b1, b2, b3, b4, b5, b6⟩ := resumeWaiter_last_spec
      (resumeAll UDTHREAD_WAIT_INFINITE true init (blockedWaiters K w1)) last
      (by rw [a2 last hlast]; exact hasleep last hlastK)
      (by rw [a3]; simp only [blockedWaiters, hw1c]; omega)
      (by rw [a4]; simp only [blockedWaiters, hw1r]; omega)
    rw [hsplit]
    refine ⟨?_, b1, ?_, ?_, ?_, ?_, b3, b4⟩
    · intro i hi
      have hil : i ≠ last := fun h => hlast (h ▸ hi)
      rw [b2 i hil]
      exact a1 i hi
    · intro i hi
      rcases List.mem_append.mp ((hmem i).mpr hi) with h | h
      · have hil : i ≠ last := fun h2 => hlast (h2 ▸ h)
        rw [b2 i hil, a1 i h]
        simp
      · rw [List.mem_singleton.mp h, b1]
        simp
    · rw [b6, a6]
      simp only [blockedWaiters, hw1con]
      omega
    · rw [a5]
      simpa [blockedWaiters] using hw1rel
    · rw [b5, a5]
      simp only [blockedWaiters, hw1rel]

/-- Witness of C1: three waiters asleep on a fresh semaphore, woken in the
order 2, 0, 1 after the destroy. -/
theorem destroy_drains_waiters_witness :
    ∃ w1 s, udDestroySemaphore HandlePtr.var threeAsleep = some w1 ∧
      released w1 = 0 ∧ w1.count = 3 ∧
      s = resumeAll UDTHREAD_WAIT_INFINITE true [2, 0, 1] (blockedWaiters 3 w1) ∧
      s.waiters 2 = Waiter.returned 0 ∧ s.waiters 0 = Waiter.returned 0 ∧
      s.waiters 1 = Waiter.returned (-1) ∧ released s.world = 1 := by
  obtain ⟨w1, s, h1, h2, h3, _, h5, h6, h7, _, _, _, h11, _, _⟩ :=
    destroy_drains_waiters 3 threeAsleep [2, 0] 1 (by decide) (by decide) rfl rfl rfl
  have hrel : released threeAsleep = 0 := rfl
  refine ⟨w1, s, h1, ?_, ?_, h5, ?_, ?_, h7, ?_⟩
  · rw [h2, hrel]
  · simpa using h3
  · exact h6 2 (by simp)
  · exact h6 0 (by simp)
  · rw [h11, hrel]

/-! ## Races between a destroy and another call -/

/-- The steps of a call that runs alone add up to the call run without
interruption: a finite wait that times out, an infinite wait that is woken
without a unit and then fails, an increment by two, and a destroy with two
other references outstanding. -/
theorem steps_agree_with_calls :
    (Machine.run (List.replicate 4 (1, false) ++ [(1, false), (1, true), (1, false),
          (1, false), (1, false), (1, false), (1, false)])
        (destroyVsWait UDTHREAD_WAIT_INFINITE)).map
        (fun m => (m.world, m.threads[1]?)) =
      (udWaitSemaphore Ptr.obj UDTHREAD_WAIT_INFINITE [true, false] udCreateSemaphore).map
        (fun r => (r.1, some (Thread.wait (WaitPc.done r.2)))) ∧
    (Machine.run (List.replicate 7 (1, false)) (destroyVsWait 100)).map
        (fun m => (m.world, m.threads[1]?)) =
      (udWaitSemaphore Ptr.obj 100 [false] udCreateSemaphore).map
        (fun r => (r.1, some (Thread.wait (WaitPc.done r.2)))) ∧
    (Machine.run (List.replicate 11 (1, false)) (destroyVsIncrement 2)).map
        (fun m => m.world) =
      some (udIncrementSemaphore Ptr.obj 2 udCreateSemaphore) ∧
    (Machine.run (List.replicate 10 (0, false))
        { world := { udCreateSemaphore with refCount := 3 },
          threads := [Thread.destroy (DestroyPc.entry HandlePtr.var)] }).map
        (fun m => m.world) =
      udDestroySemaphore HandlePtr.var { udCreateSemaphore with refCount := 3 } := by
  refine ⟨?_, ?_, ?_, ?_⟩ <;> rfl

/-- A step of the machine is the step of the thread that moves. -/
theorem step_thread (w : World) (ts : List Thread) (tid : Nat) (t : Thread) (b : Bool)
    (ht : ts[tid]? = some t) :
    Machine.step { world := w, threads := ts } tid b =
      match stepThread w b t with
      | StepResult.next w1 t1 => some { world := w1, threads := ts.set tid t1 }
      | StepResult.blocked => none
      | StepResult.fault => none := by
  simp [Machine.step, ht]

/-- The thread that moved is found at its place again. -/
theorem set_thread (ts : List Thread) (tid : Nat) (t t1 : Thread)
    (ht : ts[tid]? = some t) : (ts.set tid t1)[tid]? = some t1 := by
  have hlt : tid < ts.length := by
    rcases Nat.lt_or_ge tid ts.length with h | h
    · exact h
    · rw [List.getElem?_eq_none h] at ht; cases ht
  simp [hlt]

/-- The stretch of a woken waiter, step by step: the five steps from the return
of the sleep to the return of the call (wake-up, loop test, `count--`, reference
decrement, release or unlock) end in the world and with the value of
`udWaitSemaphore_resume`.  From the first of them on the mutex is held, so no
other sleeper can wake before the stretch is over. -/
theorem resume_stretch_steps (w : World) (ts : List Thread) (tid : Nat)
    (hc : 0 < w.count) (hl : w.locked = false)
    (ht : ts[tid]? = some (Thread.wait (WaitPc.asleep UDTHREAD_WAIT_INFINITE))) :
    (w.refCount = 1 →
      udWaitSemaphore_resume UDTHREAD_WAIT_INFINITE true w =
        WaitStatus.returned (udDestroySemaphore_Internal (udInterlockedPreDecrement
          (decCount (readCount (sleepEnd true w))))) (-1) ∧
      Machine.run (List.replicate 5 (tid, true)) { world := w, threads := ts } =
        some { world := udDestroySemaphore_Internal (udInterlockedPreDecrement
                 (decCount (readCount (sleepEnd true w)))),
               threads := ts.set tid (Thread.wait (WaitPc.done (-1))) }) ∧
    (w.refCount ≠ 1 →
      udWaitSemaphore_resume UDTHREAD_WAIT_INFINITE true w =
        WaitStatus.returned (udUnlockSemaphore_Internal (udInterlockedPreDecrement
          (decCount (readCount (sleepEnd true w))))) 0 ∧
      Machine.run (List.replicate 5 (tid, true)) { world := w, threads := ts } =
        some { world := udUnlockSemaphore_Internal (udInterlockedPreDecrement
                 (decCount (readCount (sleepEnd true w)))),
               threads := ts.set tid (Thread.wait (WaitPc.done 0)) }) := by
  have hne : w.count ≠ 0 := by omega
  have hrun : ∀ (w0 : World) (t : Thread) (rest : List (Nat × Bool)) (b : Bool)
      (ts0 : List Thread), ts0[tid]? = some t →
      Machine.run ((tid, b) :: rest) { world := w0, threads := ts0 } =
        match stepThread w0 b t with
        | StepResult.next w1 t1 => Machine.run rest { world := w1, threads := ts0.set tid t1 }
        | StepResult.blocked => none
        | StepResult.fault => none := by
    intro w0 t rest b ts0 h0
    simp only [Machine.run, step_thread w0 ts0 tid t b h0]
    cases stepThread w0 b t <;> rfl
  constructor
  · intro h1
    refine ⟨?_, ?_⟩
    · rw [udWaitSemaphore_resume_drained w hc]
      exact udWaitSemaphore_exit_last true _
        (by simpa [decCount, readCount, sleepEnd, emit] using h1)
    · simp only [List.replicate]
      rw [hrun _ _ _ _ _ ht]
      simp only [stepThread, stepWait, hl, Bool.false_eq_true, if_false, if_true]
      rw [hrun _ _ _ _ _ (set_thread ts tid _ _ ht)]
      have c1 : (readCount (sleepEnd true w)).count ≠ 0 := by
        simpa [readCount, sleepEnd, emit] using hne
      simp only [stepThread, stepWait, c1, if_false, List.set_set]
      rw [hrun _ _ _ _ _ (set_thread ts tid _ _ ht)]
      simp only [stepThread, stepWait, List.set_set]
      rw [hrun _ _ _ _ _ (set_thread ts tid _ _ ht)]
      have c2 : (udInterlockedPreDecrement (decCount (readCount (sleepEnd true w)))).refCount = 0 := by
        simp [udInterlockedPreDecrement, decCount, readCount, sleepEnd, emit, h1]
      simp only [stepThread, stepWait, c2, if_true, List.set_set]
      rw [hrun _ _ _ _ _ (set_thread ts tid _ _ ht)]
      simp only [stepThread, stepWait, List.set_set, Machine.run]
  · intro h1
    refine ⟨?_, ?_⟩
    · rw [udWaitSemaphore_resume_drained w hc]
      have := udWaitSemaphore_exit_live true (decCount (readCount (sleepEnd true w)))
        (by simpa [decCount, readCount, sleepEnd, emit] using h1)
      simpa using this
    · simp only [List.replicate]
      rw [hrun _ _ _ _ _ ht]
      simp only [stepThread, stepWait, hl, Bool.false_eq_true, if_false, if_true]
      rw [hrun _ _ _ _ _ (set_thread ts tid _ _ ht)]
      have c1 : (readCount (sleepEnd true w)).count ≠ 0 := by
        simpa [readCount, sleepEnd, emit] using hne
      simp only [stepThread, stepWait, c1, if_false, List.set_set]
      rw [hrun _ _ _ _ _ (set_thread ts tid _ _ ht)]
      simp only [stepThread, stepWait, List.set_set]
      rw [hrun _ _ _ _ _ (set_thread ts tid _ _ ht)]
      have c2 : (udInterlockedPreDecrement (decCount (readCount (sleepEnd true w)))).refCount ≠ 0 := by
        simp [udInterlockedPreDecrement, decCount, readCount, sleepEnd, emit]
        omega
      simp only [stepThread, stepWait, c2, if_false, List.set_set]
      rw [hrun _ _ _ _ _ (set_thread ts tid _ _ ht)]
      simp only [stepThread, stepWait, List.set_set, Machine.run, if_true]

/-- Claim C10, the code at the failing interleaving.  A `udDestroySemaphore`
and a `udWaitSemaphore` (or a `udIncrementSemaphore`) are called on a fresh
semaphore.  The wait (increment) takes its first step, the check of line 361
(342), which reads `refCount = 1`; the destroy then runs from entry to return
and releases the semaphore; the next step of the wait (increment) is the
atomic increment of `refCount`, a write to the released object. -/
theorem race_writes_released_semaphore :
    (∃ m, Machine.run raceSchedule (destroyVsWait 100) = some m ∧
      m.world.log = [Event.refRead, Event.lock, Event.refDec, Event.release, Event.refInc] ∧
      released m.world = 1 ∧ staleAccesses m.world.log = 1 ∧
      m.threads = [Thread.destroy DestroyPc.done, Thread.wait (WaitPc.lock 100)]) ∧
    (∃ m, Machine.run raceSchedule (destroyVsIncrement 1) = some m ∧
      m.world.log = [Event.refRead, Event.lock, Event.refDec, Event.release, Event.refInc] ∧
      released m.world = 1 ∧ staleAccesses m.world.log = 1 ∧
      m.threads = [Thread.destroy DestroyPc.done, Thread.increment (IncrementPc.lock 0)]) := by
  refine ⟨⟨_, rfl, rfl, rfl, rfl, rfl⟩, ⟨_, rfl, rfl, rfl, rfl, rfl⟩⟩

/-! ## Timeout and failure of the sleep -/

/-- An infinite wait that finds no unit and whose first sleep fails. -/
theorem infiniteWait_fail (w : World) (rest : List Bool) (hr : 1 ≤ w.refCount)
    (hc : w.count = 0) :
    udWaitSemaphore Ptr.obj UDTHREAD_WAIT_INFINITE (false :: rest) w =
      some ({ w with locked := false,
                     log := w.log ++ [Event.refRead, Event.refInc, Event.lock,
                       Event.countRead, Event.sleep UDTHREAD_WAIT_INFINITE,
                       Event.wokeUp false, Event.refDec, Event.unlock] }, 1) := by
  have h0 : w.refCount ≠ 0 := by omega
  have h1 : w.refCount + 1 - 1 ≠ 0 := by omega
  simp [udWaitSemaphore, udWaitSemaphore_enter, udWaitSemaphore_loop, readRefCount, emit,
    h0, hc, driveWait, udWaitSemaphore_resume, udWaitSemaphore_exit, sleepBegin, sleepEnd,
    udInterlockedPreIncrement, udInterlockedPreDecrement, udLockSemaphore_Internal,
    udUnlockSemaphore_Internal, h1, readCount]

/-- Claim C11, the code at a concrete input.  Under Linux, a 100 ms wait on a
fresh semaphore returns 1 when `pthread_cond_timedwait` reports `ETIMEDOUT` and
returns 1 when it reports `EINVAL`: the two values do not differ. -/
theorem wait_timeout_equals_failure :
    (udWaitSemaphore Ptr.obj 100 [udSleepSemaphore_Internal Target.linux ETIMEDOUT]
      udCreateSemaphore).map Prod.snd = some 1 ∧
    (udWaitSemaphore Ptr.obj 100 [udSleepSemaphore_Internal Target.linux EINVAL]
      udCreateSemaphore).map Prod.snd = some 1 ∧
    ¬ ((udWaitSemaphore Ptr.obj 100 [udSleepSemaphore_Internal Target.linux ETIMEDOUT]
        udCreateSemaphore).map Prod.snd ≠
      (udWaitSemaphore Ptr.obj 100 [udSleepSemaphore_Internal Target.linux EINVAL]
        udCreateSemaphore).map Prod.snd) := by
  refine ⟨rfl, rfl, ?_⟩
  intro h
  exact h rfl

/-- Claim C11 as amended.  `udSleepSemaphore_Internal` returns false for every
OS result other than success (other than 0 from the pthread calls, other than
`TRUE` from `SleepConditionVariableCS`), a timeout like any other failure.  On
a semaphore with `refCount >= 1`, a wait whose sleep got such a result returns
1 with `count` unchanged, in the finite branch and, when it found no unit, in
the infinite branch; so the wait returns the same value, and leaves the same
world, for any two unsuccessful OS results. -/
theorem wait_failure_value (target : Target) (w : World) (waitMs e1 e2 : Int)
    (rest : List Bool) (hr : 1 ≤ w.refCount)
    (hpath : waitMs = UDTHREAD_WAIT_INFINITE → w.count = 0)
    (h1 : udSleepSemaphore_Internal target e1 = false)
    (h2 : udSleepSemaphore_Internal target e2 = false) :
    (udSleepSemaphore_Internal Target.windows e1 = false ↔ e1 ≠ 1) ∧
    (udSleepSemaphore_Internal Target.linux e1 = false ↔ e1 ≠ 0) ∧
    (udSleepSemaphore_Internal Target.other e1 = false ↔ e1 ≠ 0) ∧
    udWaitSemaphore Ptr.obj waitMs (udSleepSemaphore_Internal target e1 :: rest) w =
      udWaitSemaphore Ptr.obj waitMs (udSleepSemaphore_Internal target e2 :: rest) w ∧
    ∃ w1, udWaitSemaphore Ptr.obj waitMs (udSleepSemaphore_Internal target e1 :: rest) w =
        some (w1, 1) ∧ w1.count = w.count ∧ w1.refCount = w.refCount := by
  refine ⟨by simp [udSleepSemaphore_Internal], by simp [udSleepSemaphore_Internal],
    by simp [udSleepSemaphore_Internal], by rw [h1, h2], ?_⟩
  rw [h1]
  by_cases hinf : waitMs = UDTHREAD_WAIT_INFINITE
  · subst hinf
    exact ⟨_, infiniteWait_fail w rest hr (hpath rfl), rfl, rfl⟩
  · exact ⟨_, finiteWait_timeout w waitMs rest hr hinf, rfl, rfl⟩

/-- Witness of C11 as amended: a timeout and an invalid-argument error under
Linux, on a 100 ms wait on a fresh semaphore. -/
theorem wait_failure_value_witness :
    udWaitSemaphore Ptr.obj 100 [udSleepSemaphore_Internal Target.linux ETIMEDOUT]
        udCreateSemaphore =
      udWaitSemaphore Ptr.obj 100 [udSleepSemaphore_Internal Target.linux EINVAL]
        udCreateSemaphore :=
  (wait_failure_value Target.linux udCreateSemaphore 100 ETIMEDOUT EINVAL []
    (by decide) (by decide) rfl rfl).2.2.2.1

/-! ## udThread_Create -/

theorem udThread_Create_alloc_fails (pp : ThreadHandlePtr) (f d : Nat) (osOk : Bool)
    (w : ThreadWorld) :
    udThread_Create pp f d false osOk w = (udResult.udR_MemoryAllocationFailure, w) := by
  simp [udThread_Create, UD_ERROR_NULL]

theorem udThread_Create_no_handle (f d : Nat) (osOk : Bool) (w : ThreadWorld) :
    udThread_Create ThreadHandlePtr.null f d true osOk w =
      (udResult.udR_Success,
        { w with pThreadStarter := f, pThreadData := d, refCount := 1,
                 log := w.log ++ [ThreadEvent.alloc, ThreadEvent.setFields,
                   ThreadEvent.refSet, ThreadEvent.osCreate osOk] }) := by
  simp [udThread_Create, UD_ERROR_NULL, ThreadWorld.emit]

theorem udThread_Create_handle (pp : ThreadHandlePtr) (hpp : pp ≠ ThreadHandlePtr.null)
    (f d : Nat) (osOk : Bool) (w : ThreadWorld) :
    udThread_Create pp f d true osOk w =
      (udResult.udR_Success,
        { (w.setHandle pp ThreadPtr.obj) with
            pThreadStarter := f, pThreadData := d, refCount := 2,
            log := w.log ++ [ThreadEvent.alloc, ThreadEvent.setFields, ThreadEvent.refSet,
              ThreadEvent.osCreate osOk, ThreadEvent.handleWrite, ThreadEvent.refInc] }) := by
  cases pp with
  | null => exact absurd rfl hpp
  | creator =>
    simp [udThread_Create, UD_ERROR_NULL, ThreadWorld.emit, ThreadWorld.setHandle,
      threadPreIncrement]
  | bootstrap =>
    simp [udThread_Create, UD_ERROR_NULL, ThreadWorld.emit, ThreadWorld.setHandle,
      threadPreIncrement]

/-- The function `udThread_Create` when the new thread takes no step during
the call.  When the allocation succeeds it returns `udR_Success`, has asked
the OS for the thread once, and leaves the new object with `refCount = 1` and
the handle variables untouched when `ppThread` is null, with `refCount = 2` and
`*ppThread` pointing at the object when `ppThread` is not null.  When the
allocation fails it returns `udR_MemoryAllocationFailure` and changes nothing:
no thread is asked for and `*ppThread` is not written. -/
theorem udThread_Create_uninterrupted (pp : ThreadHandlePtr) (f d : Nat) (osOk : Bool)
    (w : ThreadWorld) :
    (udThread_Create pp f d true osOk w).1 = udResult.udR_Success ∧
    (udThread_Create pp f d true osOk w).2.log.countP ThreadEvent.isOsCreate =
      w.log.countP ThreadEvent.isOsCreate + 1 ∧
    (udThread_Create pp f d true osOk w).2.pThreadStarter = f ∧
    (udThread_Create pp f d true osOk w).2.pThreadData = d ∧
    (pp = ThreadHandlePtr.null →
      (udThread_Create pp f d true osOk w).2.refCount = 1 ∧
      (udThread_Create pp f d true osOk w).2.creatorHandle = w.creatorHandle ∧
      (udThread_Create pp f d true osOk w).2.bootstrapHandle = w.bootstrapHandle) ∧
    (pp ≠ ThreadHandlePtr.null →
      (udThread_Create pp f d true osOk w).2.refCount = 2 ∧
      (udThread_Create pp f d true osOk w).2.getHandle pp = ThreadPtr.obj) ∧
    udThread_Create pp f d false osOk w = (udResult.udR_MemoryAllocationFailure, w) := by
  refine ⟨?_, ?_, ?_, ?_, ?_, ?_, udThread_Create_alloc_fails pp f d osOk w⟩
  · cases pp <;> simp [udThread_Create, UD_ERROR_NULL]
  · cases pp <;>
      simp [udThread_Create, UD_ERROR_NULL, ThreadWorld.emit, ThreadWorld.setHandle,
        threadPreIncrement, ThreadEvent.isOsCreate]
  · cases pp <;>
      simp [udThread_Create, UD_ERROR_NULL, ThreadWorld.emit, ThreadWorld.setHandle,
        threadPreIncrement]
  · cases pp <;>
      simp [udThread_Create, UD_ERROR_NULL, ThreadWorld.emit, ThreadWorld.setHandle,
        threadPreIncrement]
  · intro h
    subst h
    rw [udThread_Create_no_handle]
    exact ⟨rfl, rfl, rfl⟩
  · intro h
    rw [udThread_Create_handle pp h]
    refine ⟨rfl, ?_⟩
    cases pp with
    | null => exact absurd rfl h
    | creator => simp [ThreadWorld.getHandle, ThreadWorld.setHandle]
    | bootstrap => simp [ThreadWorld.getHandle, ThreadWorld.setHandle]

/-- A thread created with a handle, the OS call succeeding and the new thread
taking no step during the call. -/
theorem udThread_Create_uninterrupted_example :
    (udThread_Create ThreadHandlePtr.creator 7 9 true true ThreadWorld.initial).2.refCount = 2 ∧
    (udThread_Create ThreadHandlePtr.creator 7 9 true true ThreadWorld.initial).2.creatorHandle =
      ThreadPtr.obj :=
  (udThread_Create_uninterrupted ThreadHandlePtr.creator 7 9 true
    ThreadWorld.initial).2.2.2.2.2.1 (by decide)

/-- Claim C13, the code at the failing input.  The allocation succeeds and the
OS fails to create the thread (`osOk = false`): `udThread_Create` returns
`udR_Success` all the same, with or without a handle requested, and with a
handle requested it hands out the object with `refCount = 2`. -/
theorem udThread_Create_swallows_os_failure :
    (udThread_Create ThreadHandlePtr.null 7 9 true false ThreadWorld.initial).1 =
      udResult.udR_Success ∧
    udThread_Create ThreadHandlePtr.creator 7 9 true false ThreadWorld.initial =
      (udResult.udR_Success,
        { callback := none, creatorHandle := ThreadPtr.obj, bootstrapHandle := ThreadPtr.null,
          pThreadStarter := 7, pThreadData := 9, refCount := 2,
          log := [ThreadEvent.alloc, ThreadEvent.setFields, ThreadEvent.refSet,
            ThreadEvent.osCreate false, ThreadEvent.handleWrite, ThreadEvent.refInc] }) := by
  exact ⟨rfl, rfl⟩

/-! ## udThread_Destroy and udThread_Bootstrap -/

theorem threadRelease_eq (target : Target) (w : ThreadWorld) :
    threadRelease target w = { w with log := w.log ++ releaseEvents target true } := by
  cases target <;> simp [threadRelease, releaseEvents, ThreadWorld.emit]

theorem count_free_releaseEvents (target : Target) (last : Bool) :
    (releaseEvents target last).count ThreadEvent.free = if last then 1 else 0 := by
  cases target <;> cases last <;> simp [releaseEvents, List.count_cons]

/-- What `udThread_Destroy` does through a handle variable that points at the
object: the variable is nulled, `refCount` goes down by one, and the object is
released when that made it 0. -/
theorem udThread_Destroy_obj (target : Target) (pp : ThreadHandlePtr) (w : ThreadWorld)
    (hpp : pp ≠ ThreadHandlePtr.null) (h : w.getHandle pp = ThreadPtr.obj) :
    udThread_Destroy target pp w =
      { (w.setHandle pp ThreadPtr.null) with
          refCount := w.refCount - 1,
          log := w.log ++ [ThreadEvent.refDec] ++
            releaseEvents target (decide (w.refCount - 1 = 0)) } := by
  cases pp with
  | null => exact absurd rfl hpp
  | creator =>
    simp only [ThreadWorld.getHandle] at h
    by_cases h0 : w.refCount - 1 = 0
    · simp [udThread_Destroy, ThreadWorld.getHandle, ThreadWorld.setHandle, h,
        threadPreDecrement, ThreadWorld.emit, h0, threadRelease_eq]
    · simp [udThread_Destroy, ThreadWorld.getHandle, ThreadWorld.setHandle, h,
        threadPreDecrement, ThreadWorld.emit, h0, releaseEvents]
  | bootstrap =>
    simp only [ThreadWorld.getHandle] at h
    by_cases h0 : w.refCount - 1 = 0
    · simp [udThread_Destroy, ThreadWorld.getHandle, ThreadWorld.setHandle, h,
        threadPreDecrement, ThreadWorld.emit, h0, threadRelease_eq]
    · simp [udThread_Destroy, ThreadWorld.getHandle, ThreadWorld.setHandle, h,
        threadPreDecrement, ThreadWorld.emit, h0, releaseEvents]

theorem threadCallback_eq (isStarting : Bool) (w : ThreadWorld) :
    threadCallback isStarting w =
      { w with log := w.log ++ callbackEvents w.callback isStarting } := by
  obtain ⟨cb, c, b, f, d, r, l⟩ := w
  cases cb <;> simp [threadCallback, callbackEvents, ThreadWorld.emit]

/-- The function `udThread_Bootstrap` in one equation: the value returned and
the world it leaves. -/
theorem udThread_Bootstrap_eq (target : Target) (run : Nat → Nat → Nat) (w : ThreadWorld) :
    udThread_Bootstrap target run w =
      (run w.pThreadStarter w.pThreadData,
        { w with
            bootstrapHandle := ThreadPtr.null,
            refCount := w.refCount - 1,
            log := w.log ++ callbackEvents w.callback true ++
              [ThreadEvent.entry w.pThreadStarter w.pThreadData] ++
              callbackEvents w.callback false ++ [ThreadEvent.refDec] ++
              releaseEvents target (decide (w.refCount - 1 = 0)) }) := by
  unfold udThread_Bootstrap
  simp only [threadCallback_eq, ThreadWorld.emit]
  rw [udThread_Destroy_obj target ThreadHandlePtr.bootstrap]
  · simp [ThreadWorld.setHandle]
  · decide
  · rfl

/-- Claim C17. The function `udThread_Bootstrap` does, in this order: the call
of the registered callback with `(pThread, true)` when one is registered, the
call of the stored entry function on the stored data, the call of the callback
with `(pThread, false)` when one is registered, and `udThread_Destroy` on its
own reference (one decrement of `refCount`, and the release when that made it
0).  It returns the value the entry function returned.  The entry function is
called exactly once and `refCount` is decremented exactly once, with or without
a callback. -/
theorem udThread_Bootstrap_spec (target : Target) (run : Nat → Nat → Nat) (w : ThreadWorld) :
    (udThread_Bootstrap target run w).1 = run w.pThreadStarter w.pThreadData ∧
    (udThread_Bootstrap target run w).2.log =
      w.log ++ callbackEvents w.callback true ++
        [ThreadEvent.entry w.pThreadStarter w.pThreadData] ++
        callbackEvents w.callback false ++
        ([ThreadEvent.refDec] ++ releaseEvents target (decide (w.refCount - 1 = 0))) ∧
    (udThread_Bootstrap target run w).2 =
      udThread_Destroy target ThreadHandlePtr.bootstrap
        { w with bootstrapHandle := ThreadPtr.obj,
                 log := w.log ++ callbackEvents w.callback true ++
                   [ThreadEvent.entry w.pThreadStarter w.pThreadData] ++
                   callbackEvents w.callback false } ∧
    (udThread_Bootstrap target run w).2.log.count
        (ThreadEvent.entry w.pThreadStarter w.pThreadData) =
      w.log.count (ThreadEvent.entry w.pThreadStarter w.pThreadData) + 1 ∧
    (udThread_Bootstrap target run w).2.log.count ThreadEvent.refDec =
      w.log.count ThreadEvent.refDec + 1 ∧
    (w.callback = none →
      (udThread_Bootstrap target run w).2.log =
        w.log ++ [ThreadEvent.entry w.pThreadStarter w.pThreadData, ThreadEvent.refDec] ++
          releaseEvents target (decide (w.refCount - 1 = 0))) := by
  rw [udThread_Bootstrap_eq]
  refine ⟨rfl, by simp, ?_, ?_, ?_, ?_⟩
  · rw [udThread_Destroy_obj target ThreadHandlePtr.bootstrap]
    · simp [ThreadWorld.setHandle]
    · decide
    · rfl
  · cases hcb : w.callback <;> cases target <;> by_cases h0 : w.refCount - 1 = 0 <;>
      simp [callbackEvents, releaseEvents, List.count_cons, h0]
  · cases hcb : w.callback <;> cases target <;> by_cases h0 : w.refCount - 1 = 0 <;>
      simp [callbackEvents, releaseEvents, List.count_cons, h0]
  · intro hcb
    simp [hcb, callbackEvents]

/-- Witness of C17: no callback registered, a thread created without a handle;
the bootstrap calls the entry function, returns its value and releases the
object. -/
theorem udThread_Bootstrap_spec_witness :
    (udThread_Bootstrap Target.linux (fun _ d => d + 1)
        (udThread_Create ThreadHandlePtr.null 7 9 true true ThreadWorld.initial).2).1 = 10 ∧
    (udThread_Bootstrap Target.linux (fun _ d => d + 1)
        (udThread_Create ThreadHandlePtr.null 7 9 true true ThreadWorld.initial).2).2.log =
      [ThreadEvent.alloc, ThreadEvent.setFields, ThreadEvent.refSet, ThreadEvent.osCreate true,
        ThreadEvent.entry 7 9, ThreadEvent.refDec, ThreadEvent.free] := by
  have h := udThread_Bootstrap_spec Target.linux (fun _ d => d + 1)
    (udThread_Create ThreadHandlePtr.null 7 9 true true ThreadWorld.initial).2
  exact ⟨h.1, h.2.2.2.2.2 rfl⟩

/-! ## Order of the two releases of a thread -/

/-- Claim C15. A thread object with `refCount = 2` whose creator holds a handle:
whether the creator calls `udThread_Destroy` on its handle before the bootstrap
runs (its callbacks, the entry function and its own `udThread_Destroy`) or
after it, the first of the two releases nothing and the second releases the
object, once; the same holds for the two `udThread_Destroy` calls on their
own.  With `refCount = 1` (no handle given out) the bootstrap alone releases
the object. -/
theorem thread_teardown_order (target : Target) (run : Nat → Nat → Nat) (w : ThreadWorld) :
    (w.refCount = 2 → w.creatorHandle = ThreadPtr.obj →
      threadFrees (udThread_Destroy target ThreadHandlePtr.creator w) = threadFrees w ∧
      threadFrees (udThread_Bootstrap target run
        (udThread_Destroy target ThreadHandlePtr.creator w)).2 = threadFrees w + 1 ∧
      threadFrees (udThread_Bootstrap target run w).2 = threadFrees w ∧
      threadFrees (udThread_Destroy target ThreadHandlePtr.creator
        (udThread_Bootstrap target run w).2) = threadFrees w + 1 ∧
      (w.bootstrapHandle = ThreadPtr.obj →
        threadFrees (udThread_Destroy target ThreadHandlePtr.bootstrap w) = threadFrees w ∧
        threadFrees (udThread_Destroy target ThreadHandlePtr.bootstrap
          (udThread_Destroy target ThreadHandlePtr.creator w)) = threadFrees w + 1 ∧
        threadFrees (udThread_Destroy target ThreadHandlePtr.creator
          (udThread_Destroy target ThreadHandlePtr.bootstrap w)) = threadFrees w + 1)) ∧
    (w.refCount = 1 →
      threadFrees (udThread_Bootstrap target run w).2 = threadFrees w + 1) := by
  constructor
  · intro hr hc
    have hcr : udThread_Destroy target ThreadHandlePtr.creator w =
        { (w.setHandle ThreadHandlePtr.creator ThreadPtr.null) with
            refCount := w.refCount - 1,
            log := w.log ++ [ThreadEvent.refDec] ++
              releaseEvents target (decide (w.refCount - 1 = 0)) } :=
      udThread_Destroy_obj target ThreadHandlePtr.creator w (by decide) hc
    refine ⟨?_, ?_, ?_, ?_, ?_⟩
    · rw [hcr]
      simp [threadFrees, hr, count_free_releaseEvents, List.count_cons]
    · rw [udThread_Bootstrap_eq, hcr]
      cases hcb : w.callback <;>
        simp [threadFrees, hr, callbackEvents, ThreadWorld.setHandle,
          count_free_releaseEvents, List.count_cons, hcb]
    · rw [udThread_Bootstrap_eq]
      cases hcb : w.callback <;>
        simp [threadFrees, hr, callbackEvents, count_free_releaseEvents, List.count_cons]
    · rw [udThread_Bootstrap_eq]
      simp only []
      rw [udThread_Destroy_obj target ThreadHandlePtr.creator]
      · cases hcb : w.callback <;>
          simp [threadFrees, hr, callbackEvents, ThreadWorld.setHandle,
            count_free_releaseEvents, List.count_cons]
      · decide
      · exact hc
    · intro hb
      refine ⟨?_, ?_, ?_⟩
      · rw [udThread_Destroy_obj target ThreadHandlePtr.bootstrap w (by decide) hb]
        simp [threadFrees, hr, count_free_releaseEvents, List.count_cons]
      · rw [hcr, udThread_Destroy_obj target ThreadHandlePtr.bootstrap]
        · simp [threadFrees, hr, ThreadWorld.setHandle,
            count_free_releaseEvents, List.count_cons]
        · decide
        · exact hb
      · rw [udThread_Destroy_obj target ThreadHandlePtr.bootstrap w (by decide) hb,
          udThread_Destroy_obj target ThreadHandlePtr.creator]
        · simp [threadFrees, hr, ThreadWorld.setHandle,
            count_free_releaseEvents, List.count_cons]
        · decide
        · exact hc
  · intro hr
    rw [udThread_Bootstrap_eq]
    cases hcb : w.callback <;>
      simp [threadFrees, hr, callbackEvents, count_free_releaseEvents, List.count_cons]

/-- Witness of C15: the thread of `createWithHandle`, created and started. -/
theorem thread_teardown_order_witness :
    threadFrees (udThread_Bootstrap Target.linux (fun _ _ => 0)
      (udThread_Destroy Target.linux ThreadHandlePtr.creator
        (udThread_Create ThreadHandlePtr.creator 7 9 true true ThreadWorld.initial).2)).2 = 1 ∧
    threadFrees (udThread_Destroy Target.linux ThreadHandlePtr.creator
      (udThread_Bootstrap Target.linux (fun _ _ => 0)
        (udThread_Create ThreadHandlePtr.creator 7 9 true true ThreadWorld.initial).2).2) = 1 := by
  have h := (thread_teardown_order Target.linux (fun _ _ => 0)
    (udThread_Create ThreadHandlePtr.creator 7 9 true true ThreadWorld.initial).2).1 rfl rfl
  exact ⟨h.2.1, h.2.2.2.1⟩

/-! ## The race between udThread_Create and the thread it starts -/

/-- The steps of `udThread_Create` and of `udThread_Bootstrap`, taken without
interleaving, add up to the two functions run without interruption. -/
theorem thread_steps_agree_with_calls :
    (ThreadMachine.run Target.windows (fun _ d => d + 1) createWithHandle
        (List.replicate 6 Actor.create) ThreadMachine.initial).map
        (fun m => (m.create, { m.world with bootstrapHandle := ThreadPtr.null })) =
      some (CreatePc.done
          (udThread_Create ThreadHandlePtr.creator 7 9 true true ThreadWorld.initial).1,
        (udThread_Create ThreadHandlePtr.creator 7 9 true true ThreadWorld.initial).2) ∧
    (ThreadMachine.run Target.windows (fun _ d => d + 1) createWithHandle
        (List.replicate 6 Actor.create ++ List.replicate 5 Actor.boot)
        ThreadMachine.initial).map (fun m => (m.boot, m.world)) =
      some (BootPc.done
          (udThread_Bootstrap Target.windows (fun _ d => d + 1)
            (udThread_Create ThreadHandlePtr.creator 7 9 true true ThreadWorld.initial).2).1,
        (udThread_Bootstrap Target.windows (fun _ d => d + 1)
            (udThread_Create ThreadHandlePtr.creator 7 9 true true ThreadWorld.initial).2).2) := by
  exact ⟨rfl, rfl⟩

/-- Claim C16, the code at the failing interleaving.  The creator runs
`udThread_Create(&handle, f, d, _)` up to the start of the new thread (lines
71-80, `refCount = 1`).  The new thread runs `udThread_Bootstrap` to its end:
the entry function returns, `udThread_Destroy` decrements `refCount` to 0 and
frees the object.  The creator then runs lines 86-87: it stores the pointer to
the freed object in the handle variable, increments `refCount` in freed memory
and returns `udR_Success`, before it has called `udThread_Destroy`. -/
theorem create_race_frees_before_handle_is_returned :
    ∃ m, ThreadMachine.run Target.linux (fun _ _ => 0) createWithHandle createRaceSchedule
        ThreadMachine.initial = some m ∧
      m.create = CreatePc.done udResult.udR_Success ∧
      m.destroy = ThreadDestroyPc.read ∧
      m.world.creatorHandle = ThreadPtr.obj ∧
      threadFrees m.world = 1 ∧
      threadStaleAccesses m.world.log = 1 ∧
      m.world.log = [ThreadEvent.alloc, ThreadEvent.setFields, ThreadEvent.refSet,
        ThreadEvent.osCreate true, ThreadEvent.entry 7 9, ThreadEvent.refDec,
        ThreadEvent.free, ThreadEvent.handleWrite, ThreadEvent.refInc] := by
  exact ⟨_, rfl, rfl, rfl, rfl, rfl, rfl, rfl⟩

/-- Claim C12, the code at the failing interleaving.  The allocation succeeds
and `ppThread` is not null.  The creator runs `udThread_Create` up to the start
of the new thread (lines 71-80), the new thread runs `udThread_Bootstrap` to
its end and frees the object, and the creator runs lines 86-87 and returns
`udR_Success`: `*ppThread` points at the freed object, whose `refCount` field
holds 1 and not 2.  The same call with the new thread taking no step returns
with `refCount = 2`. -/
theorem create_race_returns_refCount_one :
    ∃ m, ThreadMachine.run Target.linux (fun _ _ => 0) createWithHandle createRaceSchedule
        ThreadMachine.initial = some m ∧
      m.create = CreatePc.done udResult.udR_Success ∧
      m.boot = BootPc.done 0 ∧
      m.world.creatorHandle = ThreadPtr.obj ∧
      m.world.refCount = 1 ∧
      m.world.refCount ≠ 2 ∧
      m.world.log.take 7 = [ThreadEvent.alloc, ThreadEvent.setFields, ThreadEvent.refSet,
        ThreadEvent.osCreate true, ThreadEvent.entry 7 9, ThreadEvent.refDec,
        ThreadEvent.free] ∧
      m.world.log.drop 7 = [ThreadEvent.handleWrite, ThreadEvent.refInc] ∧
      (udThread_Create createWithHandle.ppThread createWithHandle.pThreadStarter
        createWithHandle.pThreadData createWithHandle.allocOk createWithHandle.osOk
        ThreadWorld.initial).2.refCount = 2 := by
  exact ⟨_, rfl, rfl, rfl, rfl, rfl, by decide, rfl, rfl, rfl⟩

/-! ## udThread_Join -/

/-- Claim C18. With a null handle `udThread_Join` returns `udR_InvalidParameter_`
and makes no OS call.  Otherwise it makes one OS call, and the result is
`udR_Success` if and only if that call returned 0; it is `udR_Timeout` if and
only if the call was the timed wait of the target and returned its timeout
code (`WAIT_TIMEOUT` from `WaitForSingleObject` under Windows, `ETIMEDOUT` from
`pthread_timedjoin_np` under Linux with a finite `waitMs`); every other
non-zero result gives `udR_InvalidParameter_` or `udR_Failure_`. -/
theorem udThread_Join_spec (target : Target) (waitMs osResult : Int) :
    udThread_Join target ThreadPtr.null waitMs osResult =
      (udResult.udR_InvalidParameter_, none) ∧
    (udThread_Join target ThreadPtr.obj waitMs osResult).2 ≠ none ∧
    ((udThread_Join target ThreadPtr.obj waitMs osResult).1 = udResult.udR_Success ↔
      osResult = 0) ∧
    ((udThread_Join target ThreadPtr.obj waitMs osResult).1 = udResult.udR_Timeout ↔
      (target = Target.windows ∧ osResult = WAIT_TIMEOUT) ∨
      (target = Target.linux ∧ waitMs ≠ UDTHREAD_WAIT_INFINITE ∧ osResult = ETIMEDOUT)) ∧
    (osResult ≠ 0 →
      ¬ ((target = Target.windows ∧ osResult = WAIT_TIMEOUT) ∨
         (target = Target.linux ∧ waitMs ≠ UDTHREAD_WAIT_INFINITE ∧ osResult = ETIMEDOUT)) →
      (udThread_Join target ThreadPtr.obj waitMs osResult).1 = udResult.udR_InvalidParameter_ ∨
      (udThread_Join target ThreadPtr.obj waitMs osResult).1 = udResult.udR_Failure_) ∧
    ((udThread_Join Target.windows ThreadPtr.obj waitMs osResult).2 =
        some (JoinCall.waitForSingleObject waitMs)) ∧
    ((udThread_Join Target.linux ThreadPtr.obj waitMs osResult).2 =
        some (if waitMs = UDTHREAD_WAIT_INFINITE then JoinCall.pthread_join
          else JoinCall.pthread_timedjoin_np waitMs)) := by
  refine ⟨rfl, ?_, ?_, ?_, ?_, rfl, ?_⟩
  · cases target
    · simp [udThread_Join]
    · simp only [udThread_Join]
      split_ifs <;> simp
    · simp [udThread_Join]
  · cases target <;> simp only [udThread_Join] <;> split_ifs <;>
      simp_all [WAIT_TIMEOUT, ETIMEDOUT, EINVAL]
  · cases target <;> simp only [udThread_Join] <;> split_ifs <;>
      simp_all [WAIT_TIMEOUT, ETIMEDOUT, EINVAL]
  · intro h0 hnt
    cases target <;> simp only [udThread_Join] <;> split_ifs <;>
      simp_all [WAIT_TIMEOUT, ETIMEDOUT, EINVAL]
  · simp only [udThread_Join]
    split_ifs <;> rfl

/-- Witness of C18: under Linux, a timed join that the OS ends with `ESRCH`
(3) is a failure, not a timeout. -/
theorem udThread_Join_spec_witness :
    (udThread_Join Target.linux ThreadPtr.obj 0 3).1 = udResult.udR_InvalidParameter_ ∨
    (udThread_Join Target.linux ThreadPtr.obj 0 3).1 = udResult.udR_Failure_ :=
  (udThread_Join_spec Target.linux 0 3).2.2.2.2.1 (by decide) (by decide)

/-! ## udThread_MsToTimespec -/

/-- Claim C19. For a current time `(sec, nsec)` with `0 <= nsec < 1000000000`
and `waitMs >= 0`, `udThread_MsToTimespec` stores a time `(sec1, nsec1)` with
`sec1 * 1000000000 + nsec1 = sec * 1000000000 + nsec + waitMs * 1000000` and
`0 <= nsec1 < 1000000000`; with a null pointer it stores nothing. -/
theorem udThread_MsToTimespec_spec (old now : timespec) (waitMs : Int)
    (hn0 : 0 ≤ now.tv_nsec) (hn1 : now.tv_nsec < 1000000000) (hw : 0 ≤ waitMs) :
    (∃ r, udThread_MsToTimespec (some old) now waitMs = some r ∧
      r.tv_sec * 1000000000 + r.tv_nsec =
        now.tv_sec * 1000000000 + now.tv_nsec + waitMs * 1000000 ∧
      0 ≤ r.tv_nsec ∧ r.tv_nsec < 1000000000) ∧
    udThread_MsToTimespec none now waitMs = none := by
  refine ⟨⟨_, rfl, ?_, ?_, ?_⟩, rfl⟩
  all_goals
    have h1 : Int.tdiv waitMs 1000 = waitMs / 1000 :=
      Int.tdiv_eq_ediv hw (by decide)
    have h2 : Int.tmod waitMs 1000 = waitMs % 1000 :=
      Int.tmod_eq_emod hw (by decide)
    have h3 : 0 ≤ now.tv_nsec + waitMs % 1000 * 1000000 := by omega
    have h4 : Int.tdiv (now.tv_nsec + waitMs % 1000 * 1000000) 1000000000 =
        (now.tv_nsec + waitMs % 1000 * 1000000) / 1000000000 :=
      Int.tdiv_eq_ediv h3 (by decide)
    have h5 : Int.tmod (now.tv_nsec + waitMs % 1000 * 1000000) 1000000000 =
        (now.tv_nsec + waitMs % 1000 * 1000000) % 1000000000 :=
      Int.tmod_eq_emod h3 (by decide)
    simp only [h1, h2, h4, h5]
    omega

/-- Witness of C19: 1999 ms from the time (100 s, 999999999 ns). -/
theorem udThread_MsToTimespec_spec_witness :
    ∃ r, udThread_MsToTimespec (some { tv_sec := 0, tv_nsec := 0 })
        { tv_sec := 100, tv_nsec := 999999999 } 1999 = some r ∧
      r.tv_sec * 1000000000 + r.tv_nsec =
        100 * 1000000000 + 999999999 + 1999 * 1000000 ∧
      0 ≤ r.tv_nsec ∧ r.tv_nsec < 1000000000 :=
  (udThread_MsToTimespec_spec { tv_sec := 0, tv_nsec := 0 }
    { tv_sec := 100, tv_nsec := 999999999 } 1999 (by decide) (by decide) (by decide)).1

/-! ## Async jobs -/

/-- After `udAsyncJob_SetResult(job, r)` on a job whose semaphore is live, a
`udAsyncJob_GetResultTimeout` with a finite timeout returns what its one timed
sleep returns: true with `*pResult = r` when the sleep is woken, false with
`*pResult` untouched when the sleep times out, the unit still there. -/
theorem getResultTimeout_after_setResult (job : udAsyncJob) (r pResult : udResult)
    (timeoutMs : Int) (rest : List Bool) (hr : 1 ≤ job.sem.refCount)
    (hc : 0 ≤ job.sem.count) (hfin : timeoutMs ≠ UDTHREAD_WAIT_INFINITE) :
    (∃ j, udAsyncJob_GetResultTimeout (udAsyncJob_SetResult job r) pResult timeoutMs
        (true :: rest) = some (true, r, j) ∧ j.sem.count = job.sem.count) ∧
    (∃ j, udAsyncJob_GetResultTimeout (udAsyncJob_SetResult job r) pResult timeoutMs
        (false :: rest) = some (false, pResult, j) ∧ j.sem.count = job.sem.count + 1) := by
  have hne : job.sem.refCount ≠ 0 := by omega
  have hlive : 1 ≤ (udIncrementSemaphore Ptr.obj 1 job.sem).refCount := by
    rw [udIncrementSemaphore_live 1 job.sem hne]
    simpa [udInterlockedPreDecrement, emit, incrementLoop_refCount,
      udInterlockedPreIncrement, readRefCount] using hr
  have hcount : (udIncrementSemaphore Ptr.obj 1 job.sem).count = job.sem.count + 1 := by
    rw [udIncrementSemaphore_live 1 job.sem hne]
    simp [udInterlockedPreDecrement, emit, incrementLoop_count,
      udInterlockedPreIncrement, readRefCount]
  constructor
  · simp only [udAsyncJob_GetResultTimeout, udAsyncJob_SetResult]
    rw [finiteWait_consume _ timeoutMs rest hlive hfin (by rw [hcount]; omega)]
    refine ⟨_, rfl, ?_⟩
    simp [hcount]
  · simp only [udAsyncJob_GetResultTimeout, udAsyncJob_SetResult]
    rw [finiteWait_timeout _ timeoutMs rest hlive hfin]
    refine ⟨_, rfl, ?_⟩
    simp [hcount]

/-- Claim C20, the code at the failing input.  A job on a fresh semaphore gets
`udAsyncJob_SetResult(job, udR_InvalidParameter_)`: `count` is 1 and the wake
has been issued with nobody asleep.  A following
`udAsyncJob_GetResultTimeout(job, &out, 100)`, and one with timeout 0, enters
the timed sleep of line 384 without looking at `count`; no other signal comes,
the OS ends the sleep with `ETIMEDOUT`, and the call returns false with `out`
untouched and the unit still in `count`. -/
theorem completed_job_reported_incomplete :
    (udAsyncJob_SetResult { sem := udCreateSemaphore, returnResult := udResult.udR_Success }
      udResult.udR_InvalidParameter_).sem.count = 1 ∧
    (udAsyncJob_GetResultTimeout
        (udAsyncJob_SetResult { sem := udCreateSemaphore, returnResult := udResult.udR_Success }
          udResult.udR_InvalidParameter_)
        udResult.udR_Success 100 [udSleepSemaphore_Internal Target.linux ETIMEDOUT]).map
        (fun x => (x.1, x.2.1, x.2.2.sem.count)) =
      some (false, udResult.udR_Success, 1) ∧
    (udAsyncJob_GetResultTimeout
        (udAsyncJob_SetResult { sem := udCreateSemaphore, returnResult := udResult.udR_Success }
          udResult.udR_InvalidParameter_)
        udResult.udR_Success 0 [udSleepSemaphore_Internal Target.linux ETIMEDOUT]).map
        (fun x => (x.1, x.2.1, x.2.2.sem.count)) =
      some (false, udResult.udR_Success, 1) := by
  exact ⟨rfl, rfl, rfl⟩

/-! ## Thread priority -/

/-- The value `udThread_SetPriority` computes under Linux, with the division
written as the rounding-down division, which it equals when `lowest <= highest`. -/
theorem priority_value (priority : udThreadPriority) (lowest highest : Int)
    (h : lowest ≤ highest) :
    Int.tdiv (priority.toInt * (highest - lowest)) udThreadPriority.udTP_Highest.toInt + lowest
      = lowest + priority.toInt * (highest - lowest) / 4 := by
  have h0 : 0 ≤ priority.toInt * (highest - lowest) := by
    cases priority <;> simp [udThreadPriority.toInt] <;> omega
  rw [show udThreadPriority.udTP_Highest.toInt = 4 from rfl,
    Int.tdiv_eq_ediv h0 (by decide)]
  omega

/-- Claim C25. Under Linux, with the levels numbered 0 to 4 and OS bounds
`lowest <= highest`, `udThread_SetPriority` on a non-null thread passes
`lowest + (level * (highest - lowest)) / 4`, the division truncating, to
`pthread_setschedprio`.  This value lies between `lowest` and `highest`, does
not decrease when the level goes up, is `lowest` for `udTP_Lowest` and `highest`
for `udTP_Highest`, and is the value `udSetThreadPriority` of udPlatform.cpp
passes for a non-zero handle.  With a null thread no OS call is made. -/
theorem udThread_SetPriority_spec (priority other : udThreadPriority)
    (lowest highest : Int) (target : Target) (threadHandle : Nat)
    (h : lowest ≤ highest) (hh : threadHandle ≠ 0) :
    udThread_SetPriority Target.linux ThreadPtr.obj priority lowest highest =
      some (PriorityCall.pthread_setschedprio
        (lowest + Int.tdiv (priority.toInt * (highest - lowest)) 4)) ∧
    lowest ≤ lowest + Int.tdiv (priority.toInt * (highest - lowest)) 4 ∧
    lowest + Int.tdiv (priority.toInt * (highest - lowest)) 4 ≤ highest ∧
    (priority.toInt ≤ other.toInt →
      lowest + Int.tdiv (priority.toInt * (highest - lowest)) 4 ≤
        lowest + Int.tdiv (other.toInt * (highest - lowest)) 4) ∧
    udThread_SetPriority Target.linux ThreadPtr.obj udThreadPriority.udTP_Lowest lowest highest =
      some (PriorityCall.pthread_setschedprio lowest) ∧
    udThread_SetPriority Target.linux ThreadPtr.obj udThreadPriority.udTP_Highest lowest highest =
      some (PriorityCall.pthread_setschedprio highest) ∧
    udPlatform.udSetThreadPriority Target.linux threadHandle priority lowest highest =
      udThread_SetPriority Target.linux ThreadPtr.obj priority lowest highest ∧
    udThread_SetPriority target ThreadPtr.null priority lowest highest = none := by
  have hv := priority_value priority lowest highest h
  have hw := priority_value other lowest highest h
  rw [show udThreadPriority.udTP_Highest.toInt = 4 from rfl] at hv hw
  have e1 : lowest + Int.tdiv (priority.toInt * (highest - lowest)) 4 =
      lowest + priority.toInt * (highest - lowest) / 4 := by omega
  have e2 : lowest + Int.tdiv (other.toInt * (highest - lowest)) 4 =
      lowest + other.toInt * (highest - lowest) / 4 := by omega
  refine ⟨?_, ?_, ?_, ?_, ?_, ?_, ?_, rfl⟩
  · simp only [udThread_SetPriority]
    rw [show udThreadPriority.udTP_Highest.toInt = 4 from rfl]
    congr 2
    omega
  · rw [e1]
    cases priority <;> simp [udThreadPriority.toInt] <;> omega
  · rw [e1]
    cases priority <;> simp [udThreadPriority.toInt] <;> omega
  · intro hle
    rw [e1, e2]
    cases priority <;> cases other <;> simp [udThreadPriority.toInt] at hle ⊢ <;> omega
  · simp [udThread_SetPriority, udThreadPriority.toInt]
  · have h4 := priority_value udThreadPriority.udTP_Highest lowest highest h
    simp only [udThread_SetPriority]
    rw [h4]
    simp only [udThreadPriority.toInt]
    congr 2
    omega
  · simp [udPlatform.udSetThreadPriority, udThread_SetPriority, hh]

/-- Witness of C25: the level `udTP_High` with OS bounds 1 and 99. -/
theorem udThread_SetPriority_spec_witness :
    udThread_SetPriority Target.linux ThreadPtr.obj udThreadPriority.udTP_High 1 99 =
      some (PriorityCall.pthread_setschedprio (1 + Int.tdiv (3 * (99 - 1)) 4)) :=
  (udThread_SetPriority_spec udThreadPriority.udTP_High udThreadPriority.udTP_Highest
    1 99 Target.linux 1 (by decide) (by decide)).1

/-! ## The semaphore wait of udPlatform.cpp -/

/-- Under Linux the wait of udPlatform.cpp passes the time `(0 s, waitMs * 1000
ns)`, the product taken in 32 bits, to `sem_timedwait`, whatever the current
time; once a second has passed since the epoch this is earlier than the
deadline `now + waitMs` ms.  Up to `waitMs = 2147483` the product does not
wrap. -/
theorem udPlatform_udWaitSemaphore_linux (waitMs osResult : Int) (now : timespec)
    (hw : 0 ≤ waitMs) (hs : 1 ≤ now.tv_sec) (hn : 0 ≤ now.tv_nsec) :
    udPlatform.udWaitSemaphore Target.linux true waitMs osResult =
      (osResult, some (SemWaitCall.sem_timedwait
        { tv_sec := 0, tv_nsec := wrapInt32 (waitMs * 1000) })) ∧
    timespec.nanos { tv_sec := 0, tv_nsec := wrapInt32 (waitMs * 1000) } <
      deadlineNanos now waitMs ∧
    (waitMs ≤ 2147483 → wrapInt32 (waitMs * 1000) = waitMs * 1000) := by
  refine ⟨rfl, ?_, ?_⟩
  · have hd : 0 ≤ (waitMs * 1000 + 2147483648) / 4294967296 :=
      Int.ediv_nonneg (by omega) (by decide)
    simp only [timespec.nanos, deadlineNanos, wrapInt32]
    omega
  · intro h
    simp only [wrapInt32]
    omega

/-- Claim C26, the code at the failing input.  Under Linux, at the time
(1700000000 s, 0 ns), `udWaitSemaphore(sem, 100)` of udPlatform.cpp passes the
time (0 s, 100000 ns) to `sem_timedwait`, which is 100 microseconds after the
epoch and not the deadline 100 ms after the current time; a null semaphore
returns -1 with no OS call. -/
theorem udPlatform_udWaitSemaphore_wrong_deadline :
    udPlatform.udWaitSemaphore Target.linux true 100 0 =
      (0, some (SemWaitCall.sem_timedwait { tv_sec := 0, tv_nsec := 100000 })) ∧
    timespec.nanos { tv_sec := 0, tv_nsec := 100000 } = 100000 ∧
    deadlineNanos { tv_sec := 1700000000, tv_nsec := 0 } 100 = 1700000000100000000 ∧
    udPlatform.udWaitSemaphore Target.linux false 100 0 = (-1, none) := by
  exact ⟨rfl, rfl, rfl, rfl⟩

/-! ## The unconditional sleep of the finite wait -/

/-- The finite wait goes to sleep whatever `count` is. -/
theorem udWaitSemaphore_enter_finite (w : World) (waitMs : Int) (hr : w.refCount ≠ 0)
    (hfin : waitMs ≠ UDTHREAD_WAIT_INFINITE) :
    udWaitSemaphore_enter Ptr.obj waitMs w =
      WaitStatus.sleeping
        { w with refCount := w.refCount + 1, locked := false,
                 log := w.log ++ [Event.refRead, Event.refInc, Event.lock,
                   Event.sleep waitMs] } := by
  simp [udWaitSemaphore_enter, readRefCount, emit, hr, hfin, sleepBegin,
    udInterlockedPreIncrement, udLockSemaphore_Internal]

/-- The finite wait whose sleep reports a timeout. -/
theorem udWaitSemaphore_resume_timeout (v : World) (waitMs : Int)
    (hfin : waitMs ≠ UDTHREAD_WAIT_INFINITE) :
    udWaitSemaphore_resume waitMs false v =
      udWaitSemaphore_exit false (sleepEnd false v) := by
  simp [udWaitSemaphore_resume, hfin]

/-- Claim C27. In the finite branch `udWaitSemaphore` enters the timed sleep
whatever `count` is on entry.  When that sleep reports a timeout, the call
returns 1, or -1 when its decrement of `refCount` gave 0 and it released the
semaphore, and `count` is what it was when the sleeper woke; run by one thread
on a semaphore with `refCount >= 1`, the call returns 1 with `count` as on
entry, positive or not. -/
theorem finite_wait_sleeps_first (w v : World) (waitMs : Int) (rest : List Bool)
    (hr : 1 ≤ w.refCount) (hfin : waitMs ≠ UDTHREAD_WAIT_INFINITE) :
    udWaitSemaphore_enter Ptr.obj waitMs w =
      WaitStatus.sleeping
        { w with refCount := w.refCount + 1, locked := false,
                 log := w.log ++ [Event.refRead, Event.refInc, Event.lock,
                   Event.sleep waitMs] } ∧
    (v.refCount = 1 →
      udWaitSemaphore_resume waitMs false v =
        WaitStatus.returned
          { v with refCount := 0, locked := true,
                   log := v.log ++ [Event.wokeUp false, Event.refDec, Event.release] }
          (-1)) ∧
    (v.refCount ≠ 1 →
      udWaitSemaphore_resume waitMs false v =
        WaitStatus.returned
          { v with refCount := v.refCount - 1, locked := false,
                   log := v.log ++ [Event.wokeUp false, Event.refDec, Event.unlock] }
          1) ∧
    (∃ w1, udWaitSemaphore Ptr.obj waitMs (false :: rest) w = some (w1, 1) ∧
      w1.count = w.count ∧ sleeps w1 = sleeps w + 1) := by
  refine ⟨udWaitSemaphore_enter_finite w waitMs (by omega) hfin, ?_, ?_, ?_⟩
  · intro h1
    rw [udWaitSemaphore_resume_timeout v waitMs hfin]
    simp [udWaitSemaphore_exit, sleepEnd, udInterlockedPreDecrement,
      udDestroySemaphore_Internal, emit, h1]
  · intro h1
    have hne : v.refCount - 1 ≠ 0 := by omega
    rw [udWaitSemaphore_resume_timeout v waitMs hfin]
    simp [udWaitSemaphore_exit, sleepEnd, udInterlockedPreDecrement,
      udUnlockSemaphore_Internal, emit, hne]
  · refine ⟨_, finiteWait_timeout w waitMs rest hr hfin, rfl, ?_⟩
    simp [sleeps, Event.isSleep]

/-- Witness of C27: a 100 ms wait on a semaphore that holds two units and whose
sleep times out. -/
theorem finite_wait_sleeps_first_witness :
    ∃ w1, udWaitSemaphore Ptr.obj 100 [false]
        (udIncrementSemaphore Ptr.obj 2 udCreateSemaphore) = some (w1, 1) ∧
      w1.count = 2 := by
  obtain ⟨w1, h1, h2, _⟩ := (finite_wait_sleeps_first
    (udIncrementSemaphore Ptr.obj 2 udCreateSemaphore) udCreateSemaphore 100 []
    (by decide) (by decide)).2.2.2
  exact ⟨w1, h1, by rw [h2]; rfl⟩

/-! ## Deadlines for negative timeouts -/

theorem neg_lt_tmod (a b : Int) (hb : 0 < b) : -b < Int.tmod a b := by
  rcases Int.lt_or_le a 0 with ha | ha
  · have h1 : Int.tmod (-a) b < b := Int.tmod_lt_of_pos (-a) hb
    have h2 : Int.tmod (-a) b = -Int.tmod a b := by
      have e1 := Int.tmod_def (-a) b
      have e2 := Int.tmod_def a b
      have e3 : Int.tdiv (-a) b = -Int.tdiv a b := Int.neg_tdiv a b
      rw [e1, e2, e3]
      ring
    omega
  · have := Int.tmod_nonneg b ha
    omega

/-- Claim C28, the code at a concrete input.  At the time (100 s, 5 ns) the
timeout -1 ms gives `(100, -999995)`: the nanosecond field is negative. -/
theorem udThread_MsToTimespec_negative_nsec :
    udThread_MsToTimespec (some { tv_sec := 0, tv_nsec := 0 })
        { tv_sec := 100, tv_nsec := 5 } (-1) =
      some { tv_sec := 100, tv_nsec := -999995 } ∧
    ¬ (0 : Int) ≤ -999995 := by
  refine ⟨rfl, by decide⟩

/-- Claim C28 as amended.  For a current time `(sec, nsec)` with
`0 <= nsec < 1000000000` and every `waitMs`, negative values included, the
time `(sec1, nsec1)` that `udThread_MsToTimespec` stores satisfies
`sec1 * 1000000000 + nsec1 = sec * 1000000000 + nsec + waitMs * 1000000` and
`-1000000000 < nsec1 < 1000000000`; `nsec1` is not negative when
`nsec + (waitMs % 1000) * 1000000` is not negative (with the truncating
remainder of C), which holds for every `waitMs >= 0`. -/
theorem udThread_MsToTimespec_any_timeout (old now : timespec) (waitMs : Int)
    (hn0 : 0 ≤ now.tv_nsec) (hn1 : now.tv_nsec < 1000000000) :
    ∃ r, udThread_MsToTimespec (some old) now waitMs = some r ∧
      r.tv_sec * 1000000000 + r.tv_nsec =
        now.tv_sec * 1000000000 + now.tv_nsec + waitMs * 1000000 ∧
      -1000000000 < r.tv_nsec ∧ r.tv_nsec < 1000000000 ∧
      (0 ≤ now.tv_nsec + Int.tmod waitMs 1000 * 1000000 → 0 ≤ r.tv_nsec) ∧
      (0 ≤ waitMs → 0 ≤ now.tv_nsec + Int.tmod waitMs 1000 * 1000000) := by
  refine ⟨_, rfl, ?_, ?_, ?_, ?_, ?_⟩
  · have e1 := Int.tmod_add_tdiv waitMs 1000
    have e2 := Int.tmod_add_tdiv (now.tv_nsec + Int.tmod waitMs 1000 * 1000000) 1000000000
    simp only
    generalize Int.tdiv (now.tv_nsec + Int.tmod waitMs 1000 * 1000000) 1000000000 = q2 at e2 ⊢
    generalize Int.tmod (now.tv_nsec + Int.tmod waitMs 1000 * 1000000) 1000000000 = r2 at e2 ⊢
    generalize Int.tdiv waitMs 1000 = q1 at e1 ⊢
    generalize Int.tmod waitMs 1000 = r1 at e1 e2 ⊢
    omega
  · exact neg_lt_tmod _ _ (by decide)
  · exact Int.tmod_lt_of_pos _ (by decide)
  · intro h
    exact Int.tmod_nonneg _ h
  · intro h
    have := Int.tmod_nonneg 1000 h
    omega

/-- Witness of C28 as amended: the timeout -1 ms at the time (100 s, 5 ns). -/
theorem udThread_MsToTimespec_any_timeout_witness :
    ∃ r, udThread_MsToTimespec (some { tv_sec := 0, tv_nsec := 0 })
        { tv_sec := 100, tv_nsec := 5 } (-1) = some r ∧
      r.tv_sec * 1000000000 + r.tv_nsec = 100 * 1000000000 + 5 + -1 * 1000000 ∧
      -1000000000 < r.tv_nsec ∧ r.tv_nsec < 1000000000 := by
  obtain ⟨r, h1, h2, h3, h4, _⟩ := udThread_MsToTimespec_any_timeout
    { tv_sec := 0, tv_nsec := 0 } { tv_sec := 100, tv_nsec := 5 } (-1)
    (by decide) (by decide)
  exact ⟨r, h1, h2, h3, h4⟩

/-! ## The async-call adapters -/

theorem udajCallArgs_fields (n : Nat) (args : List Nat) (job : Nat)
    (h1 : 1 ≤ n) (h7 : n ≤ 7) (hl : args.length = n) :
    udajCallArgs n { fields := args, pAsyncJob := job } = args := by
  subst hl
  rcases args with _ | ⟨a0, _ | ⟨a1, _ | ⟨a2, _ | ⟨a3, _ | ⟨a4, _ | ⟨a5, _ | ⟨a6, _ | ⟨a7, rest⟩⟩⟩⟩⟩⟩⟩⟩
  · simp at h1
  · rfl
  · rfl
  · rfl
  · rfl
  · rfl
  · rfl
  · rfl
  · simp only [List.length_cons] at h7
    omega

/-- The adapters when `udMemDup` and the allocation of the thread object
succeed.  For every arity `n` from 1 to 7 and `n` arguments: with a null
`pAsyncJob` the macro does nothing; with a non-null one the enclosing function
returns what `udThread_Create(nullptr, udajStartFunc, copy)` returns, which is
`udR_Success`, no handle being written; the thread object holds the entry
function of this macro and the address of the copy, the bootstrap of the new
thread calls that function on that address, and the call runs `func` once on
the captured arguments in their order and a null job, passes its value to
`udAsyncJob_SetResult` on the captured job once, frees the block and returns
0. -/
theorem UDASYNC_CALL_spawn (n : Nat) (args : List Nat) (job : Nat)
    (func : List Nat → Option Nat → udResult) (osOk : Bool) (target : Target)
    (run : Nat → Nat → Nat) (w : ThreadWorld)
    (h1 : 1 ≤ n) (h7 : n ≤ 7) (hl : args.length = n) :
    UDASYNC_CALL n args none true true osOk w = none ∧
    UDASYNC_CALL n args (some job) true true osOk w =
      some (udResult.udR_Success, some { fields := args, pAsyncJob := job },
        (udThread_Create ThreadHandlePtr.null n 1 true osOk w).2) ∧
    (udThread_Create ThreadHandlePtr.null n 1 true osOk w).1 = udResult.udR_Success ∧
    (udThread_Create ThreadHandlePtr.null n 1 true osOk w).2 =
      { w with pThreadStarter := n, pThreadData := 1, refCount := 1,
               log := w.log ++ [ThreadEvent.alloc, ThreadEvent.setFields,
                 ThreadEvent.refSet, ThreadEvent.osCreate osOk] } ∧
    (udThread_Bootstrap target run
        (udThread_Create ThreadHandlePtr.null n 1 true osOk w).2).2.log.count
        (ThreadEvent.entry n 1) = w.log.count (ThreadEvent.entry n 1) + 1 ∧
    udajThreadEntry func (some { fields := args, pAsyncJob := job })
        (udThread_Create ThreadHandlePtr.null n 1 true osOk w).2 =
      some (0, [AdapterEvent.callFunc args none,
        AdapterEvent.setResult job (func args none), AdapterEvent.free]) := by
  have hc := udThread_Create_no_handle n 1 osOk w
  have ha := udajCallArgs_fields n args job h1 h7 hl
  refine ⟨rfl, ?_, ?_, ?_, ?_, ?_⟩
  · simp [UDASYNC_CALL, udMemDup, hc]
  · rw [hc]
  · rw [hc]
  · rw [udThread_Bootstrap_eq, hc]
    cases hcb : w.callback <;> cases target <;>
      simp [callbackEvents, releaseEvents, List.count_cons]
  · rw [hc]
    simp [udajThreadEntry, udajDeref, udajStartFunc, ha]

/-- Claim C21, the code at the failing input.  For every arity, when `udMemDup`
returns the null pointer and the thread object is allocated, `UDASYNC_CALL<n>`
with a non-null `pAsyncJob` makes the enclosing function return `udR_Success`:
`udThread_Create` was given the entry function of the macro and the null
pointer as its data, and has asked the OS for the thread.  The entry function
called on the stored data dereferences the null pointer: it calls neither
`func` nor `udAsyncJob_SetResult`, and returns nothing. -/
theorem async_call_null_block (n : Nat) (args : List Nat) (job : Nat)
    (func : List Nat → Option Nat → udResult) (osOk : Bool) (w : ThreadWorld) :
    UDASYNC_CALL n args (some job) false true osOk w =
      some (udResult.udR_Success, none,
        { w with pThreadStarter := n, pThreadData := 0, refCount := 1,
                 log := w.log ++ [ThreadEvent.alloc, ThreadEvent.setFields,
                   ThreadEvent.refSet, ThreadEvent.osCreate osOk] }) ∧
    udajThreadEntry func none
        { w with pThreadStarter := n, pThreadData := 0, refCount := 1,
                 log := w.log ++ [ThreadEvent.alloc, ThreadEvent.setFields,
                   ThreadEvent.refSet, ThreadEvent.osCreate osOk] } = none ∧
    UDASYNC_CALL 1 [5] (some 3) false true true ThreadWorld.initial =
      some (udResult.udR_Success, none,
        { callback := none, creatorHandle := ThreadPtr.null,
          bootstrapHandle := ThreadPtr.null, pThreadStarter := 1, pThreadData := 0,
          refCount := 1,
          log := [ThreadEvent.alloc, ThreadEvent.setFields, ThreadEvent.refSet,
            ThreadEvent.osCreate true] }) := by
  refine ⟨?_, rfl, rfl⟩
  simp [UDASYNC_CALL, udMemDup, udThread_Create_no_handle]

/-! ## The scoped lock -/

theorem bodyStates_held (m : Nat) (body : List (MutexWorld → MutexWorld))
    (hbody : ∀ f ∈ body, ∀ t, (f t).held m = t.held m) (s : MutexWorld) :
    (∀ t ∈ bodyStates body s, t.held m = s.held m) ∧
    (bodyEnd body s).held m = s.held m := by
  induction body generalizing s with
  | nil => simp [bodyStates, bodyEnd]
  | cons f fs ih =>
    have hf : (f s).held m = s.held m := hbody f (List.mem_cons_self f fs) s
    obtain ⟨h1, h2⟩ := ih (fun g hg => hbody g (List.mem_cons_of_mem f hg)) (f s)
    constructor
    · intro t ht
      simp only [bodyStates, List.mem_cons] at ht
      rcases ht with ht | ht
      · rw [ht, hf]
      · rw [h1 t ht, hf]
    · simp only [bodyEnd, List.foldl_cons] at h2 ⊢
      rw [h2, hf]

/-- Claim C22. The constructor of `udScopeLock` on the mutex `m` makes one call
`udLockMutex(m)` and nothing else, and the destructor makes one call
`udReleaseMutex` on the same `m` and nothing else.  For a scope body none of
whose steps changes the state of `m`, the mutex is held after the
construction and after every step of the body, and it is not held after the
end of the scope; the calls made on the mutexes are those of the body between
one lock and one unlock of `m`. -/
theorem scope_lock_balanced (m : Nat) (s t : MutexWorld)
    (body : List (MutexWorld → MutexWorld))
    (hbody : ∀ f ∈ body, ∀ u, (f u).held m = u.held m) :
    udScopeLock.construct (some m) s = ({ m_mutex := some m }, udLockMutex (some m) s) ∧
    (udScopeLock.construct (some m) s).2.log = s.log ++ [MutexEvent.lock m] ∧
    udScopeLock.destruct (udScopeLock.construct (some m) s).1 t =
      udReleaseMutex (some m) t ∧
    (udScopeLock.destruct (udScopeLock.construct (some m) s).1 t).log =
      t.log ++ [MutexEvent.unlock m] ∧
    (udScopeLock.construct (some m) s).2.held m = true ∧
    (∀ u ∈ bodyStates body (udScopeLock.construct (some m) s).2, u.held m = true) ∧
    (scopedBody (some m) body s).held m = false ∧
    (scopedBody (some m) body s).log =
      (bodyEnd body (udLockMutex (some m) s)).log ++ [MutexEvent.unlock m] := by
  have hheld : (udScopeLock.construct (some m) s).2.held m = true := by
    simp [udScopeLock.construct, udLockMutex]
  obtain ⟨h1, _⟩ := bodyStates_held m body hbody (udScopeLock.construct (some m) s).2
  refine ⟨rfl, rfl, rfl, rfl, hheld, ?_, ?_, rfl⟩
  · intro u hu
    rw [h1 u hu, hheld]
  · simp [scopedBody, udScopeLock.destruct, udScopeLock.construct, udReleaseMutex]

/-- Witness of C22: a body of one step that locks and unlocks another mutex. -/
theorem scope_lock_balanced_witness :
    (scopedBody (some 1)
        [fun u => udReleaseMutex (some 2) (udLockMutex (some 2) u)]
        { held := fun _ => false, log := [] }).held 1 = false ∧
    (scopedBody (some 1)
        [fun u => udReleaseMutex (some 2) (udLockMutex (some 2) u)]
        { held := fun _ => false, log := [] }).log =
      [MutexEvent.lock 1, MutexEvent.lock 2, MutexEvent.unlock 2, MutexEvent.unlock 1] := by
  have h := scope_lock_balanced 1 { held := fun _ => false, log := [] }
    { held := fun _ => false, log := [] }
    [fun u => udReleaseMutex (some 2) (udLockMutex (some 2) u)]
    (by
      intro f hf u
      simp only [List.mem_singleton] at hf
      subst hf
      simp [udReleaseMutex, udLockMutex, Function.update])
  exact ⟨h.2.2.2.2.2.2.1, by rw [h.2.2.2.2.2.2.2]; rfl⟩

/-! ## Lock discipline -/

theorem heldAfter_cons (e : Event) (es : List Event) (h : Bool) :
    heldAfter (e :: es) h = heldAfter es (heldAfter [e] h) := by
  cases e <;> rfl

theorem heldAfter_append (a b : List Event) (h : Bool) :
    heldAfter (a ++ b) h = heldAfter b (heldAfter a h) := by
  induction a generalizing h with
  | nil => rfl
  | cons e es ih =>
    rw [List.cons_append, heldAfter_cons, ih, ← heldAfter_cons]

theorem eventsWhile_append (p : Event → Bool) (wanted : Bool) (a b : List Event) (h : Bool) :
    eventsWhile p wanted (a ++ b) h =
      eventsWhile p wanted a h + eventsWhile p wanted b (heldAfter a h) := by
  induction a generalizing h with
  | nil => simp [eventsWhile, heldAfter]
  | cons e es ih =>
    rw [List.cons_append]
    simp only [eventsWhile]
    rw [ih, heldAfter_cons e es h]
    omega

theorem orderly_append (a b : List Event) (ha : Orderly a) (hh : heldAfter a false = false)
    (hb : Orderly b) : Orderly (a ++ b) := by
  obtain ⟨a1, a2, a3⟩ := ha
  obtain ⟨b1, b2, b3⟩ := hb
  refine ⟨?_, ?_, ?_⟩ <;> rw [eventsWhile_append, hh] <;> omega

theorem pending_sleep (a b : List Event) (ha : Pending a) (hb : SleepDelta b) :
    Pending (a ++ b) := by
  obtain ⟨a1, a2, a3, a4, a5, a6⟩ := ha
  obtain ⟨b1, b2, b3, b4, b5, b6⟩ := hb
  refine ⟨orderly_append a b a1 a2 b1, ?_, ?_, ?_, ?_, ?_⟩
  · rw [heldAfter_append, a2, b2]
  · rw [List.count_append, List.count_append]
    omega
  · rw [List.count_append]
    omega
  · rw [List.count_append]
    omega
  · rw [List.count_append]
    omega

theorem pending_return (a b : List Event) (ha : Pending a) (hb : ReturnDelta b) :
    CallDiscipline (a ++ b) := by
  obtain ⟨a1, a2, a3, a4, a5, a6⟩ := ha
  obtain ⟨b1, b2, b3, b4, b5⟩ := hb
  refine ⟨orderly_append a b a1 a2 b1, ?_, ?_⟩
  · rw [List.count_append, List.count_append]
    omega
  · intro hrel
    rw [List.count_append] at hrel
    obtain ⟨c1, c2⟩ := b5 (by omega)
    constructor
    · rw [List.count_append, List.count_append]
      omega
    · rw [heldAfter_append, a2, c2]

/-- The events of one stretch of `udWaitSemaphore` from the return of a sleep. -/
theorem resume_events (waitMs : Int) (b : Bool) (v : World) :
    (udWaitSemaphore_resume waitMs b v).world.log =
      v.log ++ newEvents v (udWaitSemaphore_resume waitMs b v).world ∧
    (∀ v1, udWaitSemaphore_resume waitMs b v = WaitStatus.sleeping v1 →
      SleepDelta (newEvents v v1)) ∧
    (∀ v1 r, udWaitSemaphore_resume waitMs b v = WaitStatus.returned v1 r →
      ReturnDelta (newEvents v v1)) := by
  unfold udWaitSemaphore_resume udWaitSemaphore_loop udWaitSemaphore_exit
  simp only
  split_ifs <;>
    simp [WaitStatus.world, newEvents, sleepEnd, sleepBegin, readCount, decCount,
      udInterlockedPreDecrement, udDestroySemaphore_Internal, udUnlockSemaphore_Internal,
      emit, SleepDelta, ReturnDelta, Orderly, eventsWhile, heldAfter, List.count_cons,
      Event.isCountChange, Event.isRefInc, Event.isRefDec]

/-- The events of `udWaitSemaphore` from its entry to its first sleep or to its
return. -/
theorem enter_events (p : Ptr) (waitMs : Int) (w : World) :
    (udWaitSemaphore_enter p waitMs w).world.log =
      w.log ++ newEvents w (udWaitSemaphore_enter p waitMs w).world ∧
    (∀ v1, udWaitSemaphore_enter p waitMs w = WaitStatus.sleeping v1 →
      Pending (newEvents w v1)) ∧
    (∀ v1 r, udWaitSemaphore_enter p waitMs w = WaitStatus.returned v1 r →
      CallDiscipline (newEvents w v1)) := by
  cases p with
  | null =>
    simp [udWaitSemaphore_enter, WaitStatus.world, newEvents, CallDiscipline, Orderly,
      eventsWhile, heldAfter]
  | obj =>
    unfold udWaitSemaphore_enter udWaitSemaphore_loop udWaitSemaphore_exit
    simp only
    split_ifs <;>
      simp [WaitStatus.world, newEvents, sleepBegin, readCount, readRefCount, decCount,
        udInterlockedPreIncrement, udInterlockedPreDecrement, udLockSemaphore_Internal,
        udDestroySemaphore_Internal, udUnlockSemaphore_Internal,
        emit, Pending, CallDiscipline, Orderly, eventsWhile, heldAfter, List.count_cons,
        Event.isCountChange, Event.isRefInc, Event.isRefDec]

theorem driveWait_discipline (waitMs : Int) (rs : List Bool) (w v w1 : World) (ret : Int)
    (evs0 : List Event) (hv : v.log = w.log ++ evs0) (hp : Pending evs0)
    (hrun : driveWait waitMs rs v = some (w1, ret)) :
    ∃ evs, w1.log = w.log ++ evs ∧ CallDiscipline evs := by
  induction rs generalizing v evs0 with
  | nil => simp [driveWait] at hrun
  | cons b bs ih =>
    obtain ⟨h1, h2, h3⟩ := resume_events waitMs b v
    simp only [driveWait] at hrun
    cases hst : udWaitSemaphore_resume waitMs b v with
    | sleeping v1 =>
      rw [hst] at hrun h1
      simp only [WaitStatus.world] at h1
      refine ih v1 (evs0 ++ newEvents v v1) ?_ (pending_sleep _ _ hp (h2 v1 hst)) hrun
      rw [h1, hv, List.append_assoc]
    | returned v1 r =>
      rw [hst] at hrun h1
      simp only [WaitStatus.world] at h1
      simp only [Option.some.injEq, Prod.mk.injEq] at hrun
      refine ⟨evs0 ++ newEvents v v1, ?_, pending_return _ _ hp (h3 v1 r hst)⟩
      rw [← hrun.1, h1, hv, List.append_assoc]

/-- The events of a whole call of `udWaitSemaphore` run by one thread, with any
values returned by its sleeps. -/
theorem wait_discipline (p : Ptr) (waitMs : Int) (rs : List Bool) (w w1 : World) (ret : Int)
    (hrun : udWaitSemaphore p waitMs rs w = some (w1, ret)) :
    ∃ evs, w1.log = w.log ++ evs ∧ CallDiscipline evs := by
  obtain ⟨h1, h2, h3⟩ := enter_events p waitMs w
  simp only [udWaitSemaphore] at hrun
  cases hst : udWaitSemaphore_enter p waitMs w with
  | sleeping v1 =>
    rw [hst] at hrun h1
    simp only [WaitStatus.world] at h1
    exact driveWait_discipline waitMs rs w v1 w1 ret _ h1 (h2 v1 hst) hrun
  | returned v1 r =>
    rw [hst] at hrun h1
    simp only [WaitStatus.world] at h1
    simp only [Option.some.injEq, Prod.mk.injEq] at hrun
    refine ⟨newEvents w v1, ?_, h3 v1 r hst⟩
    rw [← hrun.1, h1]

theorem incrementSteps_scan (p : Event → Bool) (wanted : Bool) (n : Nat) (h : Bool)
    (hstep : eventsWhile p wanted incrementStep h = 0)
    (hstep0 : eventsWhile p wanted incrementStep false = 0) :
    eventsWhile p wanted (List.replicate n incrementStep).flatten h = 0 ∧
    heldAfter (List.replicate n incrementStep).flatten h = (if n = 0 then h else false) := by
  induction n generalizing h with
  | zero => simp [eventsWhile, heldAfter]
  | succ k ih =>
    obtain ⟨i1, i2⟩ := ih false hstep0
    have hh : heldAfter incrementStep h = false := by
      cases h <;> rfl
    constructor
    · rw [List.replicate_succ, List.flatten_cons, eventsWhile_append, hstep, hh, i1]
    · rw [List.replicate_succ, List.flatten_cons, heldAfter_append, hh, i2]
      simp

theorem drainSteps_scan (p : Event → Bool) (wanted : Bool) (n : Nat)
    (hstep : eventsWhile p wanted [Event.countInc, Event.wake] true = 0) :
    eventsWhile p wanted (List.replicate n [Event.countInc, Event.wake]).flatten true = 0 ∧
    heldAfter (List.replicate n [Event.countInc, Event.wake]).flatten true = true := by
  induction n with
  | zero => simp [eventsWhile, heldAfter]
  | succ k ih =>
    obtain ⟨i1, i2⟩ := ih
    have hh : heldAfter [Event.countInc, Event.wake] true = true := rfl
    constructor
    · rw [List.replicate_succ, List.flatten_cons, eventsWhile_append, hstep, hh, i1]
    · rw [List.replicate_succ, List.flatten_cons, heldAfter_append, hh, i2]

/-- The events of a call of `udIncrementSemaphore`: `count` is changed under
the lock only, `refCount` outside the lock only, and there are as many unlocks
as locks. -/
theorem increment_discipline (p : Ptr) (k : Int) (w : World) :
    ∃ evs, (udIncrementSemaphore p k w).log = w.log ++ evs ∧
      eventsWhile Event.isCountChange false evs false = 0 ∧
      eventsWhile Event.isRefChange true evs false = 0 ∧
      evs.count Event.lock = evs.count Event.unlock ∧
      evs.count Event.release = 0 := by
  cases p with
  | null => exact ⟨[], by simp [udIncrementSemaphore], rfl, rfl, rfl, rfl⟩
  | obj =>
    by_cases h0 : w.refCount = 0
    · refine ⟨[Event.refRead], ?_, rfl, rfl, rfl, rfl⟩
      simp [udIncrementSemaphore, readRefCount, emit, h0]
    · refine ⟨incrementEvents k, ?_, ?_, ?_, ?_, ?_⟩
      · rw [udIncrementSemaphore_live k w h0]
        simp [udInterlockedPreDecrement, emit, incrementLoop_log,
          udInterlockedPreIncrement, readRefCount, incrementEvents]
      · obtain ⟨c1, c2⟩ := incrementSteps_scan Event.isCountChange false k.toNat false rfl rfl
        have hp : heldAfter [Event.refRead, Event.refInc] false = false := rfl
        simp only [incrementEvents]
        rw [eventsWhile_append, eventsWhile_append, hp, c1]
        rfl
      · obtain ⟨c1, c2⟩ := incrementSteps_scan Event.isRefChange true k.toNat false rfl rfl
        have hp : heldAfter [Event.refRead, Event.refInc] false = false := rfl
        have c3 : heldAfter ([Event.refRead, Event.refInc] ++
            (List.replicate k.toNat incrementStep).flatten) false = false := by
          rw [heldAfter_append, hp, c2]
          split_ifs <;> rfl
        simp only [incrementEvents]
        rw [eventsWhile_append, eventsWhile_append, c3, hp, c1]
        rfl
      · simp [incrementEvents, count_flatten_replicate, incrementStep, List.count_cons]
      · simp [incrementEvents, count_flatten_replicate, incrementStep, List.count_cons]

/-- The events of a call of `udDestroySemaphore` that returns: `count` is
changed under the lock only, `refCount` is not incremented, its one decrement
is made under the lock, and a call that does not release has unlocked as often
as it has locked. -/
theorem destroy_discipline (pp : HandlePtr) (w w1 : World)
    (hrun : udDestroySemaphore pp w = some w1) :
    ∃ evs, w1.log = w.log ++ evs ∧
      eventsWhile Event.isCountChange false evs false = 0 ∧
      eventsWhile Event.isRefInc true evs false = 0 ∧
      eventsWhile Event.isRefDec false evs false = 0 ∧
      (pp = HandlePtr.var →
        evs.count Event.refDec = 1 ∧ eventsWhile Event.isRefDec true evs false = 1) ∧
      (evs.count Event.release = 0 → evs.count Event.lock = evs.count Event.unlock) := by
  cases pp with
  | null =>
    simp only [udDestroySemaphore, Option.some.injEq] at hrun
    subst hrun
    exact ⟨[], by simp, rfl, rfl, rfl, fun h => absurd h (by decide), fun _ => rfl⟩
  | var =>
    cases hh : w.handle with
    | null => rw [udDestroySemaphore_null_handle w hh] at hrun; cases hrun
    | obj =>
      by_cases h1 : w.refCount = 1
      · rw [udDestroySemaphore_last w hh h1] at hrun
        simp only [Option.some.injEq] at hrun
        subst hrun
        refine ⟨[Event.lock, Event.refDec, Event.release], ?_, rfl, rfl, rfl,
          fun _ => ⟨rfl, rfl⟩, ?_⟩
        · simp [udDestroySemaphore_Internal, udInterlockedPreDecrement,
            udLockSemaphore_Internal, emit]
        · intro h
          exact absurd h (by decide)
      · rw [udDestroySemaphore_drain w hh h1] at hrun
        simp only [Option.some.injEq] at hrun
        subst hrun
        have hsplit : [Event.lock, Event.refDec, Event.refRead] ++
            (List.replicate (w.refCount - 1).toNat [Event.countInc, Event.wake]).flatten ++
            [Event.unlock] =
            [Event.lock, Event.refDec, Event.refRead] ++
            ((List.replicate (w.refCount - 1).toNat [Event.countInc, Event.wake]).flatten ++
            [Event.unlock]) := by simp
        have hpre : heldAfter [Event.lock, Event.refDec, Event.refRead] false = true := rfl
        refine ⟨[Event.lock, Event.refDec, Event.refRead] ++
          (List.replicate (w.refCount - 1).toNat [Event.countInc, Event.wake]).flatten ++
          [Event.unlock], ?_, ?_, ?_, ?_, fun _ => ⟨?_, ?_⟩, ?_⟩
        · simp [udUnlockSemaphore_Internal, emit, drainLoop_log, readRefCount,
            udInterlockedPreDecrement, udLockSemaphore_Internal]
        · obtain ⟨c1, c2⟩ := drainSteps_scan Event.isCountChange false
            (w.refCount - 1).toNat rfl
          rw [hsplit, eventsWhile_append, hpre, eventsWhile_append, c1, c2]
          rfl
        · obtain ⟨c1, c2⟩ := drainSteps_scan Event.isRefInc true
            (w.refCount - 1).toNat rfl
          rw [hsplit, eventsWhile_append, hpre, eventsWhile_append, c1, c2]
          rfl
        · obtain ⟨c1, c2⟩ := drainSteps_scan Event.isRefDec false
            (w.refCount - 1).toNat rfl
          rw [hsplit, eventsWhile_append, hpre, eventsWhile_append, c1, c2]
          rfl
        · simp [count_flatten_replicate, List.count_cons]
        · obtain ⟨c1, c2⟩ := drainSteps_scan Event.isRefDec true
            (w.refCount - 1).toNat rfl
          rw [hsplit, eventsWhile_append, hpre, eventsWhile_append, c1, c2]
          rfl
        · intro _
          simp [count_flatten_replicate, List.count_cons]

/-! ## Lock discipline of the semaphore -/

/-- Claim C23, as stated, fails: a call of `udDestroySemaphore` on a fresh
semaphore logs lock, decrement of `refCount`, release, and a call of
`udWaitSemaphore` that finds a unit logs its decrement of `refCount` between
the lock and the unlock; each call makes one atomic change of `refCount`
while the caller holds the internal lock. -/
theorem refCount_decrement_under_lock :
    (udDestroySemaphore HandlePtr.var udCreateSemaphore).map World.log =
      some [Event.lock, Event.refDec, Event.release] ∧
    eventsWhile Event.isRefChange true [Event.lock, Event.refDec, Event.release] false = 1 ∧
    (udWaitSemaphore Ptr.obj UDTHREAD_WAIT_INFINITE []
        (udIncrementSemaphore Ptr.obj 1 udCreateSemaphore)).map
      (fun r => (newEvents (udIncrementSemaphore Ptr.obj 1 udCreateSemaphore) r.1, r.2)) =
      some ([Event.refRead, Event.refInc, Event.lock, Event.countRead, Event.countDec,
        Event.refDec, Event.unlock], 0) ∧
    eventsWhile Event.isRefChange true
      [Event.refRead, Event.refInc, Event.lock, Event.countRead, Event.countDec,
        Event.refDec, Event.unlock] false = 1 := by
  refine ⟨by decide, by decide, by decide, by decide⟩

/-- Claim C23, amended: along every call that returns, started by a thread that
does not hold the internal lock, no atomic increment of `refCount` is made
under the lock; `udIncrementSemaphore` makes no atomic change of `refCount`
under the lock at all; `udDestroySemaphore` and `udWaitSemaphore` make no
atomic decrement of `refCount` outside the lock, the one decrement of
`udDestroySemaphore` through a handle variable is made under the lock, and
`udWaitSemaphore` decrements as often as it increments. -/
theorem refCount_lock_positions (p : Ptr) (k waitMs : Int) (rs : List Bool)
    (pp : HandlePtr) (w : World) :
    (∃ evs, (udIncrementSemaphore p k w).log = w.log ++ evs ∧
      eventsWhile Event.isRefChange true evs false = 0) ∧
    (∀ w1, udDestroySemaphore pp w = some w1 →
      ∃ evs, w1.log = w.log ++ evs ∧
        eventsWhile Event.isRefInc true evs false = 0 ∧
        eventsWhile Event.isRefDec false evs false = 0 ∧
        (pp = HandlePtr.var →
          evs.count Event.refDec = 1 ∧ eventsWhile Event.isRefDec true evs false = 1)) ∧
    (∀ w1 ret, udWaitSemaphore p waitMs rs w = some (w1, ret) →
      ∃ evs, w1.log = w.log ++ evs ∧
        eventsWhile Event.isRefInc true evs false = 0 ∧
        eventsWhile Event.isRefDec false evs false = 0 ∧
        evs.count Event.refDec = evs.count Event.refInc) := by
  refine ⟨?_, ?_, ?_⟩
  · obtain ⟨evs, h1, _, h3, _, _⟩ := increment_discipline p k w
    exact ⟨evs, h1, h3⟩
  · intro w1 hrun
    obtain ⟨evs, h1, _, h3, h4, h5, _⟩ := destroy_discipline pp w w1 hrun
    exact ⟨evs, h1, h3, h4, h5⟩
  · intro w1 ret hrun
    obtain ⟨evs, h1, ⟨_, h3, h4⟩, h5, _⟩ := wait_discipline p waitMs rs w w1 ret hrun
    exact ⟨evs, h1, h3, h4, h5⟩

/-- Claim C23, amended, on a semaphore that holds one unit: the wait and the
destroy both return, and their events are placed as the theorem says. -/
theorem refCount_lock_positions_witness :
    (∃ w1, udDestroySemaphore HandlePtr.var
        (udIncrementSemaphore Ptr.obj 1 udCreateSemaphore) = some w1 ∧
      ∃ evs, w1.log = (udIncrementSemaphore Ptr.obj 1 udCreateSemaphore).log ++ evs ∧
        eventsWhile Event.isRefInc true evs false = 0 ∧
        eventsWhile Event.isRefDec false evs false = 0 ∧
        (HandlePtr.var = HandlePtr.var →
          evs.count Event.refDec = 1 ∧ eventsWhile Event.isRefDec true evs false = 1)) ∧
    (∃ w1, udWaitSemaphore Ptr.obj UDTHREAD_WAIT_INFINITE []
        (udIncrementSemaphore Ptr.obj 1 udCreateSemaphore) = some (w1, 0) ∧
      ∃ evs, w1.log = (udIncrementSemaphore Ptr.obj 1 udCreateSemaphore).log ++ evs ∧
        eventsWhile Event.isRefInc true evs false = 0 ∧
        eventsWhile Event.isRefDec false evs false = 0 ∧
        evs.count Event.refDec = evs.count Event.refInc) :=
  ⟨⟨_, rfl, (refCount_lock_positions Ptr.obj 1 UDTHREAD_WAIT_INFINITE [] HandlePtr.var
      (udIncrementSemaphore Ptr.obj 1 udCreateSemaphore)).2.1 _ rfl⟩,
   ⟨_, rfl, (refCount_lock_positions Ptr.obj 1 UDTHREAD_WAIT_INFINITE [] HandlePtr.var
      (udIncrementSemaphore Ptr.obj 1 udCreateSemaphore)).2.2 _ _ rfl⟩⟩

/-- Claim C24: along every call of `udIncrementSemaphore`, and every call of
`udWaitSemaphore` and `udDestroySemaphore` that returns, started by a thread
that does not hold the internal lock, no read-modify-write of `count` is made
while the caller does not hold the lock; and a call that has not released the
semaphore has unlocked as many times as it has locked. -/
theorem count_changes_under_lock (p : Ptr) (k waitMs : Int) (rs : List Bool)
    (pp : HandlePtr) (w : World) :
    (∃ evs, (udIncrementSemaphore p k w).log = w.log ++ evs ∧
      eventsWhile Event.isCountChange false evs false = 0 ∧
      (evs.count Event.release = 0 → evs.count Event.lock = evs.count Event.unlock)) ∧
    (∀ w1 ret, udWaitSemaphore p waitMs rs w = some (w1, ret) →
      ∃ evs, w1.log = w.log ++ evs ∧
        eventsWhile Event.isCountChange false evs false = 0 ∧
        (evs.count Event.release = 0 → evs.count Event.lock = evs.count Event.unlock)) ∧
    (∀ w1, udDestroySemaphore pp w = some w1 →
      ∃ evs, w1.log = w.log ++ evs ∧
        eventsWhile Event.isCountChange false evs false = 0 ∧
        (evs.count Event.release = 0 → evs.count Event.lock = evs.count Event.unlock)) := by
  refine ⟨?_, ?_, ?_⟩
  · obtain ⟨evs, h1, h2, _, h4, _⟩ := increment_discipline p k w
    exact ⟨evs, h1, h2, fun _ => h4⟩
  · intro w1 ret hrun
    obtain ⟨evs, h1, ⟨h2, _, _⟩, _, h6⟩ := wait_discipline p waitMs rs w w1 ret hrun
    exact ⟨evs, h1, h2, fun h => (h6 h).1⟩
  · intro w1 hrun
    obtain ⟨evs, h1, h2, _, _, _, h6⟩ := destroy_discipline pp w w1 hrun
    exact ⟨evs, h1, h2, h6⟩

/-- Claim C24 on a semaphore with two references and one unit: the wait takes
the unit and the destroy drains, both return without releasing, and their
events are placed as the theorem says. -/
theorem count_changes_under_lock_witness :
    (∃ w1, udWaitSemaphore Ptr.obj UDTHREAD_WAIT_INFINITE []
        { udCreateSemaphore with count := 1, refCount := 2 } = some (w1, 0) ∧
      w1.count = 0 ∧
      ∃ evs, w1.log = ({ udCreateSemaphore with count := 1, refCount := 2 } : World).log ++ evs ∧
        eventsWhile Event.isCountChange false evs false = 0 ∧
        (evs.count Event.release = 0 → evs.count Event.lock = evs.count Event.unlock)) ∧
    (∃ w1, udDestroySemaphore HandlePtr.var
        { udCreateSemaphore with count := 1, refCount := 2 } = some w1 ∧
      w1.count = 2 ∧
      ∃ evs, w1.log = ({ udCreateSemaphore with count := 1, refCount := 2 } : World).log ++ evs ∧
        eventsWhile Event.isCountChange false evs false = 0 ∧
        (evs.count Event.release = 0 → evs.count Event.lock = evs.count Event.unlock)) :=
  ⟨⟨_, rfl, rfl, (count_changes_under_lock Ptr.obj 1 UDTHREAD_WAIT_INFINITE [] HandlePtr.var
      { udCreateSemaphore with count := 1, refCount := 2 }).2.1 _ _ rfl⟩,
   ⟨_, rfl, rfl, (count_changes_under_lock Ptr.obj 1 UDTHREAD_WAIT_INFINITE [] HandlePtr.var
      { udCreateSemaphore with count := 1, refCount := 2 }).2.2 _ rfl⟩⟩

end UdThread
